import Mathlib

/-!
# Memory tracker layer (`layers/mem_tracker.cpp`)

A shallow embedding of the bookkeeping engine of the memory tracker validation
layer, followed by theorems about it.

Conventions of the embedding.

* Every API handle (`VkObject`, `VkDeviceMemory`, `VkCmdBuffer`, `VkFence`,
  `VkQueue`, `VkSwapChainWSI`) is a natural number; `0` is `NULL` /
  `VK_NULL_HANDLE`.
* The global `unordered_map`s are association lists with the three operations
  `lookup` (`find`), `assign` (`operator[]` followed by a store) and `erase`.
* A pointer into a map (`MT_MEM_OBJ_INFO*` kept in `MT_OBJ_INFO::pMemObjInfo`)
  is the key of the record it points to; it dangles when that key has no
  record.  Dereferencing a null or dangling pointer, and using an invalidated
  list iterator, is undefined behaviour of the C++ program: the functions in
  which this can happen return `Option`, and `none` stands for it.
* `layerCbMsg` calls are collected, in call order, as a list of `Diag`
  (message type, source object, message code); the text is not modelled.
* `uint32_t` and `uint64_t` counters are natural numbers reduced modulo
  `2^32` and `2^64` at every increment and decrement.
* A forwarded driver call is an input of the entry point (the handle or the
  `VkResult` the driver produced).
-/

namespace MemTracker

/-! ## Handles, diagnostics -/

abbrev Handle := Nat

/-- The null handle (`NULL`, `VK_NULL_HANDLE`). -/
def VK_NULL_HANDLE : Handle := 0

/-- Message types passed to `layerCbMsg`. -/
inductive VK_DBG_MSG_TYPE where
  | VK_DBG_MSG_UNKNOWN
  | VK_DBG_MSG_ERROR
  | VK_DBG_MSG_WARNING
  | VK_DBG_MSG_PERF_WARNING
deriving DecidableEq, Repr

/-- Message codes of the layer (`MEM_TRACK_ERROR` of `mem_tracker.h`), the ones
`mem_tracker.cpp` passes to `layerCbMsg`. -/
inductive MEM_TRACK_ERROR where
  | MEMTRACK_NONE
  | MEMTRACK_INVALID_CB
  | MEMTRACK_INVALID_MEM_OBJ
  | MEMTRACK_INTERNAL_ERROR
  | MEMTRACK_FREED_MEM_REF
  | MEMTRACK_MEM_OBJ_CLEAR_EMPTY_BINDINGS
  | MEMTRACK_MISSING_MEM_BINDINGS
  | MEMTRACK_INVALID_OBJECT
  | MEMTRACK_MEMORY_BINDING_ERROR
  | MEMTRACK_MEMORY_LEAK
  | MEMTRACK_INVALID_STATE
  | MEMTRACK_RESET_CB_WHILE_IN_FLIGHT
  | MEMTRACK_INVALID_FENCE_STATE
  | MEMTRACK_REBIND_OBJECT
deriving DecidableEq, Repr

open VK_DBG_MSG_TYPE MEM_TRACK_ERROR

/-- One call `layerCbMsg(msgType, VK_VALIDATION_LEVEL_0, srcObject, 0, msgCode, ...)`. -/
structure Diag where
  msgType : VK_DBG_MSG_TYPE
  srcObject : Handle
  msgCode : MEM_TRACK_ERROR
deriving DecidableEq, Repr

/-- Result codes of the API that the layer itself produces or tests. -/
inductive VkResult where
  | VK_SUCCESS
  | VK_NOT_READY
  | VK_TIMEOUT
  | VK_ERROR_UNKNOWN
  | VK_ERROR_INVALID_POINTER
  | VK_ERROR_INVALID_VALUE
deriving DecidableEq, Repr

/-- Object type tags tested by `vkDestroyObject`. -/
inductive VkObjectType where
  | VK_OBJECT_TYPE_COMMAND_BUFFER
  | VK_OBJECT_TYPE_FENCE
  | VK_OBJECT_TYPE_OTHER
deriving DecidableEq, Repr

/-! ## Tables (`unordered_map`) -/

abbrev Table (V : Type) := List (Handle × V)

/-- The value stored under `k`, as `unordered_map::find`. -/
def lookup {V : Type} : Table V → Handle → Option V
  | [], _ => none
  | (k', v) :: rest, k => if k' = k then some v else lookup rest k

/-- Store `v` under `k`: replaces the value of an existing key, adds the key
otherwise (`map[k] = v`). -/
def assign {V : Type} : Table V → Handle → V → Table V
  | [], k, v => [(k, v)]
  | (k', v') :: rest, k, v =>
    if k' = k then (k, v) :: rest else (k', v') :: assign rest k v

/-- Remove the key `k` (`unordered_map::erase`). -/
def erase {V : Type} : Table V → Handle → Table V
  | [], _ => []
  | (k', v') :: rest, k =>
    if k' = k then erase rest k else (k', v') :: erase rest k

/-- Effect of evaluating `map[k]` on the table: a missing key is inserted with
the value-initialised record `d`. -/
def touch {V : Type} (t : Table V) (k : Handle) (d : V) : Table V :=
  match lookup t k with
  | some _ => t
  | none => assign t k d

/-! ## Records -/

/-- The fields of `VkMemoryAllocInfo` the layer reads. -/
structure VkMemoryAllocInfo where
  allocationSize : Nat
  memProps : Nat
deriving DecidableEq, Repr

/-- Memory record `MT_MEM_OBJ_INFO` (declared in `mem_tracker.h`; the fields
are the ones `mem_tracker.cpp` uses).  `refCount` is printed with `%u` and
incremented and decremented with `++` and `--`: an unsigned 32-bit counter.
The two lists are `std::list`s of handles. -/
structure MT_MEM_OBJ_INFO where
  refCount : Nat
  mem : Handle
  allocInfo : VkMemoryAllocInfo
  pObjBindings : List Handle
  pCmdBufferBindings : List Handle
deriving DecidableEq, Repr

/-- Object record `MT_OBJ_INFO`.  `pMemObjInfo` is the pointer to the memory
record the object is bound to (`none` is `NULL`); `flags` is
`create_info.fence_create_info.flags`. -/
structure MT_OBJ_INFO where
  pMemObjInfo : Option Handle
  ref_count : Nat
  object : Handle
  sType : Nat
  flags : Nat
deriving DecidableEq, Repr

/-- Command buffer record `MT_CB_INFO`. -/
structure MT_CB_INFO where
  cmdBuffer : Handle
  fenceId : Nat
  lastSubmittedFence : Handle
  lastSubmittedQueue : Handle
  pMemObjList : List Handle
deriving DecidableEq, Repr

/-- Fence tracker entry `MT_FENCE_INFO`. -/
structure MT_FENCE_INFO where
  fenceId : Nat
  queue : Handle
deriving DecidableEq, Repr

/-- Queue record `MT_QUEUE_INFO`: two `uint64_t` watermarks. -/
structure MT_QUEUE_INFO where
  lastRetiredId : Nat
  lastSubmittedId : Nat
deriving DecidableEq, Repr

/-- One element of `MT_SWAP_CHAIN_INFO::images`. -/
structure VkSwapChainImageInfoWSI where
  image : Handle
  memory : Handle
deriving DecidableEq, Repr

/-- Swap chain record `MT_SWAP_CHAIN_INFO`. -/
structure MT_SWAP_CHAIN_INFO where
  images : List VkSwapChainImageInfoWSI
deriving DecidableEq, Repr

/-- All tracker globals: the six maps, the fence id counter and the reporting
level read by the list printers. -/
structure State where
  cbMap : Table MT_CB_INFO
  memObjMap : Table MT_MEM_OBJ_INFO
  objectMap : Table MT_OBJ_INFO
  fenceMap : Table MT_FENCE_INFO
  queueMap : Table MT_QUEUE_INFO
  swapChainMap : Table MT_SWAP_CHAIN_INFO
  g_currentFenceId : Nat
  g_reportingLevel : Nat
deriving DecidableEq, Repr

/-- What a tracker function hands back: its return value, the messages it sent
to `layerCbMsg`, and the globals afterwards. -/
structure Out (α : Type) where
  ret : α
  msgs : List Diag
  st : State
deriving DecidableEq, Repr

/-- The tracker before any call: empty maps, `g_currentFenceId = 1`. -/
def State.init (level : Nat) : State :=
  { cbMap := [], memObjMap := [], objectMap := [], fenceMap := [], queueMap := [],
    swapChainMap := [], g_currentFenceId := 1, g_reportingLevel := level }

/-- Value-initialised `MT_CB_INFO` (what `cbMap[cb]` inserts). -/
def MT_CB_INFO.zero : MT_CB_INFO :=
  { cmdBuffer := 0, fenceId := 0, lastSubmittedFence := 0, lastSubmittedQueue := 0,
    pMemObjList := [] }

/-- Value-initialised `MT_QUEUE_INFO` (what `queueMap[queue]` inserts). -/
def MT_QUEUE_INFO.zero : MT_QUEUE_INFO :=
  { lastRetiredId := 0, lastSubmittedId := 0 }

/-- Value-initialised `MT_MEM_OBJ_INFO` (what `memObjMap[mem]` inserts). -/
def MT_MEM_OBJ_INFO.zero : MT_MEM_OBJ_INFO :=
  { refCount := 0, mem := 0, allocInfo := { allocationSize := 0, memProps := 0 },
    pObjBindings := [], pCmdBufferBindings := [] }

/-- `refCount++` on a `uint32_t`. -/
def inc32 (n : Nat) : Nat := (n + 1) % 4294967296

/-- `refCount--` on a `uint32_t`. -/
def dec32 (n : Nat) : Nat := (n + 4294967295) % 4294967296

/-- Modelled from the spec: the signalled-state bit of a fence's descriptor,
`VK_FENCE_CREATE_SIGNALED_BIT`; `vulkan.h`, which gives its value, is not among
the sources, bit 0 is taken. -/
def VK_FENCE_CREATE_SIGNALED_BIT : Nat := 1

/-- Modelled from the spec: the info reporting level `VK_DBG_LAYER_LEVEL_INFO`,
the lowest of the levels error / warning / info; `vkDbg.h`, which gives its
value, is not among the sources. -/
def VK_DBG_LAYER_LEVEL_INFO : Nat := 0

/-! ## Lookups and record creation -/

/-- `get_cmd_buf_info`: the record of `cb`, `none` for `NULL`. -/
def get_cmd_buf_info (s : State) (cb : Handle) : Option MT_CB_INFO :=
  lookup s.cbMap cb

/-- `get_object_info`. -/
def get_object_info (s : State) (object : Handle) : Option MT_OBJ_INFO :=
  lookup s.objectMap object

/-- `get_mem_obj_info`. -/
def get_mem_obj_info (s : State) (mem : Handle) : Option MT_MEM_OBJ_INFO :=
  lookup s.memObjMap mem

/-- `add_queue_info`: both watermarks of `queueMap[queue]` are set to 0. -/
def add_queue_info (s : State) (queue : Handle) : State :=
  { s with queueMap := assign s.queueMap queue { lastRetiredId := 0, lastSubmittedId := 0 } }

/-- `delete_queue_info_list`. -/
def delete_queue_info_list (s : State) : State :=
  { s with queueMap := [] }

/-- `add_swap_chain_info`. -/
def add_swap_chain_info (s : State) (swapChain : Handle) : State :=
  { s with swapChainMap := assign s.swapChainMap swapChain { images := [] } }

/-- `add_cmd_buf_info`: `cbMap[cb].cmdBuffer = cb`; an existing record keeps its
other fields. -/
def add_cmd_buf_info (s : State) (cb : Handle) : State :=
  let info := (lookup s.cbMap cb).getD MT_CB_INFO.zero
  { s with cbMap := assign s.cbMap cb { info with cmdBuffer := cb } }

/-- `add_object_info`: the record of `object` is zeroed and refilled, so a
previous memory binding pointer is lost. -/
def add_object_info (s : State) (object : Handle) (sType : Nat) (flags : Nat) : State :=
  let info : MT_OBJ_INFO :=
    { pMemObjInfo := none, ref_count := 1, object := object, sType := sType, flags := flags }
  { s with objectMap := assign s.objectMap object info }

/-- `add_mem_obj_info`: `refCount` is reset, the allocation info is copied (or
zeroed when `pAllocInfo` is `NULL`), the binding lists of an existing record are
kept. -/
def add_mem_obj_info (s : State) (mem : Handle) (pAllocInfo : Option VkMemoryAllocInfo) :
    State :=
  let info := (lookup s.memObjMap mem).getD MT_MEM_OBJ_INFO.zero
  let allocInfo : VkMemoryAllocInfo :=
    match pAllocInfo with
    | some a => a
    | none => { allocationSize := 0, memProps := 0 }
  { s with memObjMap :=
      assign s.memObjMap mem { info with refCount := 0, allocInfo := allocInfo, mem := mem } }

/-! ## Fence tracking -/

/-- `add_fence_info`: takes the next fence id, records it for a non-null fence
(reporting a fence that is already signalled), and stores it as the queue's
`lastSubmittedId`.  Returns the id. -/
def add_fence_info (s : State) (fence queue : Handle) : Out Nat :=
  let fenceId := s.g_currentFenceId
  let s1 : State := { s with g_currentFenceId := (s.g_currentFenceId + 1) % 18446744073709551616 }
  let s2 : State :=
    if fence ≠ 0 then
      { s1 with fenceMap := assign s1.fenceMap fence { fenceId := fenceId, queue := queue } }
    else s1
  let msgs : List Diag :=
    if fence ≠ 0 then
      match get_object_info s2 fence with
      | some pObjectInfo =>
        if pObjectInfo.flags &&& VK_FENCE_CREATE_SIGNALED_BIT ≠ 0 then
          [⟨VK_DBG_MSG_ERROR, fence, MEMTRACK_INVALID_FENCE_STATE⟩]
        else []
      | none => []
    else []
  let info := (lookup s2.queueMap queue).getD MT_QUEUE_INFO.zero
  ⟨fenceId, msgs,
    { s2 with queueMap := assign s2.queueMap queue { info with lastSubmittedId := fenceId } }⟩

/-- `delete_fence_info`. -/
def delete_fence_info (s : State) (fence : Handle) : State :=
  { s with fenceMap := erase s.fenceMap fence }

/-- `update_fence_tracking`: a fence known to be signalled retires its queue up
to the fence's id, and the signalled bit is set in the fence's create info. -/
def update_fence_tracking (s : State) (fence : Handle) : State :=
  let s1 : State :=
    match lookup s.fenceMap fence with
    | some pCurFenceInfo =>
      match lookup s.queueMap pCurFenceInfo.queue with
      | some pQueueInfo =>
        if pQueueInfo.lastRetiredId < pCurFenceInfo.fenceId then
          { s with queueMap := assign s.queueMap pCurFenceInfo.queue
                    { pQueueInfo with lastRetiredId := pCurFenceInfo.fenceId } }
        else s
      | none => s
    | none => s
  match get_object_info s1 fence with
  | some pObjectInfo =>
    { s1 with objectMap := assign s1.objectMap fence
                { pObjectInfo with flags := pObjectInfo.flags ||| VK_FENCE_CREATE_SIGNALED_BIT } }
  | none => s1

/-- `retire_queue_fences`: `queueMap[queue]` (inserted when missing) gets
`lastRetiredId = lastSubmittedId`. -/
def retire_queue_fences (s : State) (queue : Handle) : State :=
  let pQueueInfo := (lookup s.queueMap queue).getD MT_QUEUE_INFO.zero
  { s with queueMap := assign s.queueMap queue
            { pQueueInfo with lastRetiredId := pQueueInfo.lastSubmittedId } }

/-- `retire_device_fences`: every queue record gets `lastRetiredId = lastSubmittedId`. -/
def retire_device_fences (s : State) : State :=
  { s with queueMap := s.queueMap.map
            (fun p => (p.1, { p.2 with lastRetiredId := p.2.lastSubmittedId })) }

/-! ## Command buffer references -/

/-- `update_cmd_buf_and_mem_references`: adds `cb` to the memory's command
buffer list and `mem` to the command buffer's memory list, each only when
absent; the memory side is updated before the command buffer is looked up. -/
def update_cmd_buf_and_mem_references (s : State) (cb mem : Handle) : Out Bool :=
  match get_mem_obj_info s mem with
  | none => ⟨false, [⟨VK_DBG_MSG_ERROR, cb, MEMTRACK_INVALID_MEM_OBJ⟩], s⟩
  | some pMemInfo =>
    let s1 : State :=
      if cb ∈ pMemInfo.pCmdBufferBindings then s
      else
        { s with memObjMap := assign s.memObjMap mem
                  { pMemInfo with
                    pCmdBufferBindings := cb :: pMemInfo.pCmdBufferBindings
                    refCount := inc32 pMemInfo.refCount } }
    match get_cmd_buf_info s1 cb with
    | none => ⟨false, [⟨VK_DBG_MSG_ERROR, cb, MEMTRACK_INVALID_MEM_OBJ⟩], s1⟩
    | some pCBInfo =>
      if mem ∈ pCBInfo.pMemObjList then ⟨true, [], s1⟩
      else
        ⟨true, [],
          { s1 with cbMap := assign s1.cbMap cb
                      { pCBInfo with pMemObjList := mem :: pCBInfo.pMemObjList } }⟩

/-- `remove_cmd_buf_and_mem_reference`: when the memory has a record, every
occurrence of `cb` is removed from its list (`list::remove`) and `refCount` is
decremented, whether or not `cb` was in the list. -/
def remove_cmd_buf_and_mem_reference (s : State) (cb mem : Handle) : State :=
  match get_mem_obj_info s mem with
  | none => s
  | some pInfo =>
    { s with memObjMap := assign s.memObjMap mem
              { pInfo with
                pCmdBufferBindings := pInfo.pCmdBufferBindings.filter (fun x => x ≠ cb)
                refCount := dec32 pInfo.refCount } }

/-- `clear_cmd_buf_and_mem_references`: walks a copy of the command buffer's
memory list, removing the reference on each memory, then empties the list. -/
def clear_cmd_buf_and_mem_references (s : State) (cb : Handle) : Out Bool :=
  match get_cmd_buf_info s cb with
  | none => ⟨false, [⟨VK_DBG_MSG_ERROR, cb, MEMTRACK_INVALID_CB⟩], s⟩
  | some pCBInfo =>
    let s1 := pCBInfo.pMemObjList.foldl (fun st m => remove_cmd_buf_and_mem_reference st cb m) s
    ⟨true, [], { s1 with cbMap := assign s1.cbMap cb { pCBInfo with pMemObjList := [] } }⟩

/-- `delete_cmd_buf_info`: clears the references and, on success, erases the record. -/
def delete_cmd_buf_info (s : State) (cb : Handle) : Out Bool :=
  let r := clear_cmd_buf_and_mem_references s cb
  if r.ret then ⟨true, r.msgs, { r.st with cbMap := erase r.st.cbMap cb }⟩ else r

/-- `delete_cmd_buf_info_list`: clears the references of every command buffer
record (in table order) and empties the table; always `VK_TRUE`. -/
def delete_cmd_buf_info_list (s : State) : Out Bool :=
  let r := (s.cbMap.map (fun p => p.1)).foldl
    (fun (acc : List Diag × State) cb =>
      let c := clear_cmd_buf_and_mem_references acc.2 cb
      (acc.1 ++ c.msgs, c.st))
    (([] : List Diag), s)
  ⟨true, r.1, { r.2 with cbMap := [] }⟩

/-- `checkCBCompleted`: false for an unknown command buffer and for one whose
fence id is above its last queue's `lastRetiredId`; `queueMap[queue]` inserts
a zero record for an unknown queue. -/
def checkCBCompleted (s : State) (cb : Handle) : Out Bool :=
  match get_cmd_buf_info s cb with
  | none => ⟨false, [⟨VK_DBG_MSG_ERROR, cb, MEMTRACK_INVALID_CB⟩], s⟩
  | some pCBInfo =>
    if pCBInfo.lastSubmittedQueue ≠ 0 then
      let queue := pCBInfo.lastSubmittedQueue
      let pQueueInfo := (lookup s.queueMap queue).getD MT_QUEUE_INFO.zero
      let s1 : State := { s with queueMap := touch s.queueMap queue MT_QUEUE_INFO.zero }
      if pCBInfo.fenceId > pQueueInfo.lastRetiredId then
        ⟨false, [⟨VK_DBG_MSG_UNKNOWN, cb, MEMTRACK_NONE⟩], s1⟩
      else ⟨true, [], s1⟩
    else ⟨true, [], s⟩

/-! ## Freeing memory -/

/-- `reportMemReferencesAndCleanUp` on the record `pMemObjInfo` stored under
`mem`: a summary message when any reference is left, one message per command
buffer and per object still in the lists, and both lists emptied. -/
def reportMemReferencesAndCleanUp (s : State) (mem : Handle) (pMemObjInfo : MT_MEM_OBJ_INFO) :
    Out Unit :=
  let cmdBufRefCount := pMemObjInfo.pCmdBufferBindings.length
  let objRefCount := pMemObjInfo.pObjBindings.length
  let d0 : List Diag :=
    if cmdBufRefCount + objRefCount ≠ 0 then
      [⟨VK_DBG_MSG_UNKNOWN, pMemObjInfo.mem, MEMTRACK_INTERNAL_ERROR⟩]
    else []
  let d1 : List Diag :=
    if cmdBufRefCount > 0 then
      pMemObjInfo.pCmdBufferBindings.map (fun cb => ⟨VK_DBG_MSG_UNKNOWN, cb, MEMTRACK_NONE⟩)
    else []
  let d2 : List Diag :=
    if objRefCount > 0 then
      pMemObjInfo.pObjBindings.map (fun obj => ⟨VK_DBG_MSG_UNKNOWN, obj, MEMTRACK_NONE⟩)
    else []
  ⟨(), d0 ++ d1 ++ d2,
    { s with memObjMap := assign s.memObjMap mem
              { pMemObjInfo with pCmdBufferBindings := [], pObjBindings := [] } }⟩

/-- `deleteMemObjInfo`. -/
def deleteMemObjInfo (s : State) (mem : Handle) : Out Unit :=
  match lookup s.memObjMap mem with
  | some _ => ⟨(), [], { s with memObjMap := erase s.memObjMap mem }⟩
  | none => ⟨(), [⟨VK_DBG_MSG_ERROR, mem, MEMTRACK_INVALID_MEM_OBJ⟩], s⟩

/-- The `while` loop of `freeMemObjInfo`,
`while (pInfo->pCmdBufferBindings.size() > 0 && it != pInfo->pCmdBufferBindings.end())`.
The iterator `it` is the part of the live list
`memObjMap[mem].pCmdBufferBindings` from `it` to the end, here `cb :: rest`, so
`it != end()` is the case of a non-empty argument; the test of `size()` reads
the live list of the record.  A completed command buffer has its references
cleared; this erases every element equal to `cb` from the live list when `mem`
is in the command buffer's own list.  `temp` was taken before the call: if the
element it points to (the head of `rest`) was erased, the next test of the loop
still leaves it when the live list is empty, since `size() > 0` fails before the
iterator is looked at; otherwise the loop goes on with an invalid iterator
(`none`).  `fuel` bounds the number of iterations; the list gets shorter in
each, so its length is enough. -/
def freeLoop (mem : Handle) : Nat → List Handle → State → Option (List Diag × State)
  | _, [], s => some ([], s)
  | 0, _ :: _, _ => none
  | fuel + 1, cb :: rest, s =>
    if ((get_mem_obj_info s mem).getD MT_MEM_OBJ_INFO.zero).pCmdBufferBindings.length > 0 then
      let c := checkCBCompleted s cb
      if c.ret then
        let r := clear_cmd_buf_and_mem_references c.st cb
        let live := ((get_mem_obj_info r.st mem).getD MT_MEM_OBJ_INFO.zero).pCmdBufferBindings
        if cb ∈ live then
          (freeLoop mem fuel rest r.st).map (fun p => (c.msgs ++ r.msgs ++ p.1, p.2))
        else if rest.head? = some cb then
          if live.length > 0 then none else some (c.msgs ++ r.msgs, r.st)
        else
          (freeLoop mem fuel (rest.filter (fun x => x ≠ cb)) r.st).map
            (fun p => (c.msgs ++ r.msgs ++ p.1, p.2))
      else
        (freeLoop mem fuel rest c.st).map (fun p => (c.msgs ++ p.1, p.2))
    else some ([], s)

/-- `freeMemObjInfo`: unknown memory and swap chain memory freed by the
application are refused; otherwise the references of completed command buffers
are cleared, remaining references are reported (result `VK_FALSE`), and the
record is deleted in both cases. -/
def freeMemObjInfo (s : State) (mem : Handle) (internal : Bool) : Option (Out Bool) :=
  match get_mem_obj_info s mem with
  | none => some ⟨false, [⟨VK_DBG_MSG_ERROR, mem, MEMTRACK_INVALID_MEM_OBJ⟩], s⟩
  | some pInfo =>
    if pInfo.allocInfo.allocationSize = 0 ∧ internal = false then
      some ⟨false, [⟨VK_DBG_MSG_WARNING, mem, MEMTRACK_INVALID_MEM_OBJ⟩], s⟩
    else
      match freeLoop mem pInfo.pCmdBufferBindings.length pInfo.pCmdBufferBindings s with
      | none => none
      | some (d1, s1) =>
        match get_mem_obj_info s1 mem with
        | none => none
        | some pInfo1 =>
          let rep : Out Unit :=
            if pInfo1.refCount ≠ 0 then reportMemReferencesAndCleanUp s1 mem pInfo1
            else ⟨(), [], s1⟩
          let del := deleteMemObjInfo rep.st mem
          some ⟨decide (pInfo1.refCount = 0), d1 ++ rep.msgs ++ del.msgs, del.st⟩

/-! ## Object bindings -/

/-- `clear_object_binding`: `VK_FALSE` without a message for an unknown object;
a warning when the object has no binding or the bound memory's object list is
empty; otherwise the first occurrence of the object is erased from that list,
`refCount` is decremented and the pointer is nulled, or an internal error is
reported when the object is not in the list. -/
def clear_object_binding (s : State) (object : Handle) : Option (Out Bool) :=
  match get_object_info s object with
  | none => some ⟨false, [], s⟩
  | some pObjInfo =>
    match pObjInfo.pMemObjInfo with
    | none =>
      some ⟨false, [⟨VK_DBG_MSG_WARNING, object, MEMTRACK_MEM_OBJ_CLEAR_EMPTY_BINDINGS⟩], s⟩
    | some m =>
      match get_mem_obj_info s m with
      | none => none
      | some pMemObjInfo =>
        if pMemObjInfo.pObjBindings.length ≤ 0 then
          some ⟨false, [⟨VK_DBG_MSG_WARNING, object, MEMTRACK_MEM_OBJ_CLEAR_EMPTY_BINDINGS⟩], s⟩
        else if object ∈ pMemObjInfo.pObjBindings then
          some ⟨true, [],
            { s with
              memObjMap := assign s.memObjMap m
                { pMemObjInfo with
                  refCount := dec32 pMemObjInfo.refCount
                  pObjBindings := pMemObjInfo.pObjBindings.erase object }
              objectMap := assign s.objectMap object { pObjInfo with pMemObjInfo := none } }⟩
        else
          some ⟨false, [⟨VK_DBG_MSG_ERROR, object, MEMTRACK_INTERNAL_ERROR⟩], s⟩

/-- `set_object_binding`: the four refusals are tested in the order null
memory, unknown object, unknown memory, object already bound (whose message
reads the old record through the pointer); otherwise the object is pushed on
the memory's object list, `refCount` is incremented and the pointer is set. -/
def set_object_binding (s : State) (object mem : Handle) : Option (Out Bool) :=
  if mem = VK_NULL_HANDLE then
    some ⟨true, [⟨VK_DBG_MSG_WARNING, object, MEMTRACK_INTERNAL_ERROR⟩], s⟩
  else
    match get_object_info s object with
    | none => some ⟨false, [⟨VK_DBG_MSG_ERROR, object, MEMTRACK_INTERNAL_ERROR⟩], s⟩
    | some pObjInfo =>
      match get_mem_obj_info s mem with
      | none => some ⟨false, [⟨VK_DBG_MSG_ERROR, mem, MEMTRACK_INVALID_MEM_OBJ⟩], s⟩
      | some pInfo =>
        match pObjInfo.pMemObjInfo with
        | some old =>
          match get_mem_obj_info s old with
          | none => none
          | some _ => some ⟨false, [⟨VK_DBG_MSG_ERROR, mem, MEMTRACK_REBIND_OBJECT⟩], s⟩
        | none =>
          some ⟨true, [],
            { s with
              memObjMap := assign s.memObjMap mem
                { pInfo with
                  pObjBindings := object :: pInfo.pObjBindings
                  refCount := inc32 pInfo.refCount }
              objectMap := assign s.objectMap object { pObjInfo with pMemObjInfo := some mem } }⟩

/-- `set_sparse_buffer_binding`.  With an existing binding the old one is
cleared first; when that succeeds the object's pointer is `NULL` at the moment
the transition message reads `pObjInfo->pMemObjInfo->mem` (`none`). -/
def set_sparse_buffer_binding (s : State) (object mem : Handle) : Option (Out Bool) :=
  if mem = VK_NULL_HANDLE then
    (clear_object_binding s object).map (fun r => ⟨true, r.msgs, r.st⟩)
  else
    match get_object_info s object with
    | none => some ⟨false, [⟨VK_DBG_MSG_ERROR, object, MEMTRACK_INTERNAL_ERROR⟩], s⟩
    | some pObjInfo =>
      match get_mem_obj_info s mem with
      | none => some ⟨false, [⟨VK_DBG_MSG_ERROR, mem, MEMTRACK_INVALID_MEM_OBJ⟩], s⟩
      | some pInfo =>
        let s1 : State :=
          if object ∈ pInfo.pObjBindings then s
          else
            { s with memObjMap := assign s.memObjMap mem
                      { pInfo with
                        pObjBindings := object :: pInfo.pObjBindings
                        refCount := inc32 pInfo.refCount } }
        match pObjInfo.pMemObjInfo with
        | none =>
          some ⟨true, [],
            { s1 with objectMap := assign s1.objectMap object
                        { pObjInfo with pMemObjInfo := some mem } }⟩
        | some _ =>
          match clear_object_binding s1 object with
          | none => none
          | some r =>
            if r.ret then none
            else
              some ⟨true, r.msgs ++ [⟨VK_DBG_MSG_UNKNOWN, object, MEMTRACK_NONE⟩],
                { r.st with objectMap := assign r.st.objectMap object
                              { pObjInfo with pMemObjInfo := some mem } }⟩

/-! ## List printers -/

/-- `print_object_list`: nothing above the info level; else a header and one
line per object record. -/
def print_object_list (s : State) : List Diag :=
  if s.g_reportingLevel > VK_DBG_LAYER_LEVEL_INFO then []
  else
    ⟨VK_DBG_MSG_UNKNOWN, 0, MEMTRACK_NONE⟩ ::
      s.objectMap.map (fun p => ⟨VK_DBG_MSG_UNKNOWN, p.2.object, MEMTRACK_NONE⟩)

/-- `print_mem_list`: a header, then per memory record four lines, the object
list header with one line per object, and the command buffer list header with
one line per command buffer; every message has a null source object. -/
def print_mem_list (s : State) : List Diag :=
  if s.g_reportingLevel > VK_DBG_LAYER_LEVEL_INFO then []
  else
    ⟨VK_DBG_MSG_UNKNOWN, 0, MEMTRACK_NONE⟩ ::
      (s.memObjMap.map (fun p =>
        List.replicate (4 + (1 + p.2.pObjBindings.length) + (1 + p.2.pCmdBufferBindings.length))
          (⟨VK_DBG_MSG_UNKNOWN, 0, MEMTRACK_NONE⟩ : Diag))).flatten

/-- `printCBList`: a header, then per command buffer record one line and one
line per referenced memory. -/
def printCBList (s : State) : List Diag :=
  if s.g_reportingLevel > VK_DBG_LAYER_LEVEL_INFO then []
  else
    ⟨VK_DBG_MSG_UNKNOWN, 0, MEMTRACK_NONE⟩ ::
      (s.cbMap.map (fun p =>
        List.replicate (1 + p.2.pMemObjList.length)
          (⟨VK_DBG_MSG_UNKNOWN, 0, MEMTRACK_NONE⟩ : Diag))).flatten

/-- `get_mem_binding_from_object`: the `mem` field of the record the object is
bound to, or `NULL` with an error (and the object list) when the object is
unbound or unknown. -/
def get_mem_binding_from_object (s : State) (object : Handle) : Option (Handle × List Diag) :=
  match get_object_info s object with
  | some pObjInfo =>
    match pObjInfo.pMemObjInfo with
    | some m =>
      match get_mem_obj_info s m with
      | some pMemObjInfo => some (pMemObjInfo.mem, [])
      | none => none
    | none =>
      some (0, ⟨VK_DBG_MSG_ERROR, object, MEMTRACK_MISSING_MEM_BINDINGS⟩ :: print_object_list s)
  | none =>
    some (0, ⟨VK_DBG_MSG_ERROR, object, MEMTRACK_INVALID_OBJECT⟩ :: print_object_list s)

/-! ## Entry points

Each entry point takes the globals and its arguments; `result` is what the
next layer returned for the forwarded call. -/

/-- `vkGetDeviceQueue`; `queue` is the handle the driver stored in `*pQueue`. -/
def vkGetDeviceQueue (s : State) (queue : Handle) (result : VkResult) : Out VkResult :=
  if result = VkResult.VK_SUCCESS then ⟨result, [], add_queue_info s queue⟩
  else ⟨result, [], s⟩

/-- The `for` loop of `vkQueueSubmit`: the record of each submitted command
buffer is written through the pointer `get_cmd_buf_info` returned, which is
`NULL` for a handle without a record. -/
def submitLoop (fenceId fence queue : Handle) : List Handle → State → Option State
  | [], s => some s
  | cb :: rest, s =>
    match get_cmd_buf_info s cb with
    | none => none
    | some pCBInfo =>
      submitLoop fenceId fence queue rest
        { s with cbMap := assign s.cbMap cb
                  { pCBInfo with
                    fenceId := fenceId
                    lastSubmittedFence := fence
                    lastSubmittedQueue := queue } }

/-- `vkQueueSubmit`. -/
def vkQueueSubmit (s : State) (queue : Handle) (pCmdBuffers : List Handle) (fence : Handle)
    (result : VkResult) : Option (Out VkResult) :=
  let f := add_fence_info s fence queue
  let prints := print_mem_list f.st ++ printCBList f.st
  (submitLoop f.ret fence queue pCmdBuffers f.st).map
    (fun s1 => ⟨result, f.msgs ++ prints, s1⟩)

/-- `vkAllocMemory`; `mem` is `*pMem` after the driver call.  The record is
added whatever the driver returned. -/
def vkAllocMemory (s : State) (pAllocInfo : Option VkMemoryAllocInfo) (mem : Handle)
    (result : VkResult) : Out VkResult :=
  let s1 := add_mem_obj_info s mem pAllocInfo
  ⟨result, print_mem_list s1, s1⟩

/-- `vkFreeMemory`: `freeMemObjInfo(mem, false)`, the three lists, and the
`FREED_MEM_REF` warning when it returned `VK_FALSE`. -/
def vkFreeMemory (s : State) (mem : Handle) (result : VkResult) : Option (Out VkResult) :=
  (freeMemObjInfo s mem false).map (fun r =>
    ⟨result,
      r.msgs ++ print_mem_list r.st ++ print_object_list r.st ++ printCBList r.st ++
        (if r.ret = false then [⟨VK_DBG_MSG_WARNING, mem, MEMTRACK_FREED_MEM_REF⟩] else []),
      r.st⟩)

/-- Modelled from the spec: a memory-property flag of the allocation
descriptor, `VK_MEMORY_PROPERTY_HOST_VISIBLE_BIT`; `vulkan.h`, which gives its
value, is not among the sources, bit 0 is taken. -/
def VK_MEMORY_PROPERTY_HOST_VISIBLE_BIT : Nat := 1

/-- `vkMapMemory`: reads the record of `mem` without a null check. -/
def vkMapMemory (s : State) (mem : Handle) (result : VkResult) : Option (Out VkResult) :=
  match get_mem_obj_info s mem with
  | none => none
  | some pMemObj =>
    if pMemObj.allocInfo.memProps &&& VK_MEMORY_PROPERTY_HOST_VISIBLE_BIT = 0 then
      some ⟨result, [⟨VK_DBG_MSG_ERROR, mem, MEMTRACK_INVALID_STATE⟩], s⟩
    else some ⟨result, [], s⟩

/-- `vkDestroyObject`: command buffers and fences lose their tracker entry;
an object with an object record has its binding cleared (and swap chain
memory, of allocation size 0, freed through the internal path) before the
record is erased. -/
def vkDestroyObject (s : State) (objType : VkObjectType) (object : Handle) (result : VkResult) :
    Option (Out VkResult) :=
  let pre : List Diag × State :=
    match objType with
    | VkObjectType.VK_OBJECT_TYPE_COMMAND_BUFFER =>
      let r := delete_cmd_buf_info s object
      (r.msgs, r.st)
    | VkObjectType.VK_OBJECT_TYPE_FENCE => ([], delete_fence_info s object)
    | VkObjectType.VK_OBJECT_TYPE_OTHER => ([], s)
  let s1 := pre.2
  match lookup s1.objectMap object with
  | none => some ⟨result, pre.1, s1⟩
  | some pDelInfo =>
    match pDelInfo.pMemObjInfo with
    | none => some ⟨result, pre.1, { s1 with objectMap := erase s1.objectMap object }⟩
    | some m =>
      match get_mem_obj_info s1 m with
      | none => none
      | some pMemObjInfo =>
        if pMemObjInfo.allocInfo.allocationSize = 0 then
          let memToFree := pMemObjInfo.mem
          match clear_object_binding s1 object with
          | none => none
          | some c =>
            match freeMemObjInfo c.st memToFree true with
            | none => none
            | some f =>
              some ⟨result, pre.1 ++ c.msgs ++ f.msgs,
                { f.st with objectMap := erase f.st.objectMap object }⟩
        else
          match clear_object_binding s1 object with
          | none => none
          | some c =>
            some ⟨result, pre.1 ++ c.msgs,
              { c.st with objectMap := erase c.st.objectMap object }⟩

/-- `vkBindObjectMemory`. -/
def vkBindObjectMemory (s : State) (object mem : Handle) (result : VkResult) :
    Option (Out VkResult) :=
  (set_object_binding s object mem).map (fun r =>
    ⟨result, r.msgs ++ print_object_list r.st ++ print_mem_list r.st, r.st⟩)

/-- `vkQueueBindSparseBufferMemory`. -/
def vkQueueBindSparseBufferMemory (s : State) (buffer mem : Handle) (result : VkResult) :
    Option (Out VkResult) :=
  (set_sparse_buffer_binding s buffer mem).map (fun r =>
    ⟨result,
      r.msgs ++
        (if r.ret = false then [⟨VK_DBG_MSG_ERROR, buffer, MEMTRACK_MEMORY_BINDING_ERROR⟩]
         else []) ++
        print_object_list r.st ++ print_mem_list r.st,
      r.st⟩)

/-- The create entry points that record an object on success (`vkCreateFence`,
`vkCreateEvent`, `vkCreateQueryPool`, `vkCreateBuffer`, `vkCreateBufferView`,
`vkCreateImage`, the view, pipeline, sampler and dynamic state creators):
`object` is the handle the driver returned, `flags` the flags word of the
create info. -/
def vkCreateObject (s : State) (object : Handle) (sType flags : Nat) (result : VkResult) :
    Out VkResult :=
  if result = VkResult.VK_SUCCESS then ⟨result, [], add_object_info s object sType flags⟩
  else ⟨result, [], s⟩

/-- `vkCreateFence`: `sType` and `flags` are those of `*pCreateInfo`. -/
def vkCreateFence (s : State) (fence : Handle) (sType flags : Nat) (result : VkResult) :
    Out VkResult :=
  vkCreateObject s fence sType flags result

/-- The loop of `vkResetFences` over the fence array: an unsignalled tracked
fence is reported and turns the result into `VK_ERROR_INVALID_VALUE`, a
signalled one has its bit cleared. -/
def resetLoop : List Handle → Out VkResult → Out VkResult
  | [], acc => acc
  | fence :: rest, acc =>
    match get_object_info acc.st fence with
    | none => resetLoop rest acc
    | some pObjectInfo =>
      if pObjectInfo.flags &&& VK_FENCE_CREATE_SIGNALED_BIT = 0 then
        resetLoop rest
          ⟨VkResult.VK_ERROR_INVALID_VALUE,
            acc.msgs ++ [⟨VK_DBG_MSG_ERROR, fence, MEMTRACK_INVALID_FENCE_STATE⟩], acc.st⟩
      else
        let info : MT_OBJ_INFO :=
          { pObjectInfo with
            flags := pObjectInfo.flags &&& (4294967295 - VK_FENCE_CREATE_SIGNALED_BIT) }
        resetLoop rest
          ⟨acc.ret, acc.msgs, { acc.st with objectMap := assign acc.st.objectMap fence info }⟩

/-- `vkResetFences`: the driver is called first; the tracker loop runs only
when it succeeded. -/
def vkResetFences (s : State) (pFences : List Handle) (result : VkResult) : Out VkResult :=
  if result = VkResult.VK_SUCCESS then resetLoop pFences ⟨result, [], s⟩
  else ⟨result, [], s⟩

/-- `vkGetFenceStatus`. -/
def vkGetFenceStatus (s : State) (fence : Handle) (result : VkResult) : Out VkResult :=
  if result = VkResult.VK_SUCCESS then ⟨result, [], update_fence_tracking s fence⟩
  else ⟨result, [], s⟩

/-- `vkWaitForFences`: a warning per fence that is already signalled, then, on
success with `waitAll` or a single fence, `update_fence_tracking` on each. -/
def vkWaitForFences (s : State) (pFences : List Handle) (waitAll : Bool) (result : VkResult) :
    Out VkResult :=
  let warn : List Diag := pFences.filterMap (fun fence =>
    match get_object_info s fence with
    | some pObjectInfo =>
      if pObjectInfo.flags &&& VK_FENCE_CREATE_SIGNALED_BIT ≠ 0 then
        some ⟨VK_DBG_MSG_WARNING, fence, MEMTRACK_INVALID_FENCE_STATE⟩
      else none
    | none => none)
  if result = VkResult.VK_SUCCESS ∧ (waitAll = true ∨ pFences.length = 1) then
    ⟨result, warn, pFences.foldl update_fence_tracking s⟩
  else ⟨result, warn, s⟩

/-- `vkQueueWaitIdle`. -/
def vkQueueWaitIdle (s : State) (queue : Handle) (result : VkResult) : Out VkResult :=
  if result = VkResult.VK_SUCCESS then ⟨result, [], retire_queue_fences s queue⟩
  else ⟨result, [], s⟩

/-- `vkDeviceWaitIdle`. -/
def vkDeviceWaitIdle (s : State) (result : VkResult) : Out VkResult :=
  if result = VkResult.VK_SUCCESS then ⟨result, [], retire_device_fences s⟩
  else ⟨result, [], s⟩

/-- `vkCreateCommandBuffer`; `cmdBuffer` is `*pCmdBuffer` after the driver call. -/
def vkCreateCommandBuffer (s : State) (cmdBuffer : Handle) (result : VkResult) : Out VkResult :=
  let s1 := if cmdBuffer ≠ 0 then add_cmd_buf_info s cmdBuffer else s
  ⟨result, printCBList s1, s1⟩

/-- `vkBeginCommandBuffer`: the completion check (with the in-flight error),
the driver call, then the references are cleared. -/
def vkBeginCommandBuffer (s : State) (cmdBuffer : Handle) (result : VkResult) : Out VkResult :=
  let c := checkCBCompleted s cmdBuffer
  let d : List Diag :=
    if c.ret = false then [⟨VK_DBG_MSG_ERROR, cmdBuffer, MEMTRACK_RESET_CB_WHILE_IN_FLIGHT⟩]
    else []
  let r := clear_cmd_buf_and_mem_references c.st cmdBuffer
  ⟨result, c.msgs ++ d ++ r.msgs, r.st⟩

/-- `vkResetCommandBuffer`. -/
def vkResetCommandBuffer (s : State) (cmdBuffer : Handle) (result : VkResult) : Out VkResult :=
  let c := checkCBCompleted s cmdBuffer
  let d : List Diag :=
    if c.ret = false then [⟨VK_DBG_MSG_ERROR, cmdBuffer, MEMTRACK_RESET_CB_WHILE_IN_FLIGHT⟩]
    else []
  let r := clear_cmd_buf_and_mem_references c.st cmdBuffer
  ⟨result, c.msgs ++ d ++ r.msgs, r.st⟩

/-- The body shared by the recording commands that reference one object
(`vkCmdDrawIndirect`, `vkCmdDrawIndexedIndirect`, `vkCmdDispatchIndirect`,
`vkCmdUpdateBuffer`, `vkCmdFillBuffer`, `vkCmdClearColorImage`,
`vkCmdClearDepthStencil`, the query commands): the object's memory is looked
up and referenced from the command buffer; a failed update is reported at the
command. -/
def cmdReference (s : State) (cmdBuffer object : Handle) : Option (Out Unit) :=
  match get_mem_binding_from_object s object with
  | none => none
  | some (mem, d) =>
    let u := update_cmd_buf_and_mem_references s cmdBuffer mem
    some ⟨(), d ++ u.msgs ++
        (if u.ret = false then [⟨VK_DBG_MSG_ERROR, cmdBuffer, MEMTRACK_MEMORY_BINDING_ERROR⟩]
         else []),
      u.st⟩

/-- `vkCmdDrawIndirect`. -/
def vkCmdDrawIndirect (s : State) (cmdBuffer buffer : Handle) : Option (Out Unit) :=
  cmdReference s cmdBuffer buffer

/-- The recording commands that reference two objects in turn
(`vkCmdCopyBuffer`, `vkCmdCopyBufferToImage`, `vkCmdCopyImageToBuffer`,
`vkCmdResolveImage`). -/
def cmdReference2 (s : State) (cmdBuffer first second : Handle) : Option (Out Unit) :=
  match cmdReference s cmdBuffer first with
  | none => none
  | some a =>
    match cmdReference a.st cmdBuffer second with
    | none => none
    | some b => some ⟨(), a.msgs ++ b.msgs, b.st⟩

/-- `vkCmdCopyBuffer`. -/
def vkCmdCopyBuffer (s : State) (cmdBuffer srcBuffer destBuffer : Handle) : Option (Out Unit) :=
  cmdReference2 s cmdBuffer srcBuffer destBuffer

/-- `vkDestroyDevice`: the three lists, the references of every command buffer
cleared and the table emptied, a leak warning per memory record of non-zero
size, and the queue table emptied.  The memory and object tables are left as
they are. -/
def vkDestroyDevice (s : State) (device : Handle) (result : VkResult) : Out VkResult :=
  let d0 : List Diag :=
    ⟨VK_DBG_MSG_UNKNOWN, device, MEMTRACK_NONE⟩ ::
      (print_mem_list s ++ printCBList s ++ print_object_list s)
  let r := delete_cmd_buf_info_list s
  let d1 : List Diag :=
    if r.ret = false then [⟨VK_DBG_MSG_ERROR, device, MEMTRACK_INTERNAL_ERROR⟩] else []
  let leaks : List Diag := r.st.memObjMap.filterMap (fun p =>
    if p.2.allocInfo.allocationSize ≠ 0 then
      some ⟨VK_DBG_MSG_WARNING, p.2.mem, MEMTRACK_MEMORY_LEAK⟩
    else none)
  ⟨result, d0 ++ r.msgs ++ d1 ++ leaks, delete_queue_info_list r.st⟩

/-- `vkCreateSwapChainWSI`. -/
def vkCreateSwapChainWSI (s : State) (swapChain : Handle) (result : VkResult) : Out VkResult :=
  if result = VkResult.VK_SUCCESS then ⟨result, [], add_swap_chain_info s swapChain⟩
  else ⟨result, [], s⟩

/-- The loop of `vkDestroySwapChainWSI` over the swap chain's images: the
image's binding is cleared, its memory is freed through the internal path and
the image record is erased. -/
def destroyImagesLoop : List VkSwapChainImageInfoWSI → List Diag × State →
    Option (List Diag × State)
  | [], acc => some acc
  | it :: rest, acc =>
    match clear_object_binding acc.2 it.image with
    | none => none
    | some c =>
      match freeMemObjInfo c.st it.memory true with
      | none => none
      | some f =>
        destroyImagesLoop rest
          (acc.1 ++ c.msgs ++ f.msgs, { f.st with objectMap := erase f.st.objectMap it.image })

/-- `vkDestroySwapChainWSI`. -/
def vkDestroySwapChainWSI (s : State) (swapChain : Handle) (result : VkResult) :
    Option (Out VkResult) :=
  match lookup s.swapChainMap swapChain with
  | none => some ⟨result, [], s⟩
  | some pInfo =>
    (destroyImagesLoop pInfo.images ([], s)).map (fun p =>
      ⟨result, p.1, { p.2 with swapChainMap := erase p.2.swapChainMap swapChain }⟩)

/-- Modelled from the spec: the kind tag given to swap chain images,
`VK_STRUCTURE_TYPE_MAX_ENUM`; `vulkan.h`, which gives its value, is not among
the sources. -/
def VK_STRUCTURE_TYPE_MAX_ENUM : Nat := 2147483647

/-- The loop of `vkGetSwapChainInfoWSI` over the images just stored: an object
record for the image, a memory record without allocation info, and the
binding of the two.  `flags` stands for the bytes copied from the swap chain's
create info. -/
def addImagesLoop (flags : Nat) : List VkSwapChainImageInfoWSI → List Diag × State →
    Option (List Diag × State)
  | [], acc => some acc
  | it :: rest, acc =>
    let s1 := add_object_info acc.2 it.image VK_STRUCTURE_TYPE_MAX_ENUM flags
    let s2 := add_mem_obj_info s1 it.memory none
    match set_object_binding s2 it.image it.memory with
    | none => none
    | some b =>
      addImagesLoop flags rest
        (acc.1 ++ b.msgs ++
          (if b.ret = false then
            [⟨VK_DBG_MSG_ERROR, it.image, MEMTRACK_MEMORY_BINDING_ERROR⟩]
           else []),
          b.st)

/-- `vkGetSwapChainInfoWSI`; `persistent` says that the query is
`VK_SWAP_CHAIN_INFO_TYPE_PERSISTENT_IMAGES_WSI`, `data` is the image array the
driver wrote.  `swapChainMap[swapChain]` is a null pointer for an unknown
swap chain. -/
def vkGetSwapChainInfoWSI (s : State) (swapChain : Handle) (persistent : Bool)
    (data : List VkSwapChainImageInfoWSI) (flags : Nat) (result : VkResult) :
    Option (Out VkResult) :=
  if persistent = true ∧ result = VkResult.VK_SUCCESS then
    match lookup s.swapChainMap swapChain with
    | none => none
    | some pInfo =>
      if pInfo.images = [] then
        let s1 : State :=
          { s with swapChainMap := assign s.swapChainMap swapChain { images := data } }
        (addImagesLoop flags data ([], s1)).map (fun p => ⟨result, p.1, p.2⟩)
      else if pInfo.images ≠ data then
        some ⟨result, [⟨VK_DBG_MSG_WARNING, swapChain, MEMTRACK_NONE⟩], s⟩
      else some ⟨result, [], s⟩
  else some ⟨result, [], s⟩

/-! ## Operations and reachable states -/

/-- The intercepted calls that change tracker state, with the values the
driver produced for them. -/
inductive Op where
  | getDeviceQueue (queue : Handle) (result : VkResult)
  | queueSubmit (queue : Handle) (pCmdBuffers : List Handle) (fence : Handle) (result : VkResult)
  | allocMemory (pAllocInfo : Option VkMemoryAllocInfo) (mem : Handle) (result : VkResult)
  | freeMemory (mem : Handle) (result : VkResult)
  | destroyObject (objType : VkObjectType) (object : Handle) (result : VkResult)
  | bindObjectMemory (object mem : Handle) (result : VkResult)
  | queueBindSparseBufferMemory (buffer mem : Handle) (result : VkResult)
  | createObject (object : Handle) (sType flags : Nat) (result : VkResult)
  | resetFences (pFences : List Handle) (result : VkResult)
  | getFenceStatus (fence : Handle) (result : VkResult)
  | waitForFences (pFences : List Handle) (waitAll : Bool) (result : VkResult)
  | queueWaitIdle (queue : Handle) (result : VkResult)
  | deviceWaitIdle (result : VkResult)
  | createCommandBuffer (cmdBuffer : Handle) (result : VkResult)
  | beginCommandBuffer (cmdBuffer : Handle) (result : VkResult)
  | resetCommandBuffer (cmdBuffer : Handle) (result : VkResult)
  | cmdDrawIndirect (cmdBuffer buffer : Handle)
  | cmdCopyBuffer (cmdBuffer srcBuffer destBuffer : Handle)
  | destroyDevice (device : Handle) (result : VkResult)
  | createSwapChainWSI (swapChain : Handle) (result : VkResult)
  | destroySwapChainWSI (swapChain : Handle) (result : VkResult)
  | getSwapChainInfoWSI (swapChain : Handle) (persistent : Bool)
      (data : List VkSwapChainImageInfoWSI) (flags : Nat) (result : VkResult)
  | mapMemory (mem : Handle) (result : VkResult)
deriving DecidableEq, Repr

/-- The globals after one call, `none` when the call runs into undefined
behaviour. -/
def applyOp (s : State) : Op → Option State
  | Op.getDeviceQueue q r => some (vkGetDeviceQueue s q r).st
  | Op.queueSubmit q cbs f r => (vkQueueSubmit s q cbs f r).map (fun o => o.st)
  | Op.allocMemory a m r => some (vkAllocMemory s a m r).st
  | Op.freeMemory m r => (vkFreeMemory s m r).map (fun o => o.st)
  | Op.destroyObject t o r => (vkDestroyObject s t o r).map (fun o => o.st)
  | Op.bindObjectMemory o m r => (vkBindObjectMemory s o m r).map (fun o => o.st)
  | Op.queueBindSparseBufferMemory b m r =>
    (vkQueueBindSparseBufferMemory s b m r).map (fun o => o.st)
  | Op.createObject o t f r => some (vkCreateObject s o t f r).st
  | Op.resetFences fs r => some (vkResetFences s fs r).st
  | Op.getFenceStatus f r => some (vkGetFenceStatus s f r).st
  | Op.waitForFences fs w r => some (vkWaitForFences s fs w r).st
  | Op.queueWaitIdle q r => some (vkQueueWaitIdle s q r).st
  | Op.deviceWaitIdle r => some (vkDeviceWaitIdle s r).st
  | Op.createCommandBuffer cb r => some (vkCreateCommandBuffer s cb r).st
  | Op.beginCommandBuffer cb r => some (vkBeginCommandBuffer s cb r).st
  | Op.resetCommandBuffer cb r => some (vkResetCommandBuffer s cb r).st
  | Op.cmdDrawIndirect cb b => (vkCmdDrawIndirect s cb b).map (fun o => o.st)
  | Op.cmdCopyBuffer cb a b => (vkCmdCopyBuffer s cb a b).map (fun o => o.st)
  | Op.destroyDevice d r => some (vkDestroyDevice s d r).st
  | Op.createSwapChainWSI c r => some (vkCreateSwapChainWSI s c r).st
  | Op.destroySwapChainWSI c r => (vkDestroySwapChainWSI s c r).map (fun o => o.st)
  | Op.getSwapChainInfoWSI c p d f r =>
    (vkGetSwapChainInfoWSI s c p d f r).map (fun o => o.st)
  | Op.mapMemory m r => (vkMapMemory s m r).map (fun o => o.st)

/-- Run a sequence of calls from `s`. -/
def run : State → List Op → Option State
  | s, [] => some s
  | s, op :: ops =>
    match applyOp s op with
    | none => none
    | some s1 => run s1 ops

/-- The states the tracker can be in: the empty tracker and what any defined
call makes of a reachable state. -/
inductive Reachable : State → Prop where
  | init (level : Nat) : Reachable (State.init level)
  | step {s s1 : State} (op : Op) : Reachable s → applyOp s op = some s1 → Reachable s1

/-! ## The invariants of the data model -/

/-- P1: every memory record's `refCount` is the length of its object list plus
the length of its command buffer list. -/
def RefcountAccurate (s : State) : Prop :=
  ∀ m r, lookup s.memObjMap m = some r →
    r.refCount = r.pObjBindings.length + r.pCmdBufferBindings.length

/-- P2: for an object record and a memory record, the object points to the
memory exactly when the memory lists the object; and no object record points
to a memory without a record. -/
def ObjectEdgeSymmetric (s : State) : Prop :=
  (∀ o oi m mi, lookup s.objectMap o = some oi → lookup s.memObjMap m = some mi →
    (oi.pMemObjInfo = some m ↔ o ∈ mi.pObjBindings)) ∧
  (∀ o oi m, lookup s.objectMap o = some oi → oi.pMemObjInfo = some m →
    ∃ mi, lookup s.memObjMap m = some mi)

/-- P3: for a command buffer record `cb` and a memory handle `m`, `m` is in the
command buffer's list exactly when `m` has a record that lists `cb`. -/
def CmdBufEdgeSymmetric (s : State) : Prop :=
  ∀ cb ci m, lookup s.cbMap cb = some ci →
    (m ∈ ci.pMemObjList ↔ ∃ mi, lookup s.memObjMap m = some mi ∧ cb ∈ mi.pCmdBufferBindings)

/-- Reference lists without repetition: no command buffer record lists a
memory twice and no memory record lists a command buffer twice. -/
def ReferenceListsNodup (s : State) : Prop :=
  (∀ cb ci, lookup s.cbMap cb = some ci → ci.pMemObjList.Nodup) ∧
  (∀ m mi, lookup s.memObjMap m = some mi → mi.pCmdBufferBindings.Nodup)

/-! ## Auxiliary definitions used in the statements and proofs -/

/-- What one `remove_cmd_buf_and_mem_reference(cb, ·)` does to the memory
record it finds: every `cb` leaves the list and `refCount` is decremented. -/
def dropCb (cb : Handle) (r : MT_MEM_OBJ_INFO) : MT_MEM_OBJ_INFO :=
  { r with
    pCmdBufferBindings := r.pCmdBufferBindings.filter (fun x => x ≠ cb)
    refCount := dec32 r.refCount }

/-- A tracker state in which command buffer 2 references memory 1 once and
memory 1 is also bound to object 3. -/
def oneRefState : State :=
  { cbMap := [(2, { cmdBuffer := 2, fenceId := 0, lastSubmittedFence := 0,
                    lastSubmittedQueue := 0, pMemObjList := [1] })]
    memObjMap := [(1, { refCount := 2, mem := 1,
                        allocInfo := { allocationSize := 1024, memProps := 0 },
                        pObjBindings := [3], pCmdBufferBindings := [2] })]
    objectMap := [(3, { pMemObjInfo := some 1, ref_count := 1, object := 3, sType := 0,
                        flags := 0 })]
    fenceMap := [], queueMap := [], swapChainMap := []
    g_currentFenceId := 1, g_reportingLevel := 0 }

/-- A tracker state in which command buffer 2, retired on queue 4, lists
memory 1, and memory 1 (allocation size 1024, no bound object) lists command
buffer 2 with a `refCount` of 1. -/
def retiredState : State :=
  { cbMap := [(2, { cmdBuffer := 2, fenceId := 1, lastSubmittedFence := 0,
                    lastSubmittedQueue := 4, pMemObjList := [1] })]
    memObjMap := [(1, { refCount := 1, mem := 1,
                        allocInfo := { allocationSize := 1024, memProps := 0 },
                        pObjBindings := [], pCmdBufferBindings := [2] })]
    objectMap := [], fenceMap := []
    queueMap := [(4, { lastRetiredId := 1, lastSubmittedId := 1 })]
    swapChainMap := [], g_currentFenceId := 2, g_reportingLevel := 0 }

/-- An allocation of 1024 bytes. -/
def alloc1024 : Option VkMemoryAllocInfo := some { allocationSize := 1024, memProps := 0 }

/-- Allocate memory 1, create buffer 3, bind the buffer to the memory, free the
memory (scenario "free with live binding"). -/
def boundFreeTrace : List Op :=
  [ Op.allocMemory alloc1024 1 VkResult.VK_SUCCESS,
    Op.createObject 3 12 0 VkResult.VK_SUCCESS,
    Op.bindObjectMemory 3 1 VkResult.VK_SUCCESS,
    Op.freeMemory 1 VkResult.VK_SUCCESS ]

/-- Allocate memory 1, create command buffer 2 and buffer 3, bind the buffer to
the memory, record an indirect draw from the buffer, get queue 4 and submit the
command buffer on it without a fence. -/
def inFlightTrace : List Op :=
  [ Op.allocMemory alloc1024 1 VkResult.VK_SUCCESS,
    Op.createCommandBuffer 2 VkResult.VK_SUCCESS,
    Op.createObject 3 12 0 VkResult.VK_SUCCESS,
    Op.bindObjectMemory 3 1 VkResult.VK_SUCCESS,
    Op.cmdDrawIndirect 2 3,
    Op.getDeviceQueue 4 VkResult.VK_SUCCESS,
    Op.queueSubmit 4 [2] 0 VkResult.VK_SUCCESS ]

/-- The tracker after `inFlightTrace`: memory 1 is bound to buffer 3 and
referenced by command buffer 2, which is in flight on queue 4. -/
def inFlightState : State :=
  { cbMap := [(2, { cmdBuffer := 2, fenceId := 1, lastSubmittedFence := 0,
                    lastSubmittedQueue := 4, pMemObjList := [1] })]
    memObjMap := [(1, { refCount := 2, mem := 1,
                        allocInfo := { allocationSize := 1024, memProps := 0 },
                        pObjBindings := [3], pCmdBufferBindings := [2] })]
    objectMap := [(3, { pMemObjInfo := some 1, ref_count := 1, object := 3, sType := 12,
                        flags := 0 })]
    fenceMap := []
    queueMap := [(4, { lastRetiredId := 0, lastSubmittedId := 1 })]
    swapChainMap := [], g_currentFenceId := 2, g_reportingLevel := 0 }

/-- After `inFlightTrace`: free memory 1 while it is in use. -/
def forcedFreeTrace : List Op :=
  inFlightTrace ++ [Op.freeMemory 1 VkResult.VK_SUCCESS]

/-- After `forcedFreeTrace`: the driver hands out handle 1 again for a new
allocation, and the application begins command buffer 2 anew. -/
def staleRefTrace : List Op :=
  forcedFreeTrace ++
    [ Op.allocMemory alloc1024 1 VkResult.VK_SUCCESS,
      Op.beginCommandBuffer 2 VkResult.VK_SUCCESS ]

/-- A tracker state with memories 1 and 5, an unbound buffer 3 and a command
buffer 2 without references. -/
def freshState : State :=
  { cbMap := [(2, { cmdBuffer := 2, fenceId := 0, lastSubmittedFence := 0,
                    lastSubmittedQueue := 0, pMemObjList := [] })]
    memObjMap := [(1, { refCount := 0, mem := 1,
                        allocInfo := { allocationSize := 1024, memProps := 0 },
                        pObjBindings := [], pCmdBufferBindings := [] }),
                  (5, { refCount := 0, mem := 5,
                        allocInfo := { allocationSize := 1024, memProps := 0 },
                        pObjBindings := [], pCmdBufferBindings := [] })]
    objectMap := [(3, { pMemObjInfo := none, ref_count := 1, object := 3, sType := 12,
                        flags := 0 })]
    fenceMap := [], queueMap := [], swapChainMap := []
    g_currentFenceId := 1, g_reportingLevel := 0 }

/-- The state `freshState` after buffer 3 was bound to memory 1. -/
def boundState : State :=
  { freshState with
    memObjMap := [(1, { refCount := 1, mem := 1,
                        allocInfo := { allocationSize := 1024, memProps := 0 },
                        pObjBindings := [3], pCmdBufferBindings := [] }),
                  (5, { refCount := 0, mem := 5,
                        allocInfo := { allocationSize := 1024, memProps := 0 },
                        pObjBindings := [], pCmdBufferBindings := [] })]
    objectMap := [(3, { pMemObjInfo := some 1, ref_count := 1, object := 3, sType := 12,
                        flags := 0 })] }

/-- A tracker state in which memory 9 is swap chain memory (allocation size 0)
bound to the persistent image 8. -/
def swapState : State :=
  { cbMap := []
    memObjMap := [(9, { refCount := 1, mem := 9,
                        allocInfo := { allocationSize := 0, memProps := 0 },
                        pObjBindings := [8], pCmdBufferBindings := [] })]
    objectMap := [(8, { pMemObjInfo := some 9, ref_count := 1, object := 8,
                        sType := 2147483647, flags := 0 })]
    fenceMap := [], queueMap := [], swapChainMap := [(7, { images := [⟨8, 9⟩] })]
    g_currentFenceId := 1, g_reportingLevel := 0 }

/-- The fence ids issued by a sequence of submissions, each given by its fence
(possibly null) and its queue: the values `add_fence_info` returns when called
in turn. -/
def issueIds : State → List (Handle × Handle) → List Nat
  | _, [] => []
  | s, (fence, queue) :: rest =>
    (add_fence_info s fence queue).ret :: issueIds (add_fence_info s fence queue).st rest

/-- A tracker whose fence id counter stands at its last 64-bit value. -/
def lastIdState : State :=
  { State.init 0 with g_currentFenceId := 18446744073709551615 }

/-- P5: every queue record has `lastRetiredId ≤ lastSubmittedId`. -/
def WatermarkOrdered (s : State) : Prop :=
  ∀ q qi, lookup s.queueMap q = some qi → qi.lastRetiredId ≤ qi.lastSubmittedId

/-- P6 for one step from `s` to `s1`: a queue that has a record in both has not
lost retirement. -/
def RetiredNonDecreasing (s s1 : State) (q : Handle) : Prop :=
  ∀ qi qi1, lookup s.queueMap q = some qi → lookup s1.queueMap q = some qi1 →
    qi.lastRetiredId ≤ qi1.lastRetiredId

/-- Get queue 4, create fence 7 unsignalled, submit on the queue with the fence,
get queue 4 once more (the driver returns the same handle for the same queue),
then see fence 7 signalled. -/
def requeryTrace : List Op :=
  [ Op.getDeviceQueue 4 VkResult.VK_SUCCESS,
    Op.createObject 7 0 0 VkResult.VK_SUCCESS,
    Op.queueSubmit 4 [] 7 VkResult.VK_SUCCESS,
    Op.getDeviceQueue 4 VkResult.VK_SUCCESS,
    Op.getFenceStatus 7 VkResult.VK_SUCCESS ]

/-- Get queue 4, submit on it without a fence, wait for the queue to idle. -/
def idleTrace : List Op :=
  [ Op.getDeviceQueue 4 VkResult.VK_SUCCESS,
    Op.queueSubmit 4 [] 0 VkResult.VK_SUCCESS,
    Op.queueWaitIdle 4 VkResult.VK_SUCCESS ]

/-- A tracker state after a submission with the unsignalled fence 7 on queue 4
(fence id 1, nothing retired yet); fence 9 was submitted on queue 5. -/
def submittedState : State :=
  { State.init 0 with
    objectMap := [(7, { pMemObjInfo := none, ref_count := 1, object := 7, sType := 0,
                        flags := 0 }),
                  (9, { pMemObjInfo := none, ref_count := 1, object := 9, sType := 0,
                        flags := 0 })]
    fenceMap := [(7, { fenceId := 1, queue := 4 }), (9, { fenceId := 2, queue := 5 })]
    queueMap := [(4, { lastRetiredId := 0, lastSubmittedId := 1 }),
                 (5, { lastRetiredId := 0, lastSubmittedId := 2 })]
    g_currentFenceId := 3 }

/-- The state `submittedState` after fence 7 was seen signalled (its bit is
set), with a command buffer 2 that has a record. -/
def signalledState : State :=
  { State.init 0 with
    cbMap := [(2, { cmdBuffer := 2, fenceId := 0, lastSubmittedFence := 0,
                    lastSubmittedQueue := 0, pMemObjList := [] })]
    objectMap := [(7, { pMemObjInfo := none, ref_count := 1, object := 7, sType := 0,
                        flags := 1 }),
                  (9, { pMemObjInfo := none, ref_count := 1, object := 9, sType := 0,
                        flags := 0 })]
    fenceMap := [(7, { fenceId := 1, queue := 4 }), (9, { fenceId := 2, queue := 5 })]
    queueMap := [(4, { lastRetiredId := 1, lastSubmittedId := 1 }),
                 (5, { lastRetiredId := 0, lastSubmittedId := 2 })]
    g_currentFenceId := 3 }

/-- What the loop of `vkResetFences` does to the object record of a fence it
meets: a set signalled bit is cleared, a record without the bit is left as it
is. -/
def resetFlags (oi : MT_OBJ_INFO) : MT_OBJ_INFO :=
  if oi.flags &&& VK_FENCE_CREATE_SIGNALED_BIT = 0 then oi
  else { oi with flags := oi.flags &&& (4294967295 - VK_FENCE_CREATE_SIGNALED_BIT) }

/-- An allocation the driver refuses, leaving `*pMem` null (the layer records
the handle without looking at the result); then command buffer 2 and buffer 3
are created. -/
def nullAllocTrace : List Op :=
  [ Op.allocMemory alloc1024 0 VkResult.VK_ERROR_UNKNOWN,
    Op.createCommandBuffer 2 VkResult.VK_SUCCESS,
    Op.createObject 3 12 0 VkResult.VK_SUCCESS ]

/-- The tracker after `nullAllocTrace`: a memory record under the null handle,
command buffer 2 without references, buffer 3 without a binding. -/
def nullAllocState : State :=
  { State.init 0 with
    cbMap := [(2, { cmdBuffer := 2, fenceId := 0, lastSubmittedFence := 0,
                    lastSubmittedQueue := 0, pMemObjList := [] })]
    memObjMap := [(0, { refCount := 0, mem := 0,
                        allocInfo := { allocationSize := 1024, memProps := 0 },
                        pObjBindings := [], pCmdBufferBindings := [] })]
    objectMap := [(3, { pMemObjInfo := none, ref_count := 1, object := 3, sType := 12,
                        flags := 0 })] }

/-! ## Extension query -/

/-- The values of `VkExtensionInfoType` that `vkGetGlobalExtensionInfo`
distinguishes; every other value takes the `default` branch. -/
inductive VkExtensionInfoType where
  | VK_EXTENSION_INFO_TYPE_COUNT
  | VK_EXTENSION_INFO_TYPE_PROPERTIES
  | VK_EXTENSION_INFO_TYPE_OTHER
deriving DecidableEq, Repr

/-- One entry of the table `mtExts` (`struct extProps`). -/
structure extProps where
  version : Nat
  name : String
deriving DecidableEq, Repr

/-- The constant `MEM_TRACKER_LAYER_EXT_ARRAY_SIZE`. -/
def MEM_TRACKER_LAYER_EXT_ARRAY_SIZE : Nat := 2

/-- The table `mtExts`. -/
def mtExts : List extProps :=
  [{ version := 0x10, name := "MemTracker" }, { version := 0x10, name := "Validation" }]

/-- What `vkGetGlobalExtensionInfo` stores in `*pDataSize`. -/
inductive ExtDataSize where
  | sizeof_uint32_t
  | sizeof_VkExtensionProperties
deriving DecidableEq, Repr

/-- What `vkGetGlobalExtensionInfo` stores through `pData`: nothing, the
count, or one `VkExtensionProperties`. -/
inductive ExtData where
  | unwritten
  | count (n : Nat)
  | properties (version : Nat) (extName : String)
deriving DecidableEq, Repr

/-- Outcome of `vkGetGlobalExtensionInfo`: the result code and what was written
through the two pointers. -/
structure ExtInfoOut where
  ret : VkResult
  dataSize : Option ExtDataSize
  data : ExtData
deriving DecidableEq, Repr

/-- The string left in `extName` by `strncpy(extName, name, n)` followed by
`extName[n - 1] = 0`: the first `n - 1` characters of `name` at most. -/
def strncpyTerminated (name : String) (n : Nat) : String :=
  String.mk (name.data.take (n - 1))

/-- `vkGetGlobalExtensionInfo`.  `pDataSize` and `pData` say whether the two
pointers are non-null; `maxName` is `VK_MAX_EXTENSION_NAME`, a constant of
`vulkan.h`.  The table is read below its size only, so the `none` branch of
the table lookup is never taken. -/
def vkGetGlobalExtensionInfo (maxName : Nat) (infoType : VkExtensionInfoType)
    (extensionIndex : Nat) (pDataSize pData : Bool) : ExtInfoOut :=
  if pDataSize = false then ⟨VkResult.VK_ERROR_INVALID_POINTER, none, ExtData.unwritten⟩
  else
    match infoType with
    | VkExtensionInfoType.VK_EXTENSION_INFO_TYPE_COUNT =>
      if pData = false then
        ⟨VkResult.VK_SUCCESS, some ExtDataSize.sizeof_uint32_t, ExtData.unwritten⟩
      else
        ⟨VkResult.VK_SUCCESS, some ExtDataSize.sizeof_uint32_t,
          ExtData.count MEM_TRACKER_LAYER_EXT_ARRAY_SIZE⟩
    | VkExtensionInfoType.VK_EXTENSION_INFO_TYPE_PROPERTIES =>
      if pData = false then
        ⟨VkResult.VK_SUCCESS, some ExtDataSize.sizeof_VkExtensionProperties, ExtData.unwritten⟩
      else if extensionIndex ≥ MEM_TRACKER_LAYER_EXT_ARRAY_SIZE then
        ⟨VkResult.VK_ERROR_INVALID_VALUE, some ExtDataSize.sizeof_VkExtensionProperties,
          ExtData.unwritten⟩
      else
        match mtExts.get? extensionIndex with
        | some e =>
          ⟨VkResult.VK_SUCCESS, some ExtDataSize.sizeof_VkExtensionProperties,
            ExtData.properties e.version (strncpyTerminated e.name maxName)⟩
        | none =>
          ⟨VkResult.VK_SUCCESS, some ExtDataSize.sizeof_VkExtensionProperties,
            ExtData.unwritten⟩
    | VkExtensionInfoType.VK_EXTENSION_INFO_TYPE_OTHER =>
      ⟨VkResult.VK_ERROR_INVALID_VALUE, none, ExtData.unwritten⟩

/-- Allocate memory 1 (1024 bytes), then destroy the device (scenario "leak at
teardown"). -/
def leakTrace : List Op :=
  [ Op.allocMemory alloc1024 1 VkResult.VK_SUCCESS,
    Op.destroyDevice 11 VkResult.VK_SUCCESS ]

/-- The leak warning `vkDestroyDevice` sends for a memory record of non-zero
allocation size. -/
def leakWarning (p : Handle × MT_MEM_OBJ_INFO) : Option Diag :=
  if p.2.allocInfo.allocationSize ≠ 0 then
    some ⟨VK_DBG_MSG_WARNING, p.2.mem, MEMTRACK_MEMORY_LEAK⟩
  else none

/-- Every record of a table satisfies `P`. -/
def TableAll {V : Type} (P : V → Prop) (t : Table V) : Prop :=
  ∀ k v, lookup t k = some v → P v

/-- A tracker state satisfying P2 in which the persistent image 8 is bound to
the swap chain memory 9 (allocation size 0), whose command buffer list names
command buffer 2 twice; command buffer 2 was never submitted and lists
memory 9. -/
def dupSwapState : State :=
  { State.init 0 with
    cbMap := [(2, { cmdBuffer := 2, fenceId := 0, lastSubmittedFence := 0,
                    lastSubmittedQueue := 0, pMemObjList := [9] })]
    memObjMap := [(9, { refCount := 3, mem := 9,
                        allocInfo := { allocationSize := 0, memProps := 0 },
                        pObjBindings := [8], pCmdBufferBindings := [2, 2] })]
    objectMap := [(8, { pMemObjInfo := some 9, ref_count := 1, object := 8,
                        sType := 2147483647, flags := 0 })] }

/-- The test `checkCBCompleted` applies to a command buffer record: no
submission stored, or a fence id not above the `lastRetiredId` of the queue of
the last submission (a queue without a record counting as 0). -/
def Completed (s : State) (ci : MT_CB_INFO) : Prop :=
  ci.lastSubmittedQueue = 0 ∨
    ci.fenceId ≤ ((lookup s.queueMap ci.lastSubmittedQueue).getD MT_QUEUE_INFO.zero).lastRetiredId

/-- One round of the loop of `freeMemObjInfo` on the command buffer `cb`: the
completion check, and the clearing of the references when it is passed. -/
def gcStep (s : State) (cb : Handle) : State :=
  if (checkCBCompleted s cb).ret then
    (clear_cmd_buf_and_mem_references (checkCBCompleted s cb).st cb).st
  else (checkCBCompleted s cb).st

/-- Among the command buffers of `l` other than `cb`, none that has a record
and passes the completion check lists the memory `M2`. -/
def Quiet (cb M2 : Handle) (s : State) (l : List Handle) : Prop :=
  ∀ x, x ∈ l → x ≠ cb → ∀ xi, lookup s.cbMap x = some xi → Completed s xi →
    M2 ∉ xi.pMemObjList

/-- Allocate memories 1 and 5, create command buffers 2 and 6 and buffers 3
and 7, bind buffer 3 to memory 1 and buffer 7 to memory 5, and record in each
command buffer an indirect draw from each buffer. -/
def twoRefTrace : List Op :=
  [ Op.allocMemory alloc1024 1 VkResult.VK_SUCCESS,
    Op.allocMemory alloc1024 5 VkResult.VK_SUCCESS,
    Op.createCommandBuffer 2 VkResult.VK_SUCCESS,
    Op.createCommandBuffer 6 VkResult.VK_SUCCESS,
    Op.createObject 3 12 0 VkResult.VK_SUCCESS,
    Op.createObject 7 12 0 VkResult.VK_SUCCESS,
    Op.bindObjectMemory 3 1 VkResult.VK_SUCCESS,
    Op.bindObjectMemory 7 5 VkResult.VK_SUCCESS,
    Op.cmdDrawIndirect 2 3,
    Op.cmdDrawIndirect 2 7,
    Op.cmdDrawIndirect 6 3,
    Op.cmdDrawIndirect 6 7 ]

/-- The tracker after `twoRefTrace`: the command buffers 2 and 6, never
submitted, both reference the memories 1 and 5. -/
def twoRefState : State :=
  { State.init 0 with
    cbMap := [(2, { cmdBuffer := 2, fenceId := 0, lastSubmittedFence := 0,
                    lastSubmittedQueue := 0, pMemObjList := [5, 1] }),
              (6, { cmdBuffer := 6, fenceId := 0, lastSubmittedFence := 0,
                    lastSubmittedQueue := 0, pMemObjList := [5, 1] })]
    memObjMap := [(1, { refCount := 3, mem := 1,
                        allocInfo := { allocationSize := 1024, memProps := 0 },
                        pObjBindings := [3], pCmdBufferBindings := [6, 2] }),
                  (5, { refCount := 3, mem := 5,
                        allocInfo := { allocationSize := 1024, memProps := 0 },
                        pObjBindings := [7], pCmdBufferBindings := [6, 2] })]
    objectMap := [(3, { pMemObjInfo := some 1, ref_count := 1, object := 3, sType := 12,
                        flags := 0 }),
                  (7, { pMemObjInfo := some 5, ref_count := 1, object := 7, sType := 12,
                        flags := 0 })] }
/-- A state where the retired command buffer 2 (queue 4 has retired fence 1)
references the memories 5 and 1, each of which lists it, with matching counts. -/
def sharedRefState : State :=
  { State.init 0 with
    cbMap := [(2, { cmdBuffer := 2, fenceId := 1, lastSubmittedFence := 0,
                    lastSubmittedQueue := 4, pMemObjList := [5, 1] })]
    memObjMap := [(1, { refCount := 1, mem := 1,
                        allocInfo := { allocationSize := 1024, memProps := 0 },
                        pObjBindings := [], pCmdBufferBindings := [2] }),
                  (5, { refCount := 1, mem := 5,
                        allocInfo := { allocationSize := 1024, memProps := 0 },
                        pObjBindings := [], pCmdBufferBindings := [2] })]
    queueMap := [(4, { lastRetiredId := 1, lastSubmittedId := 1 })]
    g_currentFenceId := 2 }

/-! ## The global lock -/

/-- The six tables of the tracker. -/
inductive TableId where
  | cbMap
  | memObjMap
  | objectMap
  | fenceMap
  | queueMap
  | swapChainMap
deriving DecidableEq, Repr

/-- What the body of an entry point does, in program order, as far as the
global lock is concerned: `loader_platform_thread_lock_mutex(&globalLock)`, the
matching unlock, the call of the next layer (`nextTable.*`), and a statement
that reads or writes a table or one of its records; for a call of a helper the
event names the table the helper looks up first (no helper takes or releases
the lock). -/
inductive LockEvent where
  | lock
  | unlock
  | driver
  | access (t : TableId)
deriving DecidableEq, Repr

/-- The statements of `vkGetFenceStatus`: the driver call, then, on success,
`update_fence_tracking` between lock and unlock. -/
def vkGetFenceStatus_events (result : VkResult) : List LockEvent :=
  LockEvent.driver ::
    (if result = VkResult.VK_SUCCESS then
      [LockEvent.lock, LockEvent.access TableId.fenceMap, LockEvent.unlock]
    else [])

/-- The statements of `vkWaitForFences`: the loop that looks every fence up
with `get_object_info`, the driver call, the lock, the loop of
`update_fence_tracking` (on success with `waitAll` or a single fence), the
unlock. -/
def vkWaitForFences_events (pFences : List Handle) (waitAll : Bool) (result : VkResult) :
    List LockEvent :=
  pFences.map (fun _ => LockEvent.access TableId.objectMap) ++
    [LockEvent.driver, LockEvent.lock] ++
    (if result = VkResult.VK_SUCCESS ∧ (waitAll = true ∨ pFences.length = 1) then
      pFences.map (fun _ => LockEvent.access TableId.fenceMap)
    else []) ++
    [LockEvent.unlock]

/-- The statements of `vkQueueWaitIdle`: the driver call, then, on success,
`retire_queue_fences` between lock and unlock. -/
def vkQueueWaitIdle_events (result : VkResult) : List LockEvent :=
  LockEvent.driver ::
    (if result = VkResult.VK_SUCCESS then
      [LockEvent.lock, LockEvent.access TableId.queueMap, LockEvent.unlock]
    else [])

/-- The statements of `vkCreateSwapChainWSI`: the driver call, then, on
success, `add_swap_chain_info` between lock and unlock. -/
def vkCreateSwapChainWSI_events (result : VkResult) : List LockEvent :=
  LockEvent.driver ::
    (if result = VkResult.VK_SUCCESS then
      [LockEvent.lock, LockEvent.access TableId.swapChainMap, LockEvent.unlock]
    else [])

/-- The statements of `vkGetSwapChainInfoWSI`: the driver call, then, for a
successful query of the persistent images, `swapChainMap[swapChain]` and, when
the record has no images yet, the store of the images and for each image
`add_object_info`, `add_mem_obj_info` and `set_object_binding` (which looks
the object up unless the memory is null).  The body has no lock and no
unlock. -/
def vkGetSwapChainInfoWSI_events (s : State) (swapChain : Handle) (persistent : Bool)
    (data : List VkSwapChainImageInfoWSI) (result : VkResult) : List LockEvent :=
  LockEvent.driver ::
    (if persistent = true ∧ result = VkResult.VK_SUCCESS then
      LockEvent.access TableId.swapChainMap ::
        (match lookup s.swapChainMap swapChain with
         | none => []
         | some pInfo =>
           if pInfo.images = [] then
             LockEvent.access TableId.swapChainMap ::
               (data.map (fun it =>
                 [LockEvent.access TableId.objectMap, LockEvent.access TableId.memObjMap] ++
                   (if it.memory ≠ 0 then [LockEvent.access TableId.objectMap] else []))).flatten
           else [])
    else [])

/-- Modelled from the spec: "every entry point that reads or writes any record
acquires it, completes its bookkeeping, and releases it".  Starting with the
lock held or not, every access happens with the lock held, the lock is taken
only when free and released only when held, and it is free at the end. -/
def lockDisciplinedFrom : Bool → List LockEvent → Bool
  | held, [] => !held
  | held, LockEvent.lock :: rest => !held && lockDisciplinedFrom true rest
  | held, LockEvent.unlock :: rest => held && lockDisciplinedFrom false rest
  | held, LockEvent.driver :: rest => lockDisciplinedFrom held rest
  | held, LockEvent.access _ :: rest => held && lockDisciplinedFrom held rest

/-- Modelled from the spec: the single-mutex discipline of an entry point whose
statements are `l`, entered with the lock free. -/
def LockDisciplined (l : List LockEvent) : Bool := lockDisciplinedFrom false l

/-- Every memory record is stored under the handle it carries in its `mem`
field. -/
def MemKeyed (s : State) : Prop :=
  ∀ m mi, lookup s.memObjMap m = some mi → mi.mem = m

/-- Create swap chain 7 and query its persistent images: image 8 with
memory 9. -/
def swapTrace : List Op :=
  [ Op.createSwapChainWSI 7 VkResult.VK_SUCCESS,
    Op.getSwapChainInfoWSI 7 true [⟨8, 9⟩] 0 VkResult.VK_SUCCESS ]

/-- After `staleRefTrace` (memory 1 left with `refCount = 2^32 - 1`): a new
buffer 8 is created. -/
def wrapTrace : List Op :=
  staleRefTrace ++ [Op.createObject 8 12 0 VkResult.VK_SUCCESS]

/-- After `wrapTrace`: buffer 8 is bound to memory 1. -/
def wrapBoundTrace : List Op :=
  wrapTrace ++ [Op.bindObjectMemory 8 1 VkResult.VK_SUCCESS]

/-- After `forcedFreeTrace` (memory 1 freed while command buffer 2, which lists
it, was in flight): the driver hands out handle 1 again for a new allocation. -/
def staleAllocTrace : List Op :=
  forcedFreeTrace ++ [Op.allocMemory alloc1024 1 VkResult.VK_SUCCESS]

/-- Memory 1, bound to buffer 3, is referenced by the command buffers 2 and 6,
both submitted on queue 4, and freed while they are in flight; handle 1 is then
allocated again, both command buffers are begun anew, and a new buffer 8 is
bound to memory 1. -/
def twoStaleTrace : List Op :=
  [ Op.allocMemory alloc1024 1 VkResult.VK_SUCCESS,
    Op.createCommandBuffer 2 VkResult.VK_SUCCESS,
    Op.createCommandBuffer 6 VkResult.VK_SUCCESS,
    Op.createObject 3 12 0 VkResult.VK_SUCCESS,
    Op.bindObjectMemory 3 1 VkResult.VK_SUCCESS,
    Op.cmdDrawIndirect 2 3,
    Op.cmdDrawIndirect 6 3,
    Op.getDeviceQueue 4 VkResult.VK_SUCCESS,
    Op.queueSubmit 4 [2, 6] 0 VkResult.VK_SUCCESS,
    Op.freeMemory 1 VkResult.VK_SUCCESS,
    Op.allocMemory alloc1024 1 VkResult.VK_SUCCESS,
    Op.beginCommandBuffer 2 VkResult.VK_SUCCESS,
    Op.beginCommandBuffer 6 VkResult.VK_SUCCESS,
    Op.createObject 8 12 0 VkResult.VK_SUCCESS,
    Op.bindObjectMemory 8 1 VkResult.VK_SUCCESS ]

/-- After `boundFreeTrace` (buffer 3 bound to memory 1, memory 1 freed): memory
5 is allocated. -/
def danglingTrace : List Op :=
  boundFreeTrace ++ [Op.allocMemory alloc1024 5 VkResult.VK_SUCCESS]

/-- Fence 7 is created in the signalled state and command buffer 2 is
created. -/
def signalledTrace : List Op :=
  [ Op.createObject 7 0 1 VkResult.VK_SUCCESS,
    Op.createCommandBuffer 2 VkResult.VK_SUCCESS ]

/-! ## Tables: basic facts -/

theorem lookup_assign_self {V : Type} (t : Table V) (k : Handle) (v : V) :
    lookup (assign t k v) k = some v := by
  induction t with
  | nil => simp [assign, lookup]
  | cons p rest ih =>
    obtain ⟨k', v'⟩ := p
    by_cases h : k' = k
    · simp [assign, lookup, h]
    · simp [assign, lookup, h, ih]

theorem lookup_assign_ne {V : Type} (t : Table V) (k k' : Handle) (v : V) (h : k' ≠ k) :
    lookup (assign t k v) k' = lookup t k' := by
  induction t with
  | nil =>
    have h2 : ¬ k = k' := fun e => h e.symm
    simp [assign, lookup, h2]
  | cons p rest ih =>
    obtain ⟨k0, v0⟩ := p
    by_cases h0 : k0 = k
    · subst h0
      have h2 : ¬ k0 = k' := fun e => h e.symm
      simp [assign, lookup, h2]
    · by_cases h1 : k0 = k'
      · subst h1
        simp [assign, lookup, h0]
      · simp [assign, lookup, h0, h1, ih]

theorem lookup_erase_self {V : Type} (t : Table V) (k : Handle) :
    lookup (erase t k) k = none := by
  induction t with
  | nil => simp [erase, lookup]
  | cons p rest ih =>
    obtain ⟨k0, v0⟩ := p
    by_cases h0 : k0 = k
    · simp [erase, h0, ih]
    · simp [erase, lookup, h0, ih]

theorem lookup_erase_ne {V : Type} (t : Table V) (k k' : Handle) (h : k' ≠ k) :
    lookup (erase t k) k' = lookup t k' := by
  induction t with
  | nil => simp [erase, lookup]
  | cons p rest ih =>
    obtain ⟨k0, v0⟩ := p
    by_cases h0 : k0 = k
    · subst h0
      have h2 : ¬ k0 = k' := fun e => h e.symm
      simp [erase, lookup, h2, ih]
    · by_cases h1 : k0 = k'
      · subst h1
        simp [erase, lookup, h0]
      · simp [erase, lookup, h0, h1, ih]

theorem lookup_touch_getD {V : Type} (t : Table V) (k k' : Handle) (d : V) :
    (lookup (touch t k d) k').getD d = (lookup t k').getD d := by
  unfold touch
  cases h : lookup t k with
  | some v => simp
  | none =>
    by_cases hk : k' = k
    · subst hk
      simp [lookup_assign_self, h]
    · simp [lookup_assign_ne _ _ _ _ hk]

/-! ## Binding an object (`set_object_binding`) -/

/-- C4 (amended): binding an object that has a record and no memory edge to a
non-null memory that has a record returns `VK_TRUE` with no message; the memory
record gets the object pushed once on its object list and its `refCount`
incremented by one modulo `2^32` (from `2^32 - 1` it wraps to 0), the object
record points to the memory, and every other memory and object record and the
command buffer, queue, fence and swap chain tables and the counters are
unchanged. -/
theorem set_object_binding_success (s : State) (o m : Handle) (oi : MT_OBJ_INFO)
    (mi : MT_MEM_OBJ_INFO) (hm : m ≠ VK_NULL_HANDLE)
    (ho : lookup s.objectMap o = some oi) (hedge : oi.pMemObjInfo = none)
    (hmi : lookup s.memObjMap m = some mi) :
    ∃ s1 : State, set_object_binding s o m = some ⟨true, [], s1⟩ ∧
      lookup s1.memObjMap m =
        some { mi with pObjBindings := o :: mi.pObjBindings,
                       refCount := (mi.refCount + 1) % 4294967296 } ∧
      (o :: mi.pObjBindings).count o = mi.pObjBindings.count o + 1 ∧
      lookup s1.objectMap o = some { oi with pMemObjInfo := some m } ∧
      (∀ m1, m1 ≠ m → lookup s1.memObjMap m1 = lookup s.memObjMap m1) ∧
      (∀ o1, o1 ≠ o → lookup s1.objectMap o1 = lookup s.objectMap o1) ∧
      s1.cbMap = s.cbMap ∧ s1.queueMap = s.queueMap ∧ s1.fenceMap = s.fenceMap ∧
      s1.swapChainMap = s.swapChainMap ∧ s1.g_currentFenceId = s.g_currentFenceId ∧
      s1.g_reportingLevel = s.g_reportingLevel := by
  refine ⟨{ s with
      memObjMap := assign s.memObjMap m
        { mi with pObjBindings := o :: mi.pObjBindings, refCount := inc32 mi.refCount }
      objectMap := assign s.objectMap o { oi with pMemObjInfo := some m } }, ?_, ?_, ?_, ?_,
    ?_, ?_, rfl, rfl, rfl, rfl, rfl, rfl⟩
  · simp [set_object_binding, hm, get_object_info, get_mem_obj_info, ho, hmi, hedge]
  · simp [lookup_assign_self, inc32]
  · simp
  · simp [lookup_assign_self]
  · intro m1 h1
    simp [lookup_assign_ne _ _ _ _ h1]
  · intro o1 h1
    simp [lookup_assign_ne _ _ _ _ h1]

/-- Rebind with the old record in place: binding an object that points to a
memory `M1` that has a record to a non-null memory `M2` that has a record
returns `VK_FALSE`, sends exactly one error with code `MEMTRACK_REBIND_OBJECT`,
and leaves the globals as they were, so the edge to `M1` and the `refCount` and
object lists of `M1` and `M2` stay. -/
theorem set_object_binding_rebind_rejected (s : State) (o M1 M2 : Handle) (oi : MT_OBJ_INFO)
    (r1 r2 : MT_MEM_OBJ_INFO)
    (ho : lookup s.objectMap o = some oi) (hedge : oi.pMemObjInfo = some M1)
    (h1 : lookup s.memObjMap M1 = some r1)
    (hM2 : M2 ≠ VK_NULL_HANDLE) (h2 : lookup s.memObjMap M2 = some r2) :
    set_object_binding s o M2 =
      some ⟨false, [⟨VK_DBG_MSG_ERROR, M2, MEMTRACK_REBIND_OBJECT⟩], s⟩ := by
  unfold set_object_binding
  rw [if_neg hM2]
  simp only [get_object_info, get_mem_obj_info, ho, h2, hedge, h1]

/-! ## Referencing memory from a command buffer -/

/-- C6 (amended): when both the command buffer and the memory have records,
`update_cmd_buf_and_mem_references` returns `VK_TRUE` (with no message);
afterwards the command buffer is in the memory's list and the memory in the
command buffer's list; `refCount` is incremented by one modulo `2^32` (from
`2^32 - 1` it wraps to 0) when the command buffer was absent from the memory's
list and is unchanged otherwise; and a second call on the resulting globals
returns them unchanged. -/
theorem update_cmd_buf_and_mem_references_dedup (s : State) (cb m : Handle) (ci : MT_CB_INFO)
    (mi : MT_MEM_OBJ_INFO)
    (hcb : lookup s.cbMap cb = some ci) (hm : lookup s.memObjMap m = some mi) :
    ∃ (s1 : State) (mi1 : MT_MEM_OBJ_INFO) (ci1 : MT_CB_INFO),
      update_cmd_buf_and_mem_references s cb m = ⟨true, [], s1⟩ ∧
      lookup s1.memObjMap m = some mi1 ∧ cb ∈ mi1.pCmdBufferBindings ∧
      lookup s1.cbMap cb = some ci1 ∧ m ∈ ci1.pMemObjList ∧
      (cb ∉ mi.pCmdBufferBindings → mi1.refCount = (mi.refCount + 1) % 4294967296) ∧
      (cb ∈ mi.pCmdBufferBindings → mi1.refCount = mi.refCount) ∧
      update_cmd_buf_and_mem_references s1 cb m = ⟨true, [], s1⟩ := by
  by_cases h1 : cb ∈ mi.pCmdBufferBindings
  · by_cases h2 : m ∈ ci.pMemObjList
    · refine ⟨s, mi, ci, ?_, hm, h1, hcb, h2, fun h => absurd h1 h, fun _ => rfl, ?_⟩ <;>
        simp [update_cmd_buf_and_mem_references, get_mem_obj_info, get_cmd_buf_info, hm, hcb, h1, h2]
    · refine ⟨{ s with cbMap := assign s.cbMap cb { ci with pMemObjList := m :: ci.pMemObjList } },
        mi, { ci with pMemObjList := m :: ci.pMemObjList }, ?_, hm, h1, ?_, ?_,
        fun h => absurd h1 h, fun _ => rfl, ?_⟩
      · simp [update_cmd_buf_and_mem_references, get_mem_obj_info, get_cmd_buf_info, hm, hcb, h1, h2]
      · simp [lookup_assign_self]
      · simp
      · simp [update_cmd_buf_and_mem_references, get_mem_obj_info, get_cmd_buf_info, hm, h1,
          lookup_assign_self]
  · by_cases h2 : m ∈ ci.pMemObjList
    · refine ⟨{ s with memObjMap := assign s.memObjMap m
                                      { mi with pCmdBufferBindings := cb :: mi.pCmdBufferBindings,
                                                refCount := inc32 mi.refCount } },
        { mi with pCmdBufferBindings := cb :: mi.pCmdBufferBindings,
                  refCount := inc32 mi.refCount }, ci, ?_, ?_, ?_, hcb, h2,
        fun _ => rfl, fun h => absurd h h1, ?_⟩
      · simp [update_cmd_buf_and_mem_references, get_mem_obj_info, get_cmd_buf_info, hm, hcb, h1, h2]
      · simp [lookup_assign_self]
      · simp
      · simp [update_cmd_buf_and_mem_references, get_mem_obj_info, get_cmd_buf_info, hcb, h2,
          lookup_assign_self]
    · refine ⟨{ s with
          memObjMap := assign s.memObjMap m
                        { mi with pCmdBufferBindings := cb :: mi.pCmdBufferBindings,
                                  refCount := inc32 mi.refCount }
          cbMap := assign s.cbMap cb { ci with pMemObjList := m :: ci.pMemObjList } },
        { mi with pCmdBufferBindings := cb :: mi.pCmdBufferBindings,
                  refCount := inc32 mi.refCount },
        { ci with pMemObjList := m :: ci.pMemObjList }, ?_, ?_, ?_, ?_, ?_,
        fun _ => rfl, fun h => absurd h h1, ?_⟩
      · simp [update_cmd_buf_and_mem_references, get_mem_obj_info, get_cmd_buf_info, hm, hcb, h1, h2]
      · simp [lookup_assign_self]
      · simp
      · simp [lookup_assign_self]
      · simp
      · simp [update_cmd_buf_and_mem_references, get_mem_obj_info, get_cmd_buf_info,
          lookup_assign_self]

/-! ## Clearing the references of a command buffer -/

theorem remove_lookup (s : State) (cb x m : Handle) :
    lookup (remove_cmd_buf_and_mem_reference s cb x).memObjMap m =
      if x = m then (lookup s.memObjMap m).map (dropCb cb) else lookup s.memObjMap m := by
  unfold remove_cmd_buf_and_mem_reference get_mem_obj_info
  by_cases hx : x = m
  · subst hx
    cases h : lookup s.memObjMap x with
    | none => simp [h]
    | some r => simp [h, lookup_assign_self, dropCb]
  · have hx2 : m ≠ x := fun e => hx e.symm
    cases h : lookup s.memObjMap x with
    | none => simp [hx]
    | some r => simp [hx, lookup_assign_ne _ _ _ _ hx2]

theorem remove_frame (s : State) (cb x : Handle) :
    ∃ t, remove_cmd_buf_and_mem_reference s cb x = { s with memObjMap := t } := by
  unfold remove_cmd_buf_and_mem_reference
  cases h : get_mem_obj_info s x with
  | none => exact ⟨s.memObjMap, rfl⟩
  | some r => exact ⟨_, rfl⟩

theorem foldl_remove_frame (cb : Handle) (l : List Handle) (s : State) :
    ∃ t, l.foldl (fun st m => remove_cmd_buf_and_mem_reference st cb m) s =
      { s with memObjMap := t } := by
  induction l generalizing s with
  | nil => exact ⟨s.memObjMap, rfl⟩
  | cons x rest ih =>
    obtain ⟨t, ht⟩ := remove_frame s cb x
    obtain ⟨t2, ht2⟩ := ih (remove_cmd_buf_and_mem_reference s cb x)
    refine ⟨t2, ?_⟩
    simp only [List.foldl_cons]
    rw [ht2, ht]

theorem foldl_remove_lookup (cb : Handle) (l : List Handle) (s : State) (m : Handle) :
    lookup (l.foldl (fun st x => remove_cmd_buf_and_mem_reference st cb x) s).memObjMap m =
      (lookup s.memObjMap m).map ((dropCb cb)^[l.count m]) := by
  induction l generalizing s with
  | nil =>
    simp only [List.foldl_nil, List.count_nil, Function.iterate_zero]
    cases lookup s.memObjMap m <;> rfl
  | cons x rest ih =>
    simp only [List.foldl_cons]
    rw [ih, remove_lookup]
    by_cases hx : x = m
    · subst hx
      rw [if_pos rfl, List.count_cons_self, Function.iterate_succ, Option.map_map]
    · rw [if_neg hx, List.count_cons_of_ne (fun e => hx e.symm)]

theorem checkCBCompleted_memObjMap (s : State) (cb : Handle) :
    (checkCBCompleted s cb).st.memObjMap = s.memObjMap ∧
    (checkCBCompleted s cb).st.cbMap = s.cbMap ∧
    (checkCBCompleted s cb).st.objectMap = s.objectMap := by
  unfold checkCBCompleted
  split
  · exact ⟨rfl, rfl, rfl⟩
  · split
    · dsimp only
      split <;> exact ⟨rfl, rfl, rfl⟩
    · exact ⟨rfl, rfl, rfl⟩

theorem clear_lookup_mem (s : State) (cb m : Handle) :
    (lookup (clear_cmd_buf_and_mem_references s cb).st.memObjMap m).isSome =
      (lookup s.memObjMap m).isSome := by
  unfold clear_cmd_buf_and_mem_references
  cases h : get_cmd_buf_info s cb with
  | none => rfl
  | some ci =>
    show (lookup (ci.pMemObjList.foldl
      (fun st x => remove_cmd_buf_and_mem_reference st cb x) s).memObjMap m).isSome = _
    rw [foldl_remove_lookup]
    cases lookup s.memObjMap m <;> rfl

theorem freeLoop_mem_isSome (M m : Handle) (fuel : Nat) (l : List Handle) (s s1 : State)
    (d : List Diag) (h : freeLoop M fuel l s = some (d, s1)) :
    (lookup s1.memObjMap m).isSome = (lookup s.memObjMap m).isSome := by
  induction fuel generalizing l s d with
  | zero =>
    cases l with
    | nil =>
      simp only [freeLoop, Option.some.injEq, Prod.mk.injEq] at h
      rw [← h.2]
    | cons cb rest => simp [freeLoop] at h
  | succ n ih =>
    cases l with
    | nil =>
      simp only [freeLoop, Option.some.injEq, Prod.mk.injEq] at h
      rw [← h.2]
    | cons cb rest =>
      have hc := (checkCBCompleted_memObjMap s cb).1
      simp only [freeLoop] at h
      split at h
      · split at h
        · split at h
          · simp only [Option.map_eq_some', Prod.mk.injEq] at h
            obtain ⟨p, hp, _, hp2⟩ := h
            obtain ⟨pd, ps⟩ := p
            simp only at hp2
            subst hp2
            rw [ih _ _ _ hp, clear_lookup_mem, hc]
          · split at h
            · split at h
              · exact Option.noConfusion h
              · simp only [Option.some.injEq, Prod.mk.injEq] at h
                rw [← h.2, clear_lookup_mem, hc]
            · simp only [Option.map_eq_some', Prod.mk.injEq] at h
              obtain ⟨p, hp, _, hp2⟩ := h
              obtain ⟨pd, ps⟩ := p
              simp only at hp2
              subst hp2
              rw [ih _ _ _ hp, clear_lookup_mem, hc]
        · simp only [Option.map_eq_some', Prod.mk.injEq] at h
          obtain ⟨p, hp, _, hp2⟩ := h
          obtain ⟨pd, ps⟩ := p
          simp only at hp2
          subst hp2
          rw [ih _ _ _ hp, hc]
      · simp only [Option.some.injEq, Prod.mk.injEq] at h
        rw [← h.2]

/-- C7 (amended): for a command buffer that has a record whose memory list
holds no memory twice (as in every reachable state),
`clear_cmd_buf_and_mem_references` returns `VK_TRUE` and leaves the list empty;
every memory of the list that has a record loses every occurrence of the
command buffer from its list and has its `refCount` decremented by one modulo
`2^32` (from 0 it wraps to `2^32 - 1`), its other fields unchanged; memory
records that were not in the list are unchanged. -/
theorem clear_cmd_buf_and_mem_references_nodup (s : State) (cb : Handle) (ci : MT_CB_INFO)
    (hcb : lookup s.cbMap cb = some ci) (hnd : ci.pMemObjList.Nodup) :
    ∃ s1 : State, clear_cmd_buf_and_mem_references s cb = ⟨true, [], s1⟩ ∧
      lookup s1.cbMap cb = some { ci with pMemObjList := [] } ∧
      (∀ m mi, m ∈ ci.pMemObjList → lookup s.memObjMap m = some mi →
        lookup s1.memObjMap m =
          some { mi with
                 pCmdBufferBindings := mi.pCmdBufferBindings.filter (fun x => x ≠ cb)
                 refCount := (mi.refCount + 4294967295) % 4294967296 } ∧
        cb ∉ mi.pCmdBufferBindings.filter (fun x => x ≠ cb)) ∧
      (∀ m, m ∉ ci.pMemObjList → lookup s1.memObjMap m = lookup s.memObjMap m) := by
  obtain ⟨t, ht⟩ := foldl_remove_frame cb ci.pMemObjList s
  have hl := foldl_remove_lookup cb ci.pMemObjList s
  have hst : (clear_cmd_buf_and_mem_references s cb).st =
      { (ci.pMemObjList.foldl (fun st x => remove_cmd_buf_and_mem_reference st cb x) s) with
        cbMap := assign (ci.pMemObjList.foldl
          (fun st x => remove_cmd_buf_and_mem_reference st cb x) s).cbMap cb
            { ci with pMemObjList := [] } } := by
    simp only [clear_cmd_buf_and_mem_references, get_cmd_buf_info, hcb]
  refine ⟨(clear_cmd_buf_and_mem_references s cb).st, ?_, ?_, ?_, ?_⟩
  · simp only [clear_cmd_buf_and_mem_references, get_cmd_buf_info, hcb]
  · rw [hst]
    simp only [lookup_assign_self]
  · intro m mi hm hmi
    rw [hst]
    refine ⟨?_, ?_⟩
    · show lookup (ci.pMemObjList.foldl
        (fun st x => remove_cmd_buf_and_mem_reference st cb x) s).memObjMap m = _
      rw [hl m, hmi, List.count_eq_one_of_mem hnd hm]
      rfl
    · simp [List.mem_filter]
  · intro m hm
    rw [hst]
    show lookup (ci.pMemObjList.foldl
        (fun st x => remove_cmd_buf_and_mem_reference st cb x) s).memObjMap m = _
    rw [hl m, List.count_eq_zero_of_not_mem hm]
    cases lookup s.memObjMap m <;> rfl

/-- Witness for C7: in `oneRefState` command buffer 2 lists memory 1 once;
clearing its references returns `VK_TRUE` and takes memory 1 from 2 to 1. -/
theorem clear_cmd_buf_and_mem_references_nodup_witness :
    ∃ s1 : State, clear_cmd_buf_and_mem_references oneRefState 2 = ⟨true, [], s1⟩ ∧
      (lookup s1.memObjMap 1).map (fun r => r.refCount) = some 1 := by
  obtain ⟨s1, h1, _, h3, _⟩ := clear_cmd_buf_and_mem_references_nodup oneRefState 2
    { cmdBuffer := 2, fenceId := 0, lastSubmittedFence := 0,
      lastSubmittedQueue := 0, pMemObjList := [1] } rfl (by decide)
  refine ⟨s1, h1, ?_⟩
  rw [(h3 1 _ (by decide) rfl).1]
  rfl

/-! ## Freeing memory that is still referenced -/

theorem map_of_length_pos {α β : Type} (l : List α) (f : α → β) :
    (if l.length > 0 then l.map f else []) = l.map f := by
  cases l <;> simp

/-- C8: let memory `M` have a record that `freeMemObjInfo` does not refuse
(non-zero allocation size, or the internal path), let the loop over its command
buffer list end in the globals `s1` having sent `d1`, and let the `refCount` of
`M` in `s1` be non-zero.  Then `freeMemObjInfo` returns `VK_FALSE`; after `d1`
it sends the summary message (when a list is non-empty), one message naming
each command buffer left in `M`'s list and one naming each object left in its
object list; the record of `M` is erased; and `vkFreeMemory` sends the
`MEMTRACK_FREED_MEM_REF` warning for `M`. -/
theorem freeMemObjInfo_live_references (s : State) (M : Handle) (internal : Bool)
    (pInfo : MT_MEM_OBJ_INFO) (d1 : List Diag) (s1 : State)
    (h : lookup s.memObjMap M = some pInfo)
    (hsz : pInfo.allocInfo.allocationSize ≠ 0 ∨ internal = true)
    (hgc : freeLoop M pInfo.pCmdBufferBindings.length pInfo.pCmdBufferBindings s = some (d1, s1))
    (hrc : ∀ r1, lookup s1.memObjMap M = some r1 → r1.refCount ≠ 0) :
    ∃ (r1 : MT_MEM_OBJ_INFO) (s2 : State),
      lookup s1.memObjMap M = some r1 ∧
      freeMemObjInfo s M internal =
        some ⟨false,
          d1 ++ ((if r1.pCmdBufferBindings.length + r1.pObjBindings.length ≠ 0 then
                    [⟨VK_DBG_MSG_UNKNOWN, r1.mem, MEMTRACK_INTERNAL_ERROR⟩] else []) ++
                 r1.pCmdBufferBindings.map (fun cb => ⟨VK_DBG_MSG_UNKNOWN, cb, MEMTRACK_NONE⟩) ++
                 r1.pObjBindings.map (fun o => ⟨VK_DBG_MSG_UNKNOWN, o, MEMTRACK_NONE⟩)),
          s2⟩ ∧
      lookup s2.memObjMap M = none ∧
      (internal = false → ∀ result, ∃ v, vkFreeMemory s M result = some v ∧
        (⟨VK_DBG_MSG_WARNING, M, MEMTRACK_FREED_MEM_REF⟩ : Diag) ∈ v.msgs ∧ v.st = s2) := by
  have hsome := freeLoop_mem_isSome M M _ _ s s1 d1 hgc
  rw [h] at hsome
  cases h1 : lookup s1.memObjMap M with
  | none => rw [h1] at hsome; simp at hsome
  | some r1 =>
    have hne := hrc r1 h1
    have hcond : ¬ (pInfo.allocInfo.allocationSize = 0 ∧ internal = false) := by
      rintro ⟨ha, hb⟩
      rcases hsz with hz | hi
      · exact hz ha
      · rw [hi] at hb; exact Bool.noConfusion hb
    have hfree : freeMemObjInfo s M internal =
        some ⟨false,
          d1 ++ ((if r1.pCmdBufferBindings.length + r1.pObjBindings.length ≠ 0 then
                    [⟨VK_DBG_MSG_UNKNOWN, r1.mem, MEMTRACK_INTERNAL_ERROR⟩] else []) ++
                 r1.pCmdBufferBindings.map (fun cb => ⟨VK_DBG_MSG_UNKNOWN, cb, MEMTRACK_NONE⟩) ++
                 r1.pObjBindings.map (fun o => ⟨VK_DBG_MSG_UNKNOWN, o, MEMTRACK_NONE⟩)),
          { s1 with memObjMap := erase (assign s1.memObjMap M
              { r1 with pCmdBufferBindings := [], pObjBindings := [] }) M }⟩ := by
      simp only [freeMemObjInfo, get_mem_obj_info, h, hcond, if_false, hgc, h1, hne,
        ne_eq, not_false_eq_true, if_true, reportMemReferencesAndCleanUp, deleteMemObjInfo,
        lookup_assign_self, map_of_length_pos, List.append_nil, decide_False]
    refine ⟨r1, _, rfl, hfree, ?_, ?_⟩
    · exact lookup_erase_self _ _
    · intro hi result
      subst hi
      simp only [vkFreeMemory, hfree, Option.map_some']
      refine ⟨_, rfl, ?_, rfl⟩
      simp

/-! ## Freeing memory whose command buffers have all retired -/

theorem clear_spec (s : State) (cb : Handle) (ci : MT_CB_INFO)
    (hcb : lookup s.cbMap cb = some ci) :
    ∃ t : Table MT_MEM_OBJ_INFO,
      clear_cmd_buf_and_mem_references s cb =
        ⟨true, [], { s with memObjMap := t,
                            cbMap := assign s.cbMap cb { ci with pMemObjList := [] } }⟩ ∧
      ∀ m, lookup t m = (lookup s.memObjMap m).map ((dropCb cb)^[ci.pMemObjList.count m]) := by
  obtain ⟨t, ht⟩ := foldl_remove_frame cb ci.pMemObjList s
  have hl := foldl_remove_lookup cb ci.pMemObjList s
  rw [ht] at hl
  refine ⟨t, ?_, hl⟩
  simp only [clear_cmd_buf_and_mem_references, get_cmd_buf_info, hcb, ht]

theorem checkCBCompleted_spec (s : State) (cb : Handle) (ci : MT_CB_INFO)
    (hcb : lookup s.cbMap cb = some ci)
    (hret : ci.fenceId ≤
      ((lookup s.queueMap ci.lastSubmittedQueue).getD MT_QUEUE_INFO.zero).lastRetiredId) :
    ∃ q : Table MT_QUEUE_INFO,
      checkCBCompleted s cb = ⟨true, [], { s with queueMap := q }⟩ ∧
      ∀ k, (lookup q k).getD MT_QUEUE_INFO.zero = (lookup s.queueMap k).getD MT_QUEUE_INFO.zero := by
  by_cases hq : ci.lastSubmittedQueue ≠ 0
  · refine ⟨touch s.queueMap ci.lastSubmittedQueue MT_QUEUE_INFO.zero, ?_, ?_⟩
    · have hn : ¬ ci.fenceId >
          ((lookup s.queueMap ci.lastSubmittedQueue).getD MT_QUEUE_INFO.zero).lastRetiredId :=
        Nat.not_lt.mpr hret
      simp only [checkCBCompleted, get_cmd_buf_info, hcb, hq, hn, if_true, if_false, ne_eq,
        not_false_eq_true]
    · intro k
      exact lookup_touch_getD _ _ _ _
  · refine ⟨s.queueMap, ?_, fun _ => rfl⟩
    simp only [checkCBCompleted, get_cmd_buf_info, hcb, hq, if_false]

theorem dec32_iterate (k x : Nat) :
    dec32^[k + 1] x = (x + (k + 1) * 4294967295) % 4294967296 := by
  induction k with
  | zero => simp [dec32]
  | succ n ih =>
    rw [Function.iterate_succ_apply', ih]
    unfold dec32
    omega

theorem dec32_iterate_self (n : Nat) : dec32^[n] n = 0 := by
  cases n with
  | zero => rfl
  | succ k =>
    rw [dec32_iterate]
    omega

theorem freeLoop_all_completed (M : Handle) (l : List Handle) :
    ∀ (fuel : Nat) (s : State) (r : MT_MEM_OBJ_INFO),
      l.length ≤ fuel →
      lookup s.memObjMap M = some r →
      r.pCmdBufferBindings = l →
      l.Nodup →
      (∀ cb ∈ l, ∃ ci, lookup s.cbMap cb = some ci ∧ M ∈ ci.pMemObjList ∧ ci.pMemObjList.Nodup ∧
        ci.fenceId ≤
          ((lookup s.queueMap ci.lastSubmittedQueue).getD MT_QUEUE_INFO.zero).lastRetiredId) →
      (∀ cb ci, lookup s.cbMap cb = some ci → M ∈ ci.pMemObjList → cb ∈ l) →
      ∃ (s1 : State) (r1 : MT_MEM_OBJ_INFO),
        freeLoop M fuel l s = some ([], s1) ∧ lookup s1.memObjMap M = some r1 ∧
        r1.pCmdBufferBindings = [] ∧ r1.pObjBindings = r.pObjBindings ∧
        r1.refCount = dec32^[l.length] r.refCount ∧
        (∀ cb ci, lookup s1.cbMap cb = some ci → M ∉ ci.pMemObjList) := by
  induction l with
  | nil =>
    intro fuel s r _ hr hb _ _ hall
    refine ⟨s, r, ?_, hr, hb, rfl, rfl, ?_⟩
    · cases fuel <;> rfl
    · intro cb ci hci hM
      exact absurd (hall cb ci hci hM) (List.not_mem_nil _)
  | cons cb rest ih =>
    intro fuel s r hfuel hr hb hnd hrec hall
    obtain ⟨hcbrest, hndrest⟩ := List.nodup_cons.mp hnd
    cases fuel with
    | zero => simp at hfuel
    | succ n =>
      obtain ⟨ci, hci, hMci, hndci, hretci⟩ := hrec cb (List.mem_cons_self _ _)
      obtain ⟨q, hchk, hq⟩ := checkCBCompleted_spec s cb ci hci hretci
      obtain ⟨t, hclr, ht⟩ := clear_spec { s with queueMap := q } cb ci hci
      have htM : lookup t M = some (dropCb cb r) := by
        rw [ht M, List.count_eq_one_of_mem hndci hMci]
        show (lookup s.memObjMap M).map _ = _
        rw [hr]
        rfl
      have hfilter : rest.filter (fun x => x ≠ cb) = rest := by
        apply List.filter_eq_self.mpr
        intro a ha
        have : a ≠ cb := fun e => hcbrest (e ▸ ha)
        simpa using this
      have hlive : (dropCb cb r).pCmdBufferBindings = rest := by
        show r.pCmdBufferBindings.filter (fun x => x ≠ cb) = rest
        rw [hb]
        have hhead : List.filter (fun x => decide (x ≠ cb)) (cb :: rest) =
            List.filter (fun x => decide (x ≠ cb)) rest := by
          simp [List.filter_cons]
        rw [hhead, hfilter]
      have hhd : ¬ rest.head? = some cb := by
        intro hh
        exact hcbrest (List.mem_of_mem_head? hh)
      obtain ⟨s1, r1, hloop, hr1, hb1, ho1, hc1, hall1⟩ :=
        ih n { s with queueMap := q, memObjMap := t,
                      cbMap := assign s.cbMap cb { ci with pMemObjList := [] } }
          (dropCb cb r) (Nat.le_of_succ_le_succ hfuel) htM hlive hndrest
          (by
            intro cb1 hcb1
            have hne : cb1 ≠ cb := fun e => hcbrest (e ▸ hcb1)
            obtain ⟨ci1, h1, h2, h3, h4⟩ := hrec cb1 (List.mem_cons_of_mem _ hcb1)
            refine ⟨ci1, ?_, h2, h3, ?_⟩
            · show lookup (assign s.cbMap cb _) cb1 = _
              rw [lookup_assign_ne _ _ _ _ hne, h1]
            · show ci1.fenceId ≤ ((lookup q _).getD MT_QUEUE_INFO.zero).lastRetiredId
              rw [hq]
              exact h4)
          (by
            intro cb1 ci1 h1 hM1
            by_cases hne : cb1 = cb
            · subst hne
              have h1b : lookup (assign s.cbMap cb1 { ci with pMemObjList := [] }) cb1 = some ci1 := h1
              rw [lookup_assign_self] at h1b
              have : ci1 = { ci with pMemObjList := [] } := (Option.some.inj h1b).symm
              subst this
              exact absurd hM1 (List.not_mem_nil _)
            · have h1b : lookup (assign s.cbMap cb { ci with pMemObjList := [] }) cb1 = some ci1 := h1
              rw [lookup_assign_ne _ _ _ _ hne] at h1b
              rcases List.mem_cons.mp (hall cb1 ci1 h1b hM1) with h | h
              · exact absurd h hne
              · exact h)
      refine ⟨s1, r1, ?_, hr1, hb1, ?_, ?_, hall1⟩
      · have hguard : ((lookup s.memObjMap M).getD MT_MEM_OBJ_INFO.zero).pCmdBufferBindings.length
            > 0 := by
          rw [hr, Option.getD_some, hb]
          exact Nat.succ_pos _
        simp only [freeLoop, get_mem_obj_info, hguard, if_true, hchk, hclr, htM, Option.getD_some,
          hlive, hcbrest, hhd, if_false, hfilter, hloop, Option.map_some', List.append_nil,
          List.nil_append]
      · rw [ho1, dropCb]
      · rw [hc1]
        show dec32^[rest.length] (dec32 r.refCount) = dec32^[rest.length + 1] r.refCount
        rw [Function.iterate_succ_apply]

/-- C9: in a state satisfying P1 and P3 whose reference lists hold no handle
twice (as in every reachable state), let memory `M` have a record with non-zero allocation size and no
bound object, every command buffer of its list having a record and a fence id
not above the `lastRetiredId` of its last queue.  Then `freeMemObjInfo(M, false)`
returns `VK_TRUE` with no message, the record of `M` is gone, and no command
buffer record lists `M`. -/
theorem freeMemObjInfo_gc_success (s : State) (M : Handle) (pInfo : MT_MEM_OBJ_INFO)
    (hP1 : RefcountAccurate s) (hP3 : CmdBufEdgeSymmetric s) (hnd : ReferenceListsNodup s)
    (h : lookup s.memObjMap M = some pInfo)
    (hsz : pInfo.allocInfo.allocationSize ≠ 0) (hobj : pInfo.pObjBindings = [])
    (hret : ∀ cb ∈ pInfo.pCmdBufferBindings, ∃ ci, lookup s.cbMap cb = some ci ∧
      ci.fenceId ≤
        ((lookup s.queueMap ci.lastSubmittedQueue).getD MT_QUEUE_INFO.zero).lastRetiredId) :
    ∃ s2 : State, freeMemObjInfo s M false = some ⟨true, [], s2⟩ ∧
      lookup s2.memObjMap M = none ∧
      (∀ cb ci, lookup s2.cbMap cb = some ci → M ∉ ci.pMemObjList) := by
  obtain ⟨s1, r1, hloop, hr1, hb1, ho1, hc1, hall1⟩ :=
    freeLoop_all_completed M pInfo.pCmdBufferBindings pInfo.pCmdBufferBindings.length s pInfo
      (Nat.le_refl _) h rfl (hnd.2 M pInfo h)
      (by
        intro cb hcb
        obtain ⟨ci, hci, hle⟩ := hret cb hcb
        exact ⟨ci, hci, (hP3 cb ci M hci).mpr ⟨pInfo, h, hcb⟩, hnd.1 cb ci hci, hle⟩)
      (by
        intro cb ci hci hM
        obtain ⟨mi, hmi, hcb⟩ := (hP3 cb ci M hci).mp hM
        rw [h] at hmi
        cases hmi
        exact hcb)
  have hzero : r1.refCount = 0 := by
    rw [hc1, hP1 M pInfo h, hobj]
    simp only [List.length_nil, Nat.zero_add]
    exact dec32_iterate_self _
  refine ⟨{ s1 with memObjMap := erase s1.memObjMap M }, ?_, lookup_erase_self _ _, hall1⟩
  simp only [freeMemObjInfo, get_mem_obj_info, h, hsz, false_and, if_false, hloop, hr1, hzero,
    ne_eq, not_true_eq_false, deleteMemObjInfo, List.append_nil, decide_True]

/-- Witness for C9: `retiredState` meets the hypotheses for memory 1, so the
free succeeds there. -/
theorem freeMemObjInfo_gc_success_witness :
    ∃ s2 : State, freeMemObjInfo retiredState 1 false = some ⟨true, [], s2⟩ ∧
      lookup s2.memObjMap 1 = none ∧
      (∀ cb ci, lookup s2.cbMap cb = some ci → 1 ∉ ci.pMemObjList) :=
  freeMemObjInfo_gc_success retiredState 1
    { refCount := 1, mem := 1, allocInfo := { allocationSize := 1024, memProps := 0 },
      pObjBindings := [], pCmdBufferBindings := [2] }
    (by
      intro m r hr
      by_cases hm : m = 1
      · subst hm; cases hr; rfl
      · simp [retiredState, lookup, Ne.symm hm] at hr)
    (by
      intro cb ci m hci
      by_cases hc : cb = 2
      · subst hc
        cases hci
        by_cases hm : m = 1
        · subst hm
          simp [retiredState, lookup]
        · simp [retiredState, lookup, hm, Ne.symm hm]
      · simp [retiredState, lookup, Ne.symm hc] at hci)
    (by
      constructor
      · intro cb ci hci
        by_cases hc : cb = 2
        · subst hc; cases hci; decide
        · simp [retiredState, lookup, Ne.symm hc] at hci
      · intro m r hr
        by_cases hm : m = 1
        · subst hm; cases hr; decide
        · simp [retiredState, lookup, Ne.symm hm] at hr)
    rfl (by decide) rfl
    (by
      intro cb hcb
      have : cb = 2 := by simpa using hcb
      subst this
      exact ⟨_, rfl, by decide⟩)

/-! ## Reachable states and the invariants -/

theorem reachable_run (ops : List Op) :
    ∀ (s s1 : State), Reachable s → run s ops = some s1 → Reachable s1 := by
  induction ops with
  | nil =>
    intro s s1 hs h
    simp only [run, Option.some.injEq] at h
    exact h ▸ hs
  | cons op rest ih =>
    intro s s1 hs h
    simp only [run] at h
    cases hop : applyOp s op with
    | none => rw [hop] at h; simp at h
    | some s2 =>
      rw [hop] at h
      exact ih s2 s1 (Reachable.step op hs hop) h

theorem lookup_singleton {V : Type} (k k1 : Handle) (v r : V)
    (h : lookup [(k, v)] k1 = some r) : k1 = k ∧ r = v := by
  by_cases hk : k = k1
  · simp only [lookup, hk, if_true, Option.some.injEq] at h
    exact ⟨hk.symm, h.symm⟩
  · simp [lookup, hk] at h

/-- C1 fails on the code: after `staleRefTrace` (memory 1 freed while command
buffer 2 was in flight, handle 1 allocated again, command buffer 2 begun) the
record of memory 1 has empty lists and `refCount = 2^32 - 1`. -/
theorem refcount_accuracy_broken_by_stale_reference :
    ∃ s : State, Reachable s ∧
      lookup s.memObjMap 1 =
        some { refCount := 4294967295, mem := 1,
               allocInfo := { allocationSize := 1024, memProps := 0 },
               pObjBindings := [], pCmdBufferBindings := [] } ∧
      ¬ RefcountAccurate s := by
  have hrun : run (State.init 0) staleRefTrace =
      some { cbMap := [(2, { cmdBuffer := 2, fenceId := 1, lastSubmittedFence := 0,
                             lastSubmittedQueue := 4, pMemObjList := [] })]
             memObjMap := [(1, { refCount := 4294967295, mem := 1,
                                 allocInfo := { allocationSize := 1024, memProps := 0 },
                                 pObjBindings := [], pCmdBufferBindings := [] })]
             objectMap := [(3, { pMemObjInfo := some 1, ref_count := 1, object := 3,
                                 sType := 12, flags := 0 })]
             fenceMap := []
             queueMap := [(4, { lastRetiredId := 0, lastSubmittedId := 1 })]
             swapChainMap := [], g_currentFenceId := 2, g_reportingLevel := 0 } := by
    decide
  refine ⟨_, reachable_run _ _ _ (Reachable.init 0) hrun, rfl, ?_⟩
  intro hP1
  have h := hP1 1 _ rfl
  simp at h

/-- C2 fails on the code: after `boundFreeTrace` (buffer 3 bound to memory 1,
memory 1 freed) the record of buffer 3 still points to memory 1, which has no
record. -/
theorem object_edge_dangles_after_forced_free :
    ∃ s : State, Reachable s ∧
      (∃ oi, lookup s.objectMap 3 = some oi ∧ oi.pMemObjInfo = some 1) ∧
      lookup s.memObjMap 1 = none ∧
      ¬ ObjectEdgeSymmetric s := by
  have hrun : run (State.init 0) boundFreeTrace =
      some { cbMap := [], memObjMap := []
             objectMap := [(3, { pMemObjInfo := some 1, ref_count := 1, object := 3,
                                 sType := 12, flags := 0 })]
             fenceMap := [], queueMap := [], swapChainMap := []
             g_currentFenceId := 1, g_reportingLevel := 0 } := by
    decide
  refine ⟨_, reachable_run _ _ _ (Reachable.init 0) hrun, ⟨_, rfl, rfl⟩, rfl, ?_⟩
  intro hP2
  obtain ⟨mi, hmi⟩ := hP2.2 3 _ 1 rfl rfl
  simp [lookup] at hmi

/-- C3 fails on the code: after `forcedFreeTrace` (memory 1 freed while command
buffer 2, in flight, references it) the record of command buffer 2 still lists
memory 1, which has no record. -/
theorem cmd_buf_edge_stale_after_forced_free :
    ∃ s : State, Reachable s ∧
      (∃ ci, lookup s.cbMap 2 = some ci ∧ 1 ∈ ci.pMemObjList) ∧
      lookup s.memObjMap 1 = none ∧
      ¬ CmdBufEdgeSymmetric s := by
  have hrun : run (State.init 0) forcedFreeTrace =
      some { inFlightState with memObjMap := [] } := by
    decide
  refine ⟨_, reachable_run _ _ _ (Reachable.init 0) hrun, ⟨_, rfl, by decide⟩, rfl, ?_⟩
  intro hP3
  obtain ⟨mi, hmi, _⟩ := (hP3 2 _ 1 rfl).mp (by decide)
  simp [lookup] at hmi

/-- C10 fails on the code: `inFlightState` is reachable and satisfies P1, P2
and P3; memory 1 is bound to buffer 3 and referenced by the in-flight command
buffer 2.  `freeMemObjInfo(1, false)` returns `VK_FALSE` and erases the record
of memory 1, but buffer 3 still points to memory 1 and command buffer 2 still
lists it, so P2 and P3 do not hold afterwards. -/
theorem forced_free_leaves_stale_edges :
    Reachable inFlightState ∧
    RefcountAccurate inFlightState ∧ ObjectEdgeSymmetric inFlightState ∧
    CmdBufEdgeSymmetric inFlightState ∧
    ∃ r : Out Bool, freeMemObjInfo inFlightState 1 false = some r ∧ r.ret = false ∧
      lookup r.st.memObjMap 1 = none ∧
      (∃ oi, lookup r.st.objectMap 3 = some oi ∧ oi.pMemObjInfo = some 1) ∧
      (∃ ci, lookup r.st.cbMap 2 = some ci ∧ 1 ∈ ci.pMemObjList) ∧
      ¬ ObjectEdgeSymmetric r.st ∧ ¬ CmdBufEdgeSymmetric r.st := by
  have hrun : run (State.init 0) inFlightTrace = some inFlightState := by decide
  have hfree : freeMemObjInfo inFlightState 1 false =
      some ⟨false,
        [⟨VK_DBG_MSG_UNKNOWN, 2, MEMTRACK_NONE⟩, ⟨VK_DBG_MSG_UNKNOWN, 1, MEMTRACK_INTERNAL_ERROR⟩,
         ⟨VK_DBG_MSG_UNKNOWN, 2, MEMTRACK_NONE⟩, ⟨VK_DBG_MSG_UNKNOWN, 3, MEMTRACK_NONE⟩],
        { inFlightState with memObjMap := [] }⟩ := by
    decide
  refine ⟨reachable_run _ _ _ (Reachable.init 0) hrun, ?_, ⟨?_, ?_⟩, ?_,
    _, hfree, rfl, rfl, ⟨_, rfl, rfl⟩, ⟨_, rfl, by decide⟩, ?_, ?_⟩
  · intro m r hr
    obtain ⟨rfl, rfl⟩ := lookup_singleton _ _ _ _ hr
    rfl
  · intro o oi m mi ho hm
    obtain ⟨rfl, rfl⟩ := lookup_singleton _ _ _ _ ho
    obtain ⟨rfl, rfl⟩ := lookup_singleton _ _ _ _ hm
    simp
  · intro o oi m ho he
    obtain ⟨rfl, rfl⟩ := lookup_singleton _ _ _ _ ho
    cases he
    exact ⟨_, rfl⟩
  · intro cb ci m hci
    obtain ⟨rfl, rfl⟩ := lookup_singleton _ _ _ _ hci
    constructor
    · intro hm
      have : m = 1 := by simpa using hm
      subst this
      exact ⟨_, rfl, by decide⟩
    · rintro ⟨mi, hmi, _⟩
      obtain ⟨rfl, rfl⟩ := lookup_singleton _ _ _ _ hmi
      decide
  · intro hP2
    obtain ⟨mi, hmi⟩ := hP2.2 3 _ 1 rfl rfl
    simp [lookup] at hmi
  · intro hP3
    obtain ⟨mi, hmi, _⟩ := (hP3 2 _ 1 rfl).mp (by decide)
    simp [lookup] at hmi

/-! ## The theorems at concrete inputs -/

/-- Witness for C4: binding buffer 3 to memory 1 in `freshState`. -/
theorem set_object_binding_success_witness :
    ∃ s1 : State, set_object_binding freshState 3 1 = some ⟨true, [], s1⟩ ∧
      lookup s1.memObjMap 1 =
        some { refCount := 1, mem := 1, allocInfo := { allocationSize := 1024, memProps := 0 },
               pObjBindings := [3], pCmdBufferBindings := [] } := by
  obtain ⟨s1, h1, h2, _⟩ := set_object_binding_success freshState 3 1
    { pMemObjInfo := none, ref_count := 1, object := 3, sType := 12, flags := 0 }
    { refCount := 0, mem := 1, allocInfo := { allocationSize := 1024, memProps := 0 },
      pObjBindings := [], pCmdBufferBindings := [] }
    (by decide) rfl rfl rfl
  exact ⟨s1, h1, h2⟩

/-- Example: in `boundState` buffer 3 is bound to memory 1; binding it to
memory 5 is refused and changes nothing. -/
theorem set_object_binding_rebind_rejected_witness :
    set_object_binding boundState 3 5 =
      some ⟨false, [⟨VK_DBG_MSG_ERROR, 5, MEMTRACK_REBIND_OBJECT⟩], boundState⟩ :=
  set_object_binding_rebind_rejected boundState 3 1 5
    { pMemObjInfo := some 1, ref_count := 1, object := 3, sType := 12, flags := 0 }
    { refCount := 1, mem := 1, allocInfo := { allocationSize := 1024, memProps := 0 },
      pObjBindings := [3], pCmdBufferBindings := [] }
    { refCount := 0, mem := 5, allocInfo := { allocationSize := 1024, memProps := 0 },
      pObjBindings := [], pCmdBufferBindings := [] }
    rfl rfl rfl (by decide) rfl

/-- Witness for C6: referencing memory 1 from command buffer 2 in `freshState`
takes the count from 0 to 1, and a second call changes nothing. -/
theorem update_cmd_buf_and_mem_references_dedup_witness :
    ∃ s1 : State, update_cmd_buf_and_mem_references freshState 2 1 = ⟨true, [], s1⟩ ∧
      (lookup s1.memObjMap 1).map (fun r => r.refCount) = some 1 ∧
      update_cmd_buf_and_mem_references s1 2 1 = ⟨true, [], s1⟩ := by
  obtain ⟨s1, mi1, ci1, h1, h2, _, _, _, h6, _, h8⟩ :=
    update_cmd_buf_and_mem_references_dedup freshState 2 1
      { cmdBuffer := 2, fenceId := 0, lastSubmittedFence := 0, lastSubmittedQueue := 0,
        pMemObjList := [] }
      { refCount := 0, mem := 1, allocInfo := { allocationSize := 1024, memProps := 0 },
        pObjBindings := [], pCmdBufferBindings := [] }
      rfl rfl
  refine ⟨s1, h1, ?_, h8⟩
  rw [h2]
  exact congrArg some (h6 (by decide))

/-- Witness for C8: in `inFlightState` memory 1 is bound to buffer 3 and
referenced by the in-flight command buffer 2; the free is forced. -/
theorem freeMemObjInfo_live_references_witness :
    ∃ o : Out Bool, freeMemObjInfo inFlightState 1 false = some o ∧ o.ret = false ∧
      (⟨VK_DBG_MSG_UNKNOWN, 3, MEMTRACK_NONE⟩ : Diag) ∈ o.msgs ∧
      (⟨VK_DBG_MSG_UNKNOWN, 2, MEMTRACK_NONE⟩ : Diag) ∈ o.msgs ∧
      lookup o.st.memObjMap 1 = none ∧
      ∃ v, vkFreeMemory inFlightState 1 VkResult.VK_SUCCESS = some v ∧
        (⟨VK_DBG_MSG_WARNING, 1, MEMTRACK_FREED_MEM_REF⟩ : Diag) ∈ v.msgs := by
  obtain ⟨r1, s2, h1, h2, h3, h4⟩ := freeMemObjInfo_live_references inFlightState 1 false
    { refCount := 2, mem := 1, allocInfo := { allocationSize := 1024, memProps := 0 },
      pObjBindings := [3], pCmdBufferBindings := [2] }
    [⟨VK_DBG_MSG_UNKNOWN, 2, MEMTRACK_NONE⟩] inFlightState rfl (by decide) (by decide)
    (by
      intro r1 hr
      obtain ⟨_, rfl⟩ := lookup_singleton _ _ _ _ hr
      decide)
  obtain ⟨_, rfl⟩ := lookup_singleton _ _ _ _ h1
  obtain ⟨v, hv, hmem, _⟩ := h4 rfl VkResult.VK_SUCCESS
  exact ⟨_, h2, rfl, by simp, by simp, h3, v, hv, hmem⟩

/-! ## The loop of `freeMemObjInfo` ends on a list without repetition -/

/-- On a command buffer list without repetition the loop of `freeMemObjInfo`
never meets an invalid iterator, and the list's length is fuel enough. -/
theorem freeLoop_defined_of_nodup (M : Handle) (fuel : Nat) :
    ∀ (l : List Handle) (s : State), l.Nodup → l.length ≤ fuel →
      ∃ p, freeLoop M fuel l s = some p := by
  induction fuel with
  | zero =>
    intro l s _ hlen
    cases l with
    | nil => exact ⟨_, rfl⟩
    | cons cb rest => simp at hlen
  | succ n ih =>
    intro l s hnd hlen
    cases l with
    | nil => exact ⟨_, rfl⟩
    | cons cb rest =>
      obtain ⟨hcbrest, hndrest⟩ := List.nodup_cons.mp hnd
      have hlen1 : rest.length ≤ n := Nat.le_of_succ_le_succ hlen
      have hhd : ¬ rest.head? = some cb := fun hh => hcbrest (List.mem_of_mem_head? hh)
      simp only [freeLoop, hhd, if_false]
      split
      · split
        · split
          · obtain ⟨p, hp⟩ := ih rest _ hndrest hlen1
            exact ⟨_, by rw [hp]; rfl⟩
          · obtain ⟨p, hp⟩ := ih (rest.filter (fun x => x ≠ cb)) _
              (hndrest.filter _) (Nat.le_trans (List.length_filter_le _ _) hlen1)
            exact ⟨_, by rw [hp]; rfl⟩
        · obtain ⟨p, hp⟩ := ih rest _ hndrest hlen1
          exact ⟨_, by rw [hp]; rfl⟩
      · exact ⟨_, rfl⟩

/-! ## Refused frees -/

theorem freeMemObjInfo_erases (s : State) (M : Handle) (internal : Bool)
    (pInfo : MT_MEM_OBJ_INFO) (r : Out Bool)
    (h : lookup s.memObjMap M = some pInfo)
    (hsz : pInfo.allocInfo.allocationSize ≠ 0 ∨ internal = true)
    (hr : freeMemObjInfo s M internal = some r) :
    lookup r.st.memObjMap M = none := by
  have hcond : ¬ (pInfo.allocInfo.allocationSize = 0 ∧ internal = false) := by
    rintro ⟨ha, hb⟩
    rcases hsz with hz | hi
    · exact hz ha
    · rw [hi] at hb; exact Bool.noConfusion hb
  simp only [freeMemObjInfo, get_mem_obj_info, h, hcond, if_false] at hr
  cases hl : freeLoop M pInfo.pCmdBufferBindings.length pInfo.pCmdBufferBindings s with
  | none => rw [hl] at hr; simp at hr
  | some p =>
    obtain ⟨d1, s1⟩ := p
    rw [hl] at hr
    simp only at hr
    cases h1 : lookup s1.memObjMap M with
    | none => rw [h1] at hr; simp at hr
    | some r1 =>
      rw [h1] at hr
      simp only [Option.some.injEq] at hr
      subst hr
      simp only [deleteMemObjInfo]
      split
      · exact lookup_erase_self _ _
      · assumption

/-- C11: freeing a memory handle that has no record returns `VK_FALSE`, sends
exactly one error with code `MEMTRACK_INVALID_MEM_OBJ`, and leaves the globals
as they were.  In particular, after a `vkFreeMemory` of an allocation of
non-zero size that has a record, a second `vkFreeMemory` of the same handle
sends that error. -/
theorem freeMemObjInfo_unknown_memory (s : State) (M : Handle) (internal : Bool)
    (h : lookup s.memObjMap M = none) :
    freeMemObjInfo s M internal =
      some ⟨false, [⟨VK_DBG_MSG_ERROR, M, MEMTRACK_INVALID_MEM_OBJ⟩], s⟩ ∧
    (∀ (s0 : State) (pInfo : MT_MEM_OBJ_INFO) (v1 : Out VkResult) (res1 res2 : VkResult),
      lookup s0.memObjMap M = some pInfo → pInfo.allocInfo.allocationSize ≠ 0 →
      vkFreeMemory s0 M res1 = some v1 →
      freeMemObjInfo v1.st M false =
        some ⟨false, [⟨VK_DBG_MSG_ERROR, M, MEMTRACK_INVALID_MEM_OBJ⟩], v1.st⟩ ∧
      ∃ v2, vkFreeMemory v1.st M res2 = some v2 ∧ v2.st = v1.st ∧
        (⟨VK_DBG_MSG_ERROR, M, MEMTRACK_INVALID_MEM_OBJ⟩ : Diag) ∈ v2.msgs) := by
  have hnone : ∀ t : State, lookup t.memObjMap M = none → ∀ i : Bool,
      freeMemObjInfo t M i =
        some ⟨false, [⟨VK_DBG_MSG_ERROR, M, MEMTRACK_INVALID_MEM_OBJ⟩], t⟩ := by
    intro t ht i
    simp only [freeMemObjInfo, get_mem_obj_info, ht]
  refine ⟨hnone s h internal, ?_⟩
  intro s0 pInfo v1 res1 res2 h0 hsz hv1
  simp only [vkFreeMemory, Option.map_eq_some'] at hv1
  obtain ⟨r, hr, hv⟩ := hv1
  have hgone : lookup v1.st.memObjMap M = none := by
    rw [← hv]
    exact freeMemObjInfo_erases s0 M false pInfo r h0 (Or.inl hsz) hr
  have h2 := hnone v1.st hgone false
  refine ⟨h2, ?_⟩
  simp only [vkFreeMemory, h2, Option.map_some']
  refine ⟨_, rfl, rfl, ?_⟩
  simp

/-- Witness for C11: memory 1 has no record in `State.init 0`. -/
theorem freeMemObjInfo_unknown_memory_witness :
    freeMemObjInfo (State.init 0) 1 true =
      some ⟨false, [⟨VK_DBG_MSG_ERROR, 1, MEMTRACK_INVALID_MEM_OBJ⟩], State.init 0⟩ :=
  (freeMemObjInfo_unknown_memory (State.init 0) 1 true rfl).1

/-- C12 (amended): freeing swap chain memory (a record of allocation size 0)
through the application's path returns `VK_FALSE`, sends exactly one message,
a warning with code `MEMTRACK_INVALID_MEM_OBJ`, and leaves the globals as they
were. -/
theorem freeMemObjInfo_swapchain_refused (s : State) (M : Handle) (pInfo : MT_MEM_OBJ_INFO)
    (h : lookup s.memObjMap M = some pInfo) (hsz : pInfo.allocInfo.allocationSize = 0) :
    freeMemObjInfo s M false =
      some ⟨false, [⟨VK_DBG_MSG_WARNING, M, MEMTRACK_INVALID_MEM_OBJ⟩], s⟩ := by
  unfold freeMemObjInfo
  simp only [get_mem_obj_info, h, hsz, and_self, if_true]

/-- Witness for C12: memory 9 of `swapState`. -/
theorem freeMemObjInfo_swapchain_refused_witness :
    freeMemObjInfo swapState 9 false =
      some ⟨false, [⟨VK_DBG_MSG_WARNING, 9, MEMTRACK_INVALID_MEM_OBJ⟩], swapState⟩ :=
  freeMemObjInfo_swapchain_refused swapState 9
    { refCount := 1, mem := 9, allocInfo := { allocationSize := 0, memProps := 0 },
      pObjBindings := [8], pCmdBufferBindings := [] } rfl rfl

/-- C12 as stated fails: in `swapState` memory 9 has a record of allocation
size 0; `freeMemObjInfo(9, false)` returns `VK_FALSE` and sends no message of
error type (its one message is a warning). -/
theorem freeMemObjInfo_swapchain_no_error_message :
    (∃ pInfo, lookup swapState.memObjMap 9 = some pInfo ∧
      pInfo.allocInfo.allocationSize = 0) ∧
    ∃ r : Out Bool, freeMemObjInfo swapState 9 false = some r ∧ r.ret = false ∧
      ∀ d ∈ r.msgs, d.msgType ≠ VK_DBG_MSG_ERROR := by
  refine ⟨⟨_, rfl, rfl⟩, _, rfl, rfl, ?_⟩
  decide

/-! ## Fence ids -/

theorem add_fence_info_counter (s : State) (fence queue : Handle) :
    (add_fence_info s fence queue).ret = s.g_currentFenceId ∧
    (add_fence_info s fence queue).st.g_currentFenceId =
      (s.g_currentFenceId + 1) % 18446744073709551616 := by
  unfold add_fence_info
  by_cases hf : fence ≠ 0
  · simp only [hf, ne_eq, not_false_eq_true, if_true, and_self]
  · simp only [hf, if_false, and_self]

/-- C13 (amended): `add_fence_info(f, q)` returns the current
`g_currentFenceId` and increments the counter by one modulo `2^64`; afterwards the record of
`q` holds the returned id as `lastSubmittedId` (its `lastRetiredId` being what
it was, 0 for a queue without record) and the other queue records are
unchanged; a non-null `f` gets the entry (returned id, `q`), a null fence
leaves the fence table alone.  The counter starts at 1, so the first
submission gets id 1. -/
theorem add_fence_info_assigns_next_id (s : State) (f q : Handle) :
    (add_fence_info s f q).ret = s.g_currentFenceId ∧
    (add_fence_info s f q).st.g_currentFenceId =
      (s.g_currentFenceId + 1) % 18446744073709551616 ∧
    lookup (add_fence_info s f q).st.queueMap q =
      some { lastRetiredId := ((lookup s.queueMap q).getD MT_QUEUE_INFO.zero).lastRetiredId,
             lastSubmittedId := s.g_currentFenceId } ∧
    (∀ q1, q1 ≠ q → lookup (add_fence_info s f q).st.queueMap q1 = lookup s.queueMap q1) ∧
    (f ≠ 0 → lookup (add_fence_info s f q).st.fenceMap f =
      some { fenceId := s.g_currentFenceId, queue := q }) ∧
    (f = 0 → (add_fence_info s f q).st.fenceMap = s.fenceMap) ∧
    (∀ level, (State.init level).g_currentFenceId = 1 ∧
      (add_fence_info (State.init level) f q).ret = 1) := by
  refine ⟨(add_fence_info_counter s f q).1, (add_fence_info_counter s f q).2, ?_, ?_, ?_, ?_, ?_⟩
  · unfold add_fence_info
    by_cases hf : f ≠ 0
    · simp only [hf, ne_eq, not_false_eq_true, if_true, lookup_assign_self]
    · simp only [hf, if_false, lookup_assign_self]
  · intro q1 hq1
    unfold add_fence_info
    by_cases hf : f ≠ 0
    · simp only [hf, ne_eq, not_false_eq_true, if_true, lookup_assign_ne _ _ _ _ hq1]
    · simp only [hf, if_false, lookup_assign_ne _ _ _ _ hq1]
  · intro hf
    unfold add_fence_info
    simp only [hf, ne_eq, not_false_eq_true, if_true, lookup_assign_self]
  · intro hf
    unfold add_fence_info
    simp only [hf, ne_eq, not_true_eq_false, if_false]
  · intro level
    exact ⟨rfl, (add_fence_info_counter (State.init level) f q).1⟩

theorem issueIds_ge (subs : List (Handle × Handle)) :
    ∀ s : State, s.g_currentFenceId + subs.length ≤ 18446744073709551616 →
      ∀ x ∈ issueIds s subs, s.g_currentFenceId ≤ x := by
  induction subs with
  | nil => intro s _ x hx; simp [issueIds] at hx
  | cons p rest ih =>
    intro s hs x hx
    obtain ⟨f, q⟩ := p
    simp only [issueIds, List.mem_cons] at hx
    have hc := add_fence_info_counter s f q
    simp only [List.length_cons] at hs
    rcases hx with hx | hx
    · rw [hx, hc.1]
    · cases rest with
      | nil => simp [issueIds] at hx
      | cons p2 rest2 =>
        simp only [List.length_cons] at hs
        have h2 := ih (add_fence_info s f q).st
          (by simp only [List.length_cons]; omega) x hx
        omega

/-- C14 (amended): as long as the 64-bit counter does not wrap (the counter
value plus the number of submissions stays within `2^64`), the fence ids
issued by a sequence of submissions, on any queues and with any fences, are
strictly increasing: each is greater than every earlier one, so no two are
equal. -/
theorem issued_fence_ids_increasing (s : State) (subs : List (Handle × Handle))
    (h : s.g_currentFenceId + subs.length ≤ 18446744073709551616) :
    (issueIds s subs).Pairwise (fun a b => a < b) ∧ (issueIds s subs).Nodup := by
  have hp : ∀ (l : List (Handle × Handle)) (t : State),
      t.g_currentFenceId + l.length ≤ 18446744073709551616 →
      (issueIds t l).Pairwise (fun a b => a < b) := by
    intro l
    induction l with
    | nil => intro t _; simp [issueIds]
    | cons p rest ih =>
      intro t ht
      obtain ⟨f, q⟩ := p
      have hc := add_fence_info_counter t f q
      simp only [List.length_cons] at ht
      simp only [issueIds, List.pairwise_cons]
      refine ⟨?_, ih _ (by omega)⟩
      intro x hx
      cases rest with
      | nil => simp [issueIds] at hx
      | cons p2 rest2 =>
        simp only [List.length_cons] at ht
        have := issueIds_ge (p2 :: rest2) (add_fence_info t f q).st
          (by simp only [List.length_cons]; omega) x hx
        rw [hc.1]
        omega
  refine ⟨hp subs s h, ?_⟩
  exact (hp subs s h).imp (fun hab => Nat.ne_of_lt hab)

/-- Witness for C14: three submissions on the empty tracker get ids 1, 2, 3. -/
theorem issued_fence_ids_increasing_witness :
    issueIds (State.init 0) [(0, 4), (7, 4), (0, 5)] = [1, 2, 3] ∧
    (issueIds (State.init 0) [(0, 4), (7, 4), (0, 5)]).Pairwise (fun a b => a < b) :=
  ⟨by decide,
    (issued_fence_ids_increasing (State.init 0) [(0, 4), (7, 4), (0, 5)] (by decide)).1⟩

theorem reachable_counter (n : Nat) :
    ∃ s : State, Reachable s ∧ s.g_currentFenceId = (1 + n) % 18446744073709551616 := by
  induction n with
  | zero => exact ⟨State.init 0, Reachable.init 0, rfl⟩
  | succ k ih =>
    obtain ⟨s, hs, hg⟩ := ih
    refine ⟨(add_fence_info s 0 4).st,
      Reachable.step (Op.queueSubmit 4 [] 0 VkResult.VK_SUCCESS) hs ?_, ?_⟩
    · simp only [applyOp, vkQueueSubmit, submitLoop, Option.map_some']
    · rw [(add_fence_info_counter s 0 4).2, hg]
      omega

/-- C14 as stated fails: with the counter at its last 64-bit value (a value
the counter reaches after `2^64 - 2` submissions) two submissions in a row get
the ids `2^64 - 1` and `0`. -/
theorem issued_fence_ids_wrap :
    issueIds lastIdState [(0, 4), (0, 4)] = [18446744073709551615, 0] ∧
    ¬ (issueIds lastIdState [(0, 4), (0, 4)]).Pairwise (fun a b => a < b) ∧
    ∃ s : State, Reachable s ∧ s.g_currentFenceId = lastIdState.g_currentFenceId := by
  refine ⟨by decide, by decide, ?_⟩
  obtain ⟨s, hs, hg⟩ := reachable_counter 18446744073709551614
  exact ⟨s, hs, hg⟩

/-! ## The queue watermarks -/

/-- C15 fails on the code: after `requeryTrace` (a submission with fence 7 on
queue 4, queue 4 queried again, fence 7 seen signalled) the record of queue 4
has `lastRetiredId = 1` and `lastSubmittedId = 0`. -/
theorem watermark_order_broken_by_requery :
    ∃ s : State, Reachable s ∧
      lookup s.queueMap 4 = some { lastRetiredId := 1, lastSubmittedId := 0 } ∧
      ¬ WatermarkOrdered s := by
  have hrun : run (State.init 0) requeryTrace =
      some { State.init 0 with
             objectMap := [(7, { pMemObjInfo := none, ref_count := 1, object := 7, sType := 0,
                                 flags := 1 })]
             fenceMap := [(7, { fenceId := 1, queue := 4 })]
             queueMap := [(4, { lastRetiredId := 1, lastSubmittedId := 0 })]
             g_currentFenceId := 2 } := by
    decide
  refine ⟨_, reachable_run _ _ _ (Reachable.init 0) hrun, rfl, ?_⟩
  intro hP5
  have h := hP5 4 _ rfl
  simp at h

/-- C16 fails on the code: after `idleTrace` queue 4 has a record with
`lastRetiredId = 1`; a further `vkGetDeviceQueue` returning queue 4 takes its
`lastRetiredId` back to 0. -/
theorem retirement_lost_by_requery :
    ∃ s s1 : State, Reachable s ∧
      applyOp s (Op.getDeviceQueue 4 VkResult.VK_SUCCESS) = some s1 ∧
      lookup s.queueMap 4 = some { lastRetiredId := 1, lastSubmittedId := 1 } ∧
      lookup s1.queueMap 4 = some { lastRetiredId := 0, lastSubmittedId := 0 } ∧
      ¬ RetiredNonDecreasing s s1 4 := by
  have hrun : run (State.init 0) idleTrace =
      some { State.init 0 with
             queueMap := [(4, { lastRetiredId := 1, lastSubmittedId := 1 })]
             g_currentFenceId := 2 } := by
    decide
  refine ⟨_, _, reachable_run _ _ _ (Reachable.init 0) hrun, rfl, rfl, rfl, ?_⟩
  intro hP6
  have h := hP6 _ _ rfl rfl
  simp at h

/-! ## Retirement -/

theorem assign_assign {V : Type} (t : Table V) (k : Handle) (v w : V) :
    assign (assign t k v) k w = assign t k w := by
  induction t with
  | nil => simp [assign]
  | cons p rest ih =>
    obtain ⟨k0, v0⟩ := p
    by_cases h0 : k0 = k
    · simp [assign, h0]
    · simp [assign, h0, ih]

theorem lookup_map_values {V : Type} (g : V → V) (t : Table V) (k : Handle) :
    lookup (t.map (fun p => (p.1, g p.2))) k = (lookup t k).map g := by
  induction t with
  | nil => rfl
  | cons p rest ih =>
    obtain ⟨k0, v0⟩ := p
    by_cases h0 : k0 = k
    · simp [lookup, h0]
    · simp only [List.map_cons, lookup, h0, if_false]
      exact ih

/-- C17: when the fence table holds (`id`, `q`) for fence `f` and `q` has a
queue record, `update_fence_tracking(f)` sets the `lastRetiredId` of `q` to the
maximum of its old value and `id`, leaves its `lastSubmittedId` and every
other queue record unchanged; and whenever `f` has an object record, its
flags get the signalled bit (bit 0) set and keep every other bit. -/
theorem update_fence_tracking_retires (s : State) (f : Handle) :
    (∀ (q id : Handle) (qi : MT_QUEUE_INFO),
      lookup s.fenceMap f = some { fenceId := id, queue := q } →
      lookup s.queueMap q = some qi →
      lookup (update_fence_tracking s f).queueMap q =
        some { lastRetiredId := max qi.lastRetiredId id,
               lastSubmittedId := qi.lastSubmittedId } ∧
      ∀ q1, q1 ≠ q → lookup (update_fence_tracking s f).queueMap q1 = lookup s.queueMap q1) ∧
    (∀ oi, lookup s.objectMap f = some oi →
      lookup (update_fence_tracking s f).objectMap f =
        some { oi with flags := oi.flags ||| VK_FENCE_CREATE_SIGNALED_BIT } ∧
      (oi.flags ||| VK_FENCE_CREATE_SIGNALED_BIT).testBit 0 = true ∧
      ∀ i, i ≠ 0 →
        (oi.flags ||| VK_FENCE_CREATE_SIGNALED_BIT).testBit i = oi.flags.testBit i) := by
  constructor
  · intro q id qi hf hq
    have hqm : (update_fence_tracking s f).queueMap =
        if qi.lastRetiredId < id then
          assign s.queueMap q { qi with lastRetiredId := id }
        else s.queueMap := by
      unfold update_fence_tracking
      simp only [hf, hq, get_object_info]
      by_cases hlt : qi.lastRetiredId < id
      · simp only [hlt, if_true]
        split <;> rfl
      · simp only [hlt, if_false]
        split <;> rfl
    constructor
    · rw [hqm]
      by_cases hlt : qi.lastRetiredId < id
      · rw [if_pos hlt, lookup_assign_self, Nat.max_eq_right (Nat.le_of_lt hlt)]
      · rw [if_neg hlt, hq, Nat.max_eq_left (Nat.not_lt.mp hlt)]
    · intro q1 hq1
      rw [hqm]
      by_cases hlt : qi.lastRetiredId < id
      · rw [if_pos hlt, lookup_assign_ne _ _ _ _ hq1]
      · rw [if_neg hlt]
  · intro oi hoi
    refine ⟨?_, ?_, ?_⟩
    · unfold update_fence_tracking
      cases hf : lookup s.fenceMap f with
      | none => simp only [get_object_info, hoi, lookup_assign_self]
      | some fi =>
        cases hq : lookup s.queueMap fi.queue with
        | none => simp only [hq, get_object_info, hoi, lookup_assign_self]
        | some qi =>
          by_cases hlt : qi.lastRetiredId < fi.fenceId
          · simp only [hq, hlt, if_true, get_object_info, hoi, lookup_assign_self]
          · simp only [hq, hlt, if_false, get_object_info, hoi, lookup_assign_self]
    · simp [VK_FENCE_CREATE_SIGNALED_BIT]
    · intro i hi
      rw [Nat.testBit_or]
      have h1 : Nat.testBit VK_FENCE_CREATE_SIGNALED_BIT i = false := by
        have := @Nat.testBit_two_pow_of_ne 0 i (fun e => hi e.symm)
        simpa [VK_FENCE_CREATE_SIGNALED_BIT] using this
      rw [h1, Bool.or_false]

/-- C18: `retire_queue_fences(q)` leaves `q` with `lastRetiredId` equal to its
`lastSubmittedId`, which keeps its value (0 for a queue that had no record),
and changes no other queue record; `retire_device_fences` does the same to
every queue record and adds none. -/
theorem retire_fences_idle (s : State) (q : Handle) :
    (∀ qi, lookup s.queueMap q = some qi →
      lookup (retire_queue_fences s q).queueMap q =
        some { lastRetiredId := qi.lastSubmittedId, lastSubmittedId := qi.lastSubmittedId }) ∧
    (lookup s.queueMap q = none →
      lookup (retire_queue_fences s q).queueMap q =
        some { lastRetiredId := 0, lastSubmittedId := 0 }) ∧
    (∀ q1, q1 ≠ q → lookup (retire_queue_fences s q).queueMap q1 = lookup s.queueMap q1) ∧
    (∀ q1, lookup (retire_device_fences s).queueMap q1 =
      (lookup s.queueMap q1).map
        (fun qi => { lastRetiredId := qi.lastSubmittedId,
                     lastSubmittedId := qi.lastSubmittedId })) := by
  refine ⟨?_, ?_, ?_, ?_⟩
  · intro qi hqi
    simp only [retire_queue_fences, hqi, Option.getD_some, lookup_assign_self]
  · intro hnone
    simp only [retire_queue_fences, hnone, Option.getD_none, lookup_assign_self,
      MT_QUEUE_INFO.zero]
  · intro q1 hq1
    simp only [retire_queue_fences, lookup_assign_ne _ _ _ _ hq1]
  · intro q1
    exact lookup_map_values
      (fun qi => { lastRetiredId := qi.lastSubmittedId, lastSubmittedId := qi.lastSubmittedId })
      s.queueMap q1

/-- C19: `retire_queue_fences(q)` applied twice gives the same globals as
applied once, and so does `retire_device_fences`. -/
theorem retire_fences_idempotent (s : State) (q : Handle) :
    retire_queue_fences (retire_queue_fences s q) q = retire_queue_fences s q ∧
    retire_device_fences (retire_device_fences s) = retire_device_fences s := by
  constructor
  · simp only [retire_queue_fences, lookup_assign_self, Option.getD_some, assign_assign]
  · simp only [retire_device_fences, List.map_map]
    congr 1

/-- C20: `vkWaitForFences` returns the driver's result; when that is success
and `waitAll` is set or one fence is listed, the globals afterwards are those
after `update_fence_tracking` on each listed fence in order; when it is
success with `waitAll` clear and more than one fence, or not success, the
globals are unchanged (no `lastRetiredId` and no fence flag moves). -/
theorem vkWaitForFences_retirement (s : State) (pFences : List Handle) (waitAll : Bool)
    (result : VkResult) :
    (vkWaitForFences s pFences waitAll result).ret = result ∧
    (result = VkResult.VK_SUCCESS → (waitAll = true ∨ pFences.length = 1) →
      (vkWaitForFences s pFences waitAll result).st = pFences.foldl update_fence_tracking s) ∧
    (result = VkResult.VK_SUCCESS → waitAll = false → pFences.length > 1 →
      (vkWaitForFences s pFences waitAll result).st = s) ∧
    (result ≠ VkResult.VK_SUCCESS → (vkWaitForFences s pFences waitAll result).st = s) := by
  refine ⟨?_, ?_, ?_, ?_⟩
  · unfold vkWaitForFences
    dsimp only
    split <;> rfl
  · intro hr hw
    unfold vkWaitForFences
    dsimp only
    rw [if_pos ⟨hr, hw⟩]
  · intro hr hw hlen
    unfold vkWaitForFences
    dsimp only
    have hn : ¬ (result = VkResult.VK_SUCCESS ∧ (waitAll = true ∨ pFences.length = 1)) := by
      rintro ⟨_, h | h⟩
      · rw [hw] at h; exact Bool.noConfusion h
      · omega
    rw [if_neg hn]
  · intro hr
    unfold vkWaitForFences
    dsimp only
    have hn : ¬ (result = VkResult.VK_SUCCESS ∧ (waitAll = true ∨ pFences.length = 1)) :=
      fun h => hr h.1
    rw [if_neg hn]

/-- Witness for C17: in `submittedState` fence 7 has the entry (1, queue 4);
seeing it signalled retires queue 4 up to 1 and sets the fence's flag. -/
theorem update_fence_tracking_retires_witness :
    lookup (update_fence_tracking submittedState 7).queueMap 4 =
      some { lastRetiredId := 1, lastSubmittedId := 1 } ∧
    lookup (update_fence_tracking submittedState 7).queueMap 5 =
      some { lastRetiredId := 0, lastSubmittedId := 2 } ∧
    lookup (update_fence_tracking submittedState 7).objectMap 7 =
      some { pMemObjInfo := none, ref_count := 1, object := 7, sType := 0, flags := 1 } := by
  obtain ⟨h1, h2⟩ := update_fence_tracking_retires submittedState 7
  obtain ⟨ha, hb⟩ := h1 4 1 { lastRetiredId := 0, lastSubmittedId := 1 } rfl rfl
  exact ⟨ha, (hb 5 (by decide)).trans rfl, (h2 _ rfl).1⟩

/-- Witness for C20: waiting with `waitAll` clear on fences 7 and 9 of
`submittedState` changes nothing, waiting on both with `waitAll` set retires
both queues. -/
theorem vkWaitForFences_retirement_witness :
    (vkWaitForFences submittedState [7, 9] false VkResult.VK_SUCCESS).st = submittedState ∧
    (vkWaitForFences submittedState [7, 9] true VkResult.VK_TIMEOUT).st = submittedState ∧
    (vkWaitForFences submittedState [7, 9] true VkResult.VK_SUCCESS).st =
      update_fence_tracking (update_fence_tracking submittedState 7) 9 ∧
    lookup (vkWaitForFences submittedState [7, 9] true VkResult.VK_SUCCESS).st.queueMap 5 =
      some { lastRetiredId := 2, lastSubmittedId := 2 } :=
  ⟨(vkWaitForFences_retirement submittedState [7, 9] false VkResult.VK_SUCCESS).2.2.1 rfl rfl
      (by decide),
    (vkWaitForFences_retirement submittedState [7, 9] true VkResult.VK_TIMEOUT).2.2.2
      (by decide),
    (vkWaitForFences_retirement submittedState [7, 9] true VkResult.VK_SUCCESS).2.1 rfl
      (Or.inl rfl),
    by decide⟩

/-! ## The in-flight test -/

theorem add_fence_info_objectMap (s : State) (om : Table MT_OBJ_INFO) (fence queue : Handle) :
    (add_fence_info { s with objectMap := om } fence queue).st =
      { (add_fence_info s fence queue).st with objectMap := om } ∧
    (add_fence_info { s with objectMap := om } fence queue).ret =
      (add_fence_info s fence queue).ret ∧
    (add_fence_info s fence queue).st.objectMap = s.objectMap ∧
    (add_fence_info s fence queue).st.cbMap = s.cbMap := by
  unfold add_fence_info
  by_cases hf : fence ≠ 0
  · simp only [hf, if_true, ne_eq, not_false_eq_true, and_self]
  · simp only [hf, if_false, and_self]

theorem submitLoop_objectMap (fenceId fence queue : Handle) (cbs : List Handle) :
    ∀ (s : State) (om : Table MT_OBJ_INFO),
      submitLoop fenceId fence queue cbs { s with objectMap := om } =
        (submitLoop fenceId fence queue cbs s).map (fun x => { x with objectMap := om }) := by
  induction cbs with
  | nil => intro s om; rfl
  | cons cb rest ih =>
    intro s om
    cases h : lookup s.cbMap cb with
    | none => simp only [submitLoop, get_cmd_buf_info, h, Option.map_none']
    | some ci =>
      simp only [submitLoop, get_cmd_buf_info, h]
      let ci1 : MT_CB_INFO :=
        { ci with fenceId := fenceId, lastSubmittedFence := fence, lastSubmittedQueue := queue }
      exact ih { s with cbMap := assign s.cbMap cb ci1 } om

theorem submitLoop_spec (fenceId fence queue : Handle) (cbs : List Handle) :
    ∀ s : State, (∀ cb, cb ∈ cbs → ∃ ci, lookup s.cbMap cb = some ci) →
      ∃ t : Table MT_CB_INFO,
        submitLoop fenceId fence queue cbs s = some { s with cbMap := t } ∧
        (∀ cb, cb ∈ cbs → ∃ ci, lookup t cb = some ci ∧ ci.fenceId = fenceId ∧
          ci.lastSubmittedFence = fence ∧ ci.lastSubmittedQueue = queue) ∧
        (∀ cb, cb ∉ cbs → lookup t cb = lookup s.cbMap cb) := by
  induction cbs with
  | nil =>
    intro s _
    exact ⟨s.cbMap, rfl, fun cb h => absurd h (List.not_mem_nil cb), fun _ _ => rfl⟩
  | cons cb rest ih =>
    intro s hall
    obtain ⟨ci, hci⟩ := hall cb (List.mem_cons_self cb rest)
    let ci1 : MT_CB_INFO :=
      { ci with fenceId := fenceId, lastSubmittedFence := fence, lastSubmittedQueue := queue }
    have hrest : ∀ x, x ∈ rest → ∃ xi, lookup (assign s.cbMap cb ci1) x = some xi := by
      intro x hx
      by_cases hxc : x = cb
      · subst hxc
        exact ⟨_, lookup_assign_self _ _ _⟩
      · rw [lookup_assign_ne _ _ _ _ hxc]
        exact hall x (List.mem_cons_of_mem cb hx)
    obtain ⟨t, ht, hin, hout⟩ := ih { s with cbMap := assign s.cbMap cb ci1 } hrest
    refine ⟨t, ?_, ?_, ?_⟩
    · simp only [submitLoop, get_cmd_buf_info, hci]
      exact ht
    · intro x hx
      by_cases hxr : x ∈ rest
      · exact hin x hxr
      · have hxc : x = cb := by
          rcases List.mem_cons.mp hx with h | h
          · exact h
          · exact absurd h hxr
        subst hxc
        rw [hout x hxr]
        exact ⟨_, lookup_assign_self _ _ _, rfl, rfl, rfl⟩
    · intro x hx
      have hxc : x ≠ cb := fun e => hx (e ▸ List.mem_cons_self cb rest)
      have hxr : x ∉ rest := fun h => hx (List.mem_cons_of_mem cb h)
      rw [hout x hxr]
      exact lookup_assign_ne _ _ _ _ hxc

/-- Submission with a signalled fence when every handle is known: let `F` be a
non-null fence whose object record has the signalled bit set, and let every
submitted command buffer have a record.  Then
`vkQueueSubmit` returns (with the driver's result), sends the error
`MEMTRACK_INVALID_FENCE_STATE` for `F`, takes the next fence id (the counter
moves on by one, modulo `2^64`), records the id and the queue for `F`, stores
id, fence and queue in the record of every submitted command buffer, and sets
the queue's `lastSubmittedId` to the id.  The tracker state afterwards does not
depend on the object records: with any other object table (one in which `F` is
unsignalled, say) the call ends in the same state, object table apart. -/
theorem vkQueueSubmit_signalled_fence (s : State) (q : Handle) (cbs : List Handle) (F : Handle)
    (result : VkResult) (oi : MT_OBJ_INFO)
    (hF : F ≠ 0) (ho : lookup s.objectMap F = some oi)
    (hsig : oi.flags &&& VK_FENCE_CREATE_SIGNALED_BIT ≠ 0)
    (hcbs : ∀ cb, cb ∈ cbs → ∃ ci, lookup s.cbMap cb = some ci) :
    ∃ o : Out VkResult, vkQueueSubmit s q cbs F result = some o ∧ o.ret = result ∧
      (⟨VK_DBG_MSG_ERROR, F, MEMTRACK_INVALID_FENCE_STATE⟩ : Diag) ∈ o.msgs ∧
      o.st.g_currentFenceId = (s.g_currentFenceId + 1) % 18446744073709551616 ∧
      lookup o.st.fenceMap F = some { fenceId := s.g_currentFenceId, queue := q } ∧
      (∀ cb, cb ∈ cbs → ∃ ci, lookup o.st.cbMap cb = some ci ∧
        ci.fenceId = s.g_currentFenceId ∧ ci.lastSubmittedFence = F ∧
        ci.lastSubmittedQueue = q) ∧
      (∃ qi, lookup o.st.queueMap q = some qi ∧ qi.lastSubmittedId = s.g_currentFenceId) ∧
      o.st.objectMap = s.objectMap ∧
      (∀ om : Table MT_OBJ_INFO,
        (vkQueueSubmit { s with objectMap := om } q cbs F result).map
          (fun o1 => { o1.st with objectMap := s.objectMap }) = some o.st) := by
  have hmsgs : (add_fence_info s F q).msgs =
      [⟨VK_DBG_MSG_ERROR, F, MEMTRACK_INVALID_FENCE_STATE⟩] := by
    simp only [add_fence_info, hF, ne_eq, not_false_eq_true, if_true, get_object_info, ho, hsig]
  have hret : (add_fence_info s F q).ret = s.g_currentFenceId := rfl
  have hobj := add_fence_info_objectMap s
  have hcb2 : ∀ cb, cb ∈ cbs → ∃ ci, lookup (add_fence_info s F q).st.cbMap cb = some ci := by
    intro cb hcb
    rw [(hobj s.objectMap F q).2.2.2]
    exact hcbs cb hcb
  obtain ⟨t, ht, hin, _⟩ := submitLoop_spec (add_fence_info s F q).ret F q cbs
    (add_fence_info s F q).st hcb2
  refine ⟨⟨result, (add_fence_info s F q).msgs ++
      (print_mem_list (add_fence_info s F q).st ++ printCBList (add_fence_info s F q).st),
      { (add_fence_info s F q).st with cbMap := t }⟩, ?_, rfl, ?_, ?_, ?_, ?_, ?_, ?_, ?_⟩
  · simp only [vkQueueSubmit, ht, Option.map_some']
  · rw [hmsgs]
    simp
  · simp only [add_fence_info, hF, ne_eq, not_false_eq_true, if_true]
  · simp only [add_fence_info, hF, ne_eq, not_false_eq_true, if_true, lookup_assign_self]
  · intro cb hcb
    exact hin cb hcb
  · simp only [add_fence_info, hF, ne_eq, not_false_eq_true, if_true]
    exact ⟨_, lookup_assign_self _ _ _, rfl⟩
  · exact (hobj s.objectMap F q).2.2.1
  · intro om
    have h1 := (hobj om F q).1
    have h2 := (hobj om F q).2.1
    simp only [vkQueueSubmit]
    rw [h1, h2, submitLoop_objectMap, ht]
    simp only [Option.map_some', Option.map_map, Function.comp]
    have h3 := (hobj s.objectMap F q).2.2.1
    rw [← h3]

/-- Example: in `signalledState` fence 7 has its signalled bit set;
submitting command buffer 2 on queue 4 with it reports the fence and still
issues id 3 for the fence, the command buffer and the queue. -/
theorem vkQueueSubmit_signalled_fence_witness :
    ∃ o : Out VkResult, vkQueueSubmit signalledState 4 [2] 7 VkResult.VK_SUCCESS = some o ∧
      (⟨VK_DBG_MSG_ERROR, 7, MEMTRACK_INVALID_FENCE_STATE⟩ : Diag) ∈ o.msgs ∧
      o.st.g_currentFenceId = 4 ∧
      lookup o.st.fenceMap 7 = some { fenceId := 3, queue := 4 } ∧
      (∃ ci, lookup o.st.cbMap 2 = some ci ∧ ci.fenceId = 3 ∧ ci.lastSubmittedFence = 7 ∧
        ci.lastSubmittedQueue = 4) ∧
      (∃ qi, lookup o.st.queueMap 4 = some qi ∧ qi.lastSubmittedId = 3) := by
  obtain ⟨o, h1, _, h3, h4, h5, h6, h7, _⟩ := vkQueueSubmit_signalled_fence signalledState 4 [2] 7
    VkResult.VK_SUCCESS
    { pMemObjInfo := none, ref_count := 1, object := 7, sType := 0, flags := 1 }
    (by decide) rfl (by decide)
    (by
      intro cb hcb
      have : cb = 2 := by simpa using hcb
      subst this
      exact ⟨_, rfl⟩)
  exact ⟨o, h1, h3, h4, h5, h6 2 (by decide), h7⟩

/-! ## Resetting fences -/

theorem resetFlags_idem (oi : MT_OBJ_INFO) : resetFlags (resetFlags oi) = resetFlags oi := by
  unfold resetFlags
  by_cases h : oi.flags &&& VK_FENCE_CREATE_SIGNALED_BIT = 0
  · simp only [h, if_true]
  · have h2 : (oi.flags &&& (4294967295 - VK_FENCE_CREATE_SIGNALED_BIT)) &&&
        VK_FENCE_CREATE_SIGNALED_BIT = 0 := by
      rw [Nat.land_assoc]
      have : (4294967295 - VK_FENCE_CREATE_SIGNALED_BIT) &&& VK_FENCE_CREATE_SIGNALED_BIT = 0 := by
        decide
      rw [this]
      exact Nat.and_zero _
    simp only [h, if_false, h2, if_true]

theorem resetLoop_lookup (l : List Handle) :
    ∀ (acc : Out VkResult) (G : Handle),
      lookup (resetLoop l acc).st.objectMap G =
        if G ∈ l then (lookup acc.st.objectMap G).map resetFlags
        else lookup acc.st.objectMap G := by
  induction l with
  | nil => intro acc G; simp [resetLoop]
  | cons fence rest ih =>
    intro acc G
    cases h : lookup acc.st.objectMap fence with
    | none =>
      simp only [resetLoop, get_object_info, h]
      rw [ih]
      by_cases hG : G ∈ rest
      · simp [hG]
      · by_cases hGf : G = fence
        · subst hGf
          simp [hG, h]
        · simp [hG, hGf]
    | some oi =>
      by_cases hu : oi.flags &&& VK_FENCE_CREATE_SIGNALED_BIT = 0
      · simp only [resetLoop, get_object_info, h, hu, if_true]
        rw [ih]
        by_cases hG : G ∈ rest
        · simp [hG]
        · by_cases hGf : G = fence
          · subst hGf
            simp [hG, h, resetFlags, hu]
          · simp [hG, hGf]
      · simp only [resetLoop, get_object_info, h, hu, if_false]
        rw [ih]
        have hinfo : ({ oi with flags := oi.flags &&&
            (4294967295 - VK_FENCE_CREATE_SIGNALED_BIT) } : MT_OBJ_INFO) = resetFlags oi := by
          simp only [resetFlags, hu, if_false]
        by_cases hGf : G = fence
        · subst hGf
          simp only [lookup_assign_self, h, Option.map_some', hinfo, resetFlags_idem,
            List.mem_cons, true_or, if_true, ite_self]
        · simp only [lookup_assign_ne _ _ _ _ hGf, List.mem_cons, hGf, false_or]

theorem resetLoop_frame (l : List Handle) :
    ∀ acc : Out VkResult,
      (resetLoop l acc).st = { acc.st with objectMap := (resetLoop l acc).st.objectMap } := by
  induction l with
  | nil => intro acc; rfl
  | cons fence rest ih =>
    intro acc
    cases h : lookup acc.st.objectMap fence with
    | none =>
      simp only [resetLoop, get_object_info, h]
      exact ih acc
    | some oi =>
      by_cases hu : oi.flags &&& VK_FENCE_CREATE_SIGNALED_BIT = 0
      · simp only [resetLoop, get_object_info, h, hu, if_true]
        exact ih _
      · simp only [resetLoop, get_object_info, h, hu, if_false]
        rw [ih]

theorem resetLoop_keeps (l : List Handle) :
    ∀ acc : Out VkResult,
      (∀ d, d ∈ acc.msgs → d ∈ (resetLoop l acc).msgs) ∧
      (acc.ret = VkResult.VK_ERROR_INVALID_VALUE →
        (resetLoop l acc).ret = VkResult.VK_ERROR_INVALID_VALUE) := by
  induction l with
  | nil => intro acc; exact ⟨fun _ h => h, fun h => h⟩
  | cons fence rest ih =>
    intro acc
    cases h : lookup acc.st.objectMap fence with
    | none =>
      simp only [resetLoop, get_object_info, h]
      exact ih acc
    | some oi =>
      by_cases hu : oi.flags &&& VK_FENCE_CREATE_SIGNALED_BIT = 0
      · simp only [resetLoop, get_object_info, h, hu, if_true]
        refine ⟨fun d hd => (ih _).1 d ?_, fun _ => (ih _).2 rfl⟩
        exact List.mem_append_left _ hd
      · simp only [resetLoop, get_object_info, h, hu, if_false]
        exact ⟨fun d hd => (ih _).1 d hd, fun hr => (ih _).2 hr⟩

theorem resetLoop_reports (F : Handle) (oi : MT_OBJ_INFO)
    (hu : oi.flags &&& VK_FENCE_CREATE_SIGNALED_BIT = 0) (l : List Handle) :
    ∀ acc : Out VkResult, F ∈ l → lookup acc.st.objectMap F = some oi →
      (⟨VK_DBG_MSG_ERROR, F, MEMTRACK_INVALID_FENCE_STATE⟩ : Diag) ∈ (resetLoop l acc).msgs ∧
      (resetLoop l acc).ret = VkResult.VK_ERROR_INVALID_VALUE := by
  induction l with
  | nil => intro acc hF; exact absurd hF (List.not_mem_nil F)
  | cons fence rest ih =>
    intro acc hF ho
    by_cases hf : fence = F
    · subst hf
      simp only [resetLoop, get_object_info, ho, hu, if_true]
      exact ⟨(resetLoop_keeps rest _).1 _ (by simp), (resetLoop_keeps rest _).2 rfl⟩
    · have hFr : F ∈ rest := by
        rcases List.mem_cons.mp hF with h | h
        · exact absurd h.symm hf
        · exact h
      cases h : lookup acc.st.objectMap fence with
      | none =>
        simp only [resetLoop, get_object_info, h]
        exact ih acc hFr ho
      | some fi =>
        by_cases hu2 : fi.flags &&& VK_FENCE_CREATE_SIGNALED_BIT = 0
        · simp only [resetLoop, get_object_info, h, hu2, if_true]
          exact ih _ hFr ho
        · simp only [resetLoop, get_object_info, h, hu2, if_false]
          refine ih _ hFr ?_
          show lookup (assign acc.st.objectMap fence _) F = some oi
          rw [lookup_assign_ne _ _ _ _ (fun e => hf e.symm)]
          exact ho

/-- C24 (amended): when the driver's reset succeeded and the fence list holds a
fence `F` whose object record is unsignalled, `vkResetFences` sends the error
`MEMTRACK_INVALID_FENCE_STATE` for `F`, returns `VK_ERROR_INVALID_VALUE`, and
the object record of `F` (its flags with it) is as before. -/
theorem vkResetFences_unsignalled (s : State) (pFences : List Handle) (F : Handle)
    (oi : MT_OBJ_INFO) (hF : F ∈ pFences) (ho : lookup s.objectMap F = some oi)
    (hu : oi.flags &&& VK_FENCE_CREATE_SIGNALED_BIT = 0) :
    (⟨VK_DBG_MSG_ERROR, F, MEMTRACK_INVALID_FENCE_STATE⟩ : Diag) ∈
      (vkResetFences s pFences VkResult.VK_SUCCESS).msgs ∧
    (vkResetFences s pFences VkResult.VK_SUCCESS).ret = VkResult.VK_ERROR_INVALID_VALUE ∧
    lookup (vkResetFences s pFences VkResult.VK_SUCCESS).st.objectMap F = some oi := by
  have hv : vkResetFences s pFences VkResult.VK_SUCCESS =
      resetLoop pFences ⟨VkResult.VK_SUCCESS, [], s⟩ := by
    simp only [vkResetFences, if_true]
  rw [hv]
  obtain ⟨h1, h2⟩ := resetLoop_reports F oi hu pFences ⟨VkResult.VK_SUCCESS, [], s⟩ hF ho
  refine ⟨h1, h2, ?_⟩
  rw [resetLoop_lookup, if_pos hF]
  show (lookup s.objectMap F).map resetFlags = some oi
  rw [ho]
  simp only [Option.map_some', resetFlags, hu, if_true]

/-- Witness for C24: in `signalledState` fence 9 is unsignalled; resetting the
fences 7 and 9 after a successful driver reset reports fence 9. -/
theorem vkResetFences_unsignalled_witness :
    (⟨VK_DBG_MSG_ERROR, 9, MEMTRACK_INVALID_FENCE_STATE⟩ : Diag) ∈
      (vkResetFences signalledState [7, 9] VkResult.VK_SUCCESS).msgs ∧
    (vkResetFences signalledState [7, 9] VkResult.VK_SUCCESS).ret =
      VkResult.VK_ERROR_INVALID_VALUE ∧
    lookup (vkResetFences signalledState [7, 9] VkResult.VK_SUCCESS).st.objectMap 9 =
      some { pMemObjInfo := none, ref_count := 1, object := 9, sType := 0, flags := 0 } :=
  vkResetFences_unsignalled signalledState [7, 9] 9
    { pMemObjInfo := none, ref_count := 1, object := 9, sType := 0, flags := 0 }
    (by decide) rfl (by decide)

/-- C24 as stated fails: in `submittedState` fence 7 has an unsignalled object
record; when the driver's reset of fence 7 fails, `vkResetFences` sends no
message and returns the driver's code, not `VK_ERROR_INVALID_VALUE`. -/
theorem vkResetFences_failed_driver_no_message :
    (∃ oi, lookup submittedState.objectMap 7 = some oi ∧
      oi.flags &&& VK_FENCE_CREATE_SIGNALED_BIT = 0) ∧
    vkResetFences submittedState [7] VkResult.VK_ERROR_UNKNOWN =
      ⟨VkResult.VK_ERROR_UNKNOWN, [], submittedState⟩ ∧
    (vkResetFences submittedState [7] VkResult.VK_ERROR_UNKNOWN).ret ≠
      VkResult.VK_ERROR_INVALID_VALUE := by
  refine ⟨⟨_, rfl, by decide⟩, rfl, by decide⟩

/-- C25 (amended): `vkResetFences` runs after the driver's reset, whose result
is its input.  When the driver failed, the tracker sends nothing, changes
nothing and returns the driver's code.  When the driver succeeded, a fence list
that holds a tracked unsignalled fence makes the call return
`VK_ERROR_INVALID_VALUE`; every tracked unsignalled fence of the list keeps its
record, every tracked signalled fence of the list has the signalled bit
cleared, the records of fences outside the list and all other tables are
unchanged. -/
theorem vkResetFences_driver_first (s : State) (pFences : List Handle) (result : VkResult) :
    (result ≠ VkResult.VK_SUCCESS → vkResetFences s pFences result = ⟨result, [], s⟩) ∧
    (∀ G gi, G ∈ pFences → lookup s.objectMap G = some gi →
      (gi.flags &&& VK_FENCE_CREATE_SIGNALED_BIT = 0 →
        (vkResetFences s pFences VkResult.VK_SUCCESS).ret = VkResult.VK_ERROR_INVALID_VALUE ∧
        lookup (vkResetFences s pFences VkResult.VK_SUCCESS).st.objectMap G = some gi) ∧
      (gi.flags &&& VK_FENCE_CREATE_SIGNALED_BIT ≠ 0 →
        ∃ gi1, lookup (vkResetFences s pFences VkResult.VK_SUCCESS).st.objectMap G = some gi1 ∧
          gi1 = { gi with flags := gi.flags &&& (4294967295 - VK_FENCE_CREATE_SIGNALED_BIT) } ∧
          gi1.flags &&& VK_FENCE_CREATE_SIGNALED_BIT = 0)) ∧
    (∀ G, G ∉ pFences →
      lookup (vkResetFences s pFences VkResult.VK_SUCCESS).st.objectMap G =
        lookup s.objectMap G) ∧
    (vkResetFences s pFences VkResult.VK_SUCCESS).st =
      { s with objectMap := (vkResetFences s pFences VkResult.VK_SUCCESS).st.objectMap } := by
  have hv : vkResetFences s pFences VkResult.VK_SUCCESS =
      resetLoop pFences ⟨VkResult.VK_SUCCESS, [], s⟩ := by
    simp only [vkResetFences, if_true]
  refine ⟨?_, ?_, ?_, ?_⟩
  · intro hr
    simp only [vkResetFences, hr, if_false]
  · intro G gi hG hgi
    refine ⟨?_, ?_⟩
    · intro hu
      rw [hv]
      refine ⟨(resetLoop_reports G gi hu pFences ⟨VkResult.VK_SUCCESS, [], s⟩ hG hgi).2, ?_⟩
      rw [resetLoop_lookup, if_pos hG]
      show (lookup s.objectMap G).map resetFlags = some gi
      rw [hgi]
      simp only [Option.map_some', resetFlags, hu, if_true]
    · intro hsig
      rw [hv]
      refine ⟨_, ?_, rfl, ?_⟩
      · rw [resetLoop_lookup, if_pos hG]
        show (lookup s.objectMap G).map resetFlags = _
        rw [hgi]
        simp only [Option.map_some', resetFlags, hsig, if_false]
      · show (gi.flags &&& (4294967295 - VK_FENCE_CREATE_SIGNALED_BIT)) &&&
          VK_FENCE_CREATE_SIGNALED_BIT = 0
        rw [Nat.land_assoc]
        have : (4294967295 - VK_FENCE_CREATE_SIGNALED_BIT) &&& VK_FENCE_CREATE_SIGNALED_BIT = 0 := by
          decide
        rw [this]
        exact Nat.and_zero _
  · intro G hG
    rw [hv, resetLoop_lookup, if_neg hG]
  · rw [hv]
    exact resetLoop_frame pFences ⟨VkResult.VK_SUCCESS, [], s⟩

/-- C25 as stated fails: in `signalledState` fence 9 is tracked and unsignalled
and fence 7 is tracked and signalled.  `vkResetFences` on the list `[9, 7]`
returns what the driver's reset returned when that failed, so the driver was
called; and when the driver succeeded it reports fence 9, returns
`VK_ERROR_INVALID_VALUE`, and still clears the signalled bit of fence 7. -/
theorem vkResetFences_rejected_reset_clears_signalled :
    (lookup signalledState.objectMap 9).map (fun r => r.flags &&& VK_FENCE_CREATE_SIGNALED_BIT) =
      some 0 ∧
    (lookup signalledState.objectMap 7).map (fun r => r.flags &&& VK_FENCE_CREATE_SIGNALED_BIT) =
      some 1 ∧
    (vkResetFences signalledState [9, 7] VkResult.VK_ERROR_UNKNOWN).ret =
      VkResult.VK_ERROR_UNKNOWN ∧
    (vkResetFences signalledState [9, 7] VkResult.VK_SUCCESS).ret =
      VkResult.VK_ERROR_INVALID_VALUE ∧
    (vkResetFences signalledState [9, 7] VkResult.VK_SUCCESS).msgs =
      [⟨VK_DBG_MSG_ERROR, 9, MEMTRACK_INVALID_FENCE_STATE⟩] ∧
    (lookup (vkResetFences signalledState [9, 7] VkResult.VK_SUCCESS).st.objectMap 7).map
      (fun r => r.flags &&& VK_FENCE_CREATE_SIGNALED_BIT) = some 0 := by
  decide

/-! ## Clearing the binding of an object -/

theorem assign_of_lookup {V : Type} (t : Table V) (k : Handle) (v : V)
    (h : lookup t k = some v) : assign t k v = t := by
  induction t with
  | nil => simp [lookup] at h
  | cons p rest ih =>
    obtain ⟨k1, v1⟩ := p
    by_cases hk : k1 = k
    · subst hk
      simp only [lookup, if_true, Option.some.injEq] at h
      simp only [assign, if_true, h]
    · simp only [lookup, hk, if_false] at h
      simp only [assign, hk, if_false, ih h]

theorem dec32_inc32 (n : Nat) (h : n < 4294967296) : dec32 (inc32 n) = n := by
  unfold dec32 inc32
  omega

/-- C26 (amended): when object `o` has a record that points to memory `m`, and
`m` has a record whose object list holds `o`, `clear_object_binding(o)` returns
`VK_TRUE` with no message; one occurrence of `o` leaves the list of `m` (the
other entries stay), the `refCount` of `m` is decremented by one modulo `2^32`
(from 0 it wraps to `2^32 - 1`), the pointer of `o` is nulled, and every other
record and table is unchanged.  And clearing right after a bind that took place (non-null memory,
result `VK_TRUE`) gives back the state before the bind, the count of `m` being
a 32-bit value. -/
theorem clear_object_binding_success (s : State) (o m : Handle) (oi : MT_OBJ_INFO)
    (mi : MT_MEM_OBJ_INFO)
    (ho : lookup s.objectMap o = some oi) (he : oi.pMemObjInfo = some m)
    (hm : lookup s.memObjMap m = some mi) (hin : o ∈ mi.pObjBindings) :
    (∃ s1 : State, clear_object_binding s o = some ⟨true, [], s1⟩ ∧
      lookup s1.memObjMap m =
        some { mi with refCount := (mi.refCount + 4294967295) % 4294967296,
                       pObjBindings := mi.pObjBindings.erase o } ∧
      (mi.pObjBindings.erase o).count o + 1 = mi.pObjBindings.count o ∧
      (∀ x, x ≠ o → (mi.pObjBindings.erase o).count x = mi.pObjBindings.count x) ∧
      lookup s1.objectMap o = some { oi with pMemObjInfo := none } ∧
      (∀ m1, m1 ≠ m → lookup s1.memObjMap m1 = lookup s.memObjMap m1) ∧
      (∀ o1, o1 ≠ o → lookup s1.objectMap o1 = lookup s.objectMap o1) ∧
      s1.cbMap = s.cbMap ∧ s1.queueMap = s.queueMap ∧ s1.fenceMap = s.fenceMap ∧
      s1.swapChainMap = s.swapChainMap ∧ s1.g_currentFenceId = s.g_currentFenceId ∧
      s1.g_reportingLevel = s.g_reportingLevel) ∧
    (∀ (s0 : State) (r : Out Bool), m ≠ VK_NULL_HANDLE →
      set_object_binding s0 o m = some r → r.ret = true →
      (∀ r0, lookup s0.memObjMap m = some r0 → r0.refCount < 4294967296) →
      clear_object_binding r.st o = some ⟨true, [], s0⟩) := by
  constructor
  · have hlen : ¬ mi.pObjBindings.length ≤ 0 := by
      have := List.length_pos_of_mem hin
      omega
    refine ⟨{ s with
        memObjMap := assign s.memObjMap m
          { mi with refCount := dec32 mi.refCount, pObjBindings := mi.pObjBindings.erase o }
        objectMap := assign s.objectMap o { oi with pMemObjInfo := none } }, ?_, ?_, ?_, ?_, ?_,
      ?_, ?_, rfl, rfl, rfl, rfl, rfl, rfl⟩
    · simp only [clear_object_binding, get_object_info, ho, he, get_mem_obj_info, hm, hlen,
        if_false, hin, if_true]
    · simp only [lookup_assign_self, dec32]
    · rw [List.count_erase_self]
      have : 0 < mi.pObjBindings.count o := List.count_pos_iff.mpr hin
      omega
    · intro x hx
      exact List.count_erase_of_ne hx _
    · simp only [lookup_assign_self]
    · intro m1 h1
      simp only [lookup_assign_ne _ _ _ _ h1]
    · intro o1 h1
      simp only [lookup_assign_ne _ _ _ _ h1]
  · intro s0 r hm0 hset hret hbound
    unfold set_object_binding at hset
    rw [if_neg hm0] at hset
    cases ho0 : lookup s0.objectMap o with
    | none =>
      simp only [get_object_info, ho0, Option.some.injEq] at hset
      rw [← hset] at hret
      exact Bool.noConfusion hret
    | some oi0 =>
      cases hmi0 : lookup s0.memObjMap m with
      | none =>
        simp only [get_object_info, ho0, get_mem_obj_info, hmi0, Option.some.injEq] at hset
        rw [← hset] at hret
        exact Bool.noConfusion hret
      | some mi0 =>
        cases he0 : oi0.pMemObjInfo with
        | some old =>
          simp only [get_object_info, ho0, get_mem_obj_info, hmi0, he0] at hset
          cases hold : lookup s0.memObjMap old with
          | none => simp only [hold] at hset; exact Option.noConfusion hset
          | some _ =>
            simp only [hold, Option.some.injEq] at hset
            rw [← hset] at hret
            exact Bool.noConfusion hret
        | none =>
          simp only [get_object_info, ho0, get_mem_obj_info, hmi0, he0, Option.some.injEq] at hset
          subst hset
          have hrc := hbound mi0 hmi0
          have hoi : ({ oi0 with pMemObjInfo := none } : MT_OBJ_INFO) = oi0 := by
            cases oi0
            simp only at he0
            simp only [he0]
          have hmi : ({ mi0 with refCount := dec32 (inc32 mi0.refCount),
                                 pObjBindings := (o :: mi0.pObjBindings).erase o } :
              MT_MEM_OBJ_INFO) = mi0 := by
            rw [dec32_inc32 _ hrc, List.erase_cons_head]
          simp only [clear_object_binding, get_object_info, lookup_assign_self, get_mem_obj_info,
            List.length_cons, Nat.le_zero_eq, Nat.succ_ne_zero, if_false, List.mem_cons, true_or,
            if_true, assign_assign, hoi, hmi, assign_of_lookup _ _ _ ho0,
            assign_of_lookup _ _ _ hmi0]

/-- Witness for C26: in `boundState` buffer 3 is bound to memory 1; clearing
the binding gives `freshState`, the state before the bind. -/
theorem clear_object_binding_success_witness :
    (∃ s1 : State, clear_object_binding boundState 3 = some ⟨true, [], s1⟩ ∧
      lookup s1.memObjMap 1 =
        some { refCount := 0, mem := 1, allocInfo := { allocationSize := 1024, memProps := 0 },
               pObjBindings := [], pCmdBufferBindings := [] }) ∧
    set_object_binding freshState 3 1 = some ⟨true, [], boundState⟩ ∧
    clear_object_binding boundState 3 = some ⟨true, [], freshState⟩ := by
  have h := clear_object_binding_success boundState 3 1
    { pMemObjInfo := some 1, ref_count := 1, object := 3, sType := 12, flags := 0 }
    { refCount := 1, mem := 1, allocInfo := { allocationSize := 1024, memProps := 0 },
      pObjBindings := [3], pCmdBufferBindings := [] }
    rfl rfl rfl (by decide)
  obtain ⟨⟨s1, h1, h2, _⟩, hback⟩ := h
  have hbind : set_object_binding freshState 3 1 = some ⟨true, [], boundState⟩ := by decide
  refine ⟨⟨s1, h1, h2⟩, hbind, ?_⟩
  exact hback freshState ⟨true, [], boundState⟩ (by decide) hbind rfl
    (by
      intro r0 hr0
      have : r0.refCount = 0 := by
        simp only [freshState, lookup, if_true, Option.some.injEq] at hr0
        rw [← hr0]
      omega)

/-- C28: `set_object_binding(o, m)` tests, in this order: `m` null (a warning,
`VK_TRUE`), `o` without a record (an error, `VK_FALSE`), `m` without a record
(an error with code `MEMTRACK_INVALID_MEM_OBJ`, `VK_FALSE`); each of the three
leaves the globals as they are.  And whenever the call returns `VK_FALSE` or
sends a message, the globals are as before. -/
theorem set_object_binding_refusals (s : State) (o m : Handle) :
    (m = VK_NULL_HANDLE →
      set_object_binding s o m =
        some ⟨true, [⟨VK_DBG_MSG_WARNING, o, MEMTRACK_INTERNAL_ERROR⟩], s⟩) ∧
    (m ≠ VK_NULL_HANDLE → lookup s.objectMap o = none →
      set_object_binding s o m =
        some ⟨false, [⟨VK_DBG_MSG_ERROR, o, MEMTRACK_INTERNAL_ERROR⟩], s⟩) ∧
    (m ≠ VK_NULL_HANDLE → (∃ oi, lookup s.objectMap o = some oi) →
      lookup s.memObjMap m = none →
      set_object_binding s o m =
        some ⟨false, [⟨VK_DBG_MSG_ERROR, m, MEMTRACK_INVALID_MEM_OBJ⟩], s⟩) ∧
    (∀ r, set_object_binding s o m = some r → (r.ret = false ∨ r.msgs ≠ []) → r.st = s) := by
  refine ⟨?_, ?_, ?_, ?_⟩
  · intro hm
    simp only [set_object_binding, hm, if_true]
  · intro hm ho
    simp only [set_object_binding, hm, if_false, get_object_info, ho]
  · rintro hm ⟨oi, ho⟩ hmi
    simp only [set_object_binding, hm, if_false, get_object_info, ho, get_mem_obj_info, hmi]
  · intro r hr hfail
    unfold set_object_binding at hr
    by_cases hm : m = VK_NULL_HANDLE
    · rw [if_pos hm] at hr
      cases hr
      rfl
    · rw [if_neg hm] at hr
      cases ho : lookup s.objectMap o with
      | none =>
        simp only [get_object_info, ho, Option.some.injEq] at hr
        rw [← hr]
      | some oi =>
        cases hmi : lookup s.memObjMap m with
        | none =>
          simp only [get_object_info, ho, get_mem_obj_info, hmi, Option.some.injEq] at hr
          rw [← hr]
        | some mi =>
          cases he : oi.pMemObjInfo with
          | some old =>
            simp only [get_object_info, ho, get_mem_obj_info, hmi, he] at hr
            cases hold : lookup s.memObjMap old with
            | none => simp only [hold] at hr; exact Option.noConfusion hr
            | some _ =>
              simp only [hold, Option.some.injEq] at hr
              rw [← hr]
          | none =>
            simp only [get_object_info, ho, get_mem_obj_info, hmi, he, Option.some.injEq] at hr
            rw [← hr] at hfail
            rcases hfail with h | h
            · exact Bool.noConfusion h
            · exact absurd rfl h

/-- C29 (amended): when memory `m` has a record and command buffer `cb` has
none, `update_cmd_buf_and_mem_references(cb, m)` sends one error (code
`MEMTRACK_INVALID_MEM_OBJ`, source `cb`) and returns `VK_FALSE`.  The memory
side is updated before the command buffer is looked up: when `cb` is not yet in
the list of `m` it is pushed on it and `refCount` is incremented by one (as a
32-bit counter), when it is already there the record of `m` is unchanged.
Every other record and table is unchanged. -/
theorem update_cmd_buf_and_mem_references_unknown_cb (s : State) (cb m : Handle)
    (mi : MT_MEM_OBJ_INFO)
    (hm : lookup s.memObjMap m = some mi) (hcb : lookup s.cbMap cb = none) :
    ∃ s1 : State,
      update_cmd_buf_and_mem_references s cb m =
        ⟨false, [⟨VK_DBG_MSG_ERROR, cb, MEMTRACK_INVALID_MEM_OBJ⟩], s1⟩ ∧
      (cb ∈ mi.pCmdBufferBindings → s1 = s) ∧
      (cb ∉ mi.pCmdBufferBindings →
        lookup s1.memObjMap m =
          some { mi with pCmdBufferBindings := cb :: mi.pCmdBufferBindings,
                         refCount := (mi.refCount + 1) % 4294967296 }) ∧
      (∀ m1, m1 ≠ m → lookup s1.memObjMap m1 = lookup s.memObjMap m1) ∧
      s1.cbMap = s.cbMap ∧ s1.objectMap = s.objectMap ∧ s1.queueMap = s.queueMap ∧
      s1.fenceMap = s.fenceMap ∧ s1.swapChainMap = s.swapChainMap ∧
      s1.g_currentFenceId = s.g_currentFenceId ∧ s1.g_reportingLevel = s.g_reportingLevel := by
  by_cases hin : cb ∈ mi.pCmdBufferBindings
  · refine ⟨s, ?_, fun _ => rfl, fun h => absurd hin h, fun _ _ => rfl, rfl, rfl, rfl, rfl, rfl,
      rfl, rfl⟩
    simp only [update_cmd_buf_and_mem_references, get_mem_obj_info, hm, hin, if_true,
      get_cmd_buf_info, hcb]
  · let mi1 : MT_MEM_OBJ_INFO :=
      { mi with pCmdBufferBindings := cb :: mi.pCmdBufferBindings, refCount := inc32 mi.refCount }
    refine ⟨{ s with memObjMap := assign s.memObjMap m mi1 }, ?_, fun h => absurd h hin, ?_, ?_,
      rfl, rfl, rfl, rfl, rfl, rfl, rfl⟩
    · simp only [update_cmd_buf_and_mem_references, get_mem_obj_info, hm, hin, if_false,
        get_cmd_buf_info, hcb]
    · intro _
      simp only [lookup_assign_self, inc32, mi1]
    · intro m1 h1
      simp only [lookup_assign_ne _ _ _ _ h1]

/-- Witness for C29: in `freshState` memory 1 has a record and command buffer 6
has none. -/
theorem update_cmd_buf_and_mem_references_unknown_cb_witness :
    ∃ s1 : State,
      update_cmd_buf_and_mem_references freshState 6 1 =
        ⟨false, [⟨VK_DBG_MSG_ERROR, 6, MEMTRACK_INVALID_MEM_OBJ⟩], s1⟩ ∧
      lookup s1.memObjMap 1 =
        some { refCount := 1, mem := 1, allocInfo := { allocationSize := 1024, memProps := 0 },
               pObjBindings := [], pCmdBufferBindings := [6] } := by
  obtain ⟨s1, h1, _, h3, _⟩ := update_cmd_buf_and_mem_references_unknown_cb freshState 6 1
    { refCount := 0, mem := 1, allocInfo := { allocationSize := 1024, memProps := 0 },
      pObjBindings := [], pCmdBufferBindings := [] }
    rfl rfl
  exact ⟨s1, h1, h3 (by decide)⟩

/-- C29 as stated fails: in `freshState` memory 1 has a record (count 0, empty
lists) and command buffer 6 has none; the call returns `VK_FALSE` with an
error, and the record of memory 1 now lists command buffer 6 with a count
of 1. -/
theorem update_cmd_buf_and_mem_references_half_edge :
    lookup freshState.cbMap 6 = none ∧
    lookup freshState.memObjMap 1 =
      some { refCount := 0, mem := 1, allocInfo := { allocationSize := 1024, memProps := 0 },
             pObjBindings := [], pCmdBufferBindings := [] } ∧
    (update_cmd_buf_and_mem_references freshState 6 1).ret = false ∧
    (update_cmd_buf_and_mem_references freshState 6 1).msgs =
      [⟨VK_DBG_MSG_ERROR, 6, MEMTRACK_INVALID_MEM_OBJ⟩] ∧
    lookup (update_cmd_buf_and_mem_references freshState 6 1).st.memObjMap 1 =
      some { refCount := 1, mem := 1, allocInfo := { allocationSize := 1024, memProps := 0 },
             pObjBindings := [], pCmdBufferBindings := [6] } := by
  decide

/-! ## Recording a command on an unbound object -/

/-- Without a memory record under the null handle the recording of an indirect
draw from an unbound buffer `b` changes nothing: it sends
`MEMTRACK_MISSING_MEM_BINDINGS` for `b`, the object list, the error of the
failed reference and `MEMTRACK_MEMORY_BINDING_ERROR` for the command buffer. -/
theorem vkCmdDrawIndirect_unbound_frame (s : State) (cb b : Handle) (oi : MT_OBJ_INFO)
    (ho : lookup s.objectMap b = some oi) (he : oi.pMemObjInfo = none)
    (hnull : lookup s.memObjMap 0 = none) :
    vkCmdDrawIndirect s cb b =
      some ⟨(), (⟨VK_DBG_MSG_ERROR, b, MEMTRACK_MISSING_MEM_BINDINGS⟩ :: print_object_list s) ++
          [⟨VK_DBG_MSG_ERROR, cb, MEMTRACK_INVALID_MEM_OBJ⟩] ++
          [⟨VK_DBG_MSG_ERROR, cb, MEMTRACK_MEMORY_BINDING_ERROR⟩], s⟩ := by
  simp only [vkCmdDrawIndirect, cmdReference, get_mem_binding_from_object, get_object_info, ho,
    he, update_cmd_buf_and_mem_references, get_mem_obj_info, hnull, if_true]

/-- C30 fails on the code: `nullAllocState` is reachable (an allocation the
driver refused, recorded under the null handle; command buffer 2 and buffer 3
created).  Buffer 3 has a record without a memory edge, yet
`vkCmdDrawIndirect(2, 3)` puts command buffer 2 on the list of the memory
record under the null handle, takes its `refCount` from 0 to 1, puts the null
handle on the command buffer's list, and sends no
`MEMTRACK_MEMORY_BINDING_ERROR`. -/
theorem vkCmdDrawIndirect_edge_to_null_memory :
    Reachable nullAllocState ∧
    (∃ oi, lookup nullAllocState.objectMap 3 = some oi ∧ oi.pMemObjInfo = none) ∧
    (lookup nullAllocState.memObjMap 0).map (fun r => (r.refCount, r.pCmdBufferBindings)) =
      some (0, []) ∧
    ∃ o : Out Unit, vkCmdDrawIndirect nullAllocState 2 3 = some o ∧
      o.msgs = [⟨VK_DBG_MSG_ERROR, 3, MEMTRACK_MISSING_MEM_BINDINGS⟩,
                ⟨VK_DBG_MSG_UNKNOWN, 0, MEMTRACK_NONE⟩, ⟨VK_DBG_MSG_UNKNOWN, 3, MEMTRACK_NONE⟩] ∧
      (⟨VK_DBG_MSG_ERROR, 2, MEMTRACK_MEMORY_BINDING_ERROR⟩ : Diag) ∉ o.msgs ∧
      (lookup o.st.memObjMap 0).map (fun r => (r.refCount, r.pCmdBufferBindings)) =
        some (1, [2]) ∧
      (lookup o.st.cbMap 2).map (fun c => c.pMemObjList) = some [0] := by
  have hrun : run (State.init 0) nullAllocTrace = some nullAllocState := by decide
  refine ⟨reachable_run _ _ _ (Reachable.init 0) hrun, ⟨_, rfl, rfl⟩, by decide, ?_⟩
  have hdraw : vkCmdDrawIndirect nullAllocState 2 3 =
      some ⟨(), [⟨VK_DBG_MSG_ERROR, 3, MEMTRACK_MISSING_MEM_BINDINGS⟩,
                 ⟨VK_DBG_MSG_UNKNOWN, 0, MEMTRACK_NONE⟩, ⟨VK_DBG_MSG_UNKNOWN, 3, MEMTRACK_NONE⟩],
        { nullAllocState with
          cbMap := [(2, { cmdBuffer := 2, fenceId := 0, lastSubmittedFence := 0,
                          lastSubmittedQueue := 0, pMemObjList := [0] })]
          memObjMap := [(0, { refCount := 1, mem := 0,
                              allocInfo := { allocationSize := 1024, memProps := 0 },
                              pObjBindings := [], pCmdBufferBindings := [2] })] }⟩ := by
    decide
  exact ⟨_, hdraw, rfl, by decide, by decide, by decide⟩

/-! ## Removing one reference -/

/-- C40: when memory `m` has a record, `remove_cmd_buf_and_mem_reference(cb, m)`
removes every occurrence of `cb` from the memory's command buffer list and sets
`refCount` to `(refCount - 1) mod 2^32`, whether or not `cb` was in the list (a
count of 0 becomes `2^32 - 1`), leaving the record's other fields and every
other record as they are; when `m` has no record the globals are unchanged. -/
theorem remove_cmd_buf_and_mem_reference_unconditional (s : State) (cb m : Handle) :
    (∀ mi, lookup s.memObjMap m = some mi →
      (∃ t, remove_cmd_buf_and_mem_reference s cb m = { s with memObjMap := t }) ∧
      lookup (remove_cmd_buf_and_mem_reference s cb m).memObjMap m =
        some { mi with
               pCmdBufferBindings := mi.pCmdBufferBindings.filter (fun x => x ≠ cb)
               refCount := (mi.refCount + 4294967295) % 4294967296 } ∧
      (mi.pCmdBufferBindings.filter (fun x => x ≠ cb)).count cb = 0 ∧
      (∀ x, x ≠ cb →
        (mi.pCmdBufferBindings.filter (fun x => x ≠ cb)).count x =
          mi.pCmdBufferBindings.count x) ∧
      ((((mi.refCount + 4294967295) % 4294967296 : Nat) : Int) =
        ((mi.refCount : Int) - 1) % 4294967296) ∧
      (mi.refCount = 0 → (mi.refCount + 4294967295) % 4294967296 = 4294967295) ∧
      (∀ m1, m1 ≠ m →
        lookup (remove_cmd_buf_and_mem_reference s cb m).memObjMap m1 =
          lookup s.memObjMap m1)) ∧
    (lookup s.memObjMap m = none → remove_cmd_buf_and_mem_reference s cb m = s) := by
  constructor
  · intro mi hmi
    refine ⟨remove_frame s cb m, ?_, ?_, ?_, ?_, ?_, ?_⟩
    · rw [remove_lookup, if_pos rfl, hmi]
      simp only [Option.map_some', dropCb, dec32]
    · apply List.count_eq_zero_of_not_mem
      simp [List.mem_filter]
    · intro x hx
      rw [List.count_filter]
      simp [hx]
    · omega
    · intro h0
      omega
    · intro m1 h1
      rw [remove_lookup, if_neg (fun e => h1 e.symm)]
  · intro hnone
    simp only [remove_cmd_buf_and_mem_reference, get_mem_obj_info, hnone]

/-! ## Begin and reset of an unknown command buffer -/

/-- C39: when `cb` has no command buffer record, `vkBeginCommandBuffer` and
`vkResetCommandBuffer` send `MEMTRACK_INVALID_CB` (from `checkCBCompleted`),
the error `MEMTRACK_RESET_CB_WHILE_IN_FLIGHT`, and `MEMTRACK_INVALID_CB` again
(from `clear_cmd_buf_and_mem_references`), and leave the globals as they are.
In every state and for every handle, the in-flight error is sent exactly when
`checkCBCompleted` returns `VK_FALSE`. -/
theorem vkBeginCommandBuffer_unknown_cb (s : State) (cb : Handle) (result : VkResult)
    (hcb : lookup s.cbMap cb = none) :
    vkBeginCommandBuffer s cb result =
      ⟨result, [⟨VK_DBG_MSG_ERROR, cb, MEMTRACK_INVALID_CB⟩,
                ⟨VK_DBG_MSG_ERROR, cb, MEMTRACK_RESET_CB_WHILE_IN_FLIGHT⟩,
                ⟨VK_DBG_MSG_ERROR, cb, MEMTRACK_INVALID_CB⟩], s⟩ ∧
    vkResetCommandBuffer s cb result =
      ⟨result, [⟨VK_DBG_MSG_ERROR, cb, MEMTRACK_INVALID_CB⟩,
                ⟨VK_DBG_MSG_ERROR, cb, MEMTRACK_RESET_CB_WHILE_IN_FLIGHT⟩,
                ⟨VK_DBG_MSG_ERROR, cb, MEMTRACK_INVALID_CB⟩], s⟩ ∧
    (checkCBCompleted s cb).ret = false ∧
    (∀ (s0 : State) (cb0 : Handle) (r0 : VkResult),
      ((⟨VK_DBG_MSG_ERROR, cb0, MEMTRACK_RESET_CB_WHILE_IN_FLIGHT⟩ : Diag) ∈
          (vkBeginCommandBuffer s0 cb0 r0).msgs ↔ (checkCBCompleted s0 cb0).ret = false) ∧
      ((⟨VK_DBG_MSG_ERROR, cb0, MEMTRACK_RESET_CB_WHILE_IN_FLIGHT⟩ : Diag) ∈
          (vkResetCommandBuffer s0 cb0 r0).msgs ↔ (checkCBCompleted s0 cb0).ret = false)) := by
  have hc : checkCBCompleted s cb = ⟨false, [⟨VK_DBG_MSG_ERROR, cb, MEMTRACK_INVALID_CB⟩], s⟩ := by
    simp only [checkCBCompleted, get_cmd_buf_info, hcb]
  have hr : clear_cmd_buf_and_mem_references s cb =
      ⟨false, [⟨VK_DBG_MSG_ERROR, cb, MEMTRACK_INVALID_CB⟩], s⟩ := by
    simp only [clear_cmd_buf_and_mem_references, get_cmd_buf_info, hcb]
  have hb : vkBeginCommandBuffer s cb result =
      ⟨result, [⟨VK_DBG_MSG_ERROR, cb, MEMTRACK_INVALID_CB⟩,
                ⟨VK_DBG_MSG_ERROR, cb, MEMTRACK_RESET_CB_WHILE_IN_FLIGHT⟩,
                ⟨VK_DBG_MSG_ERROR, cb, MEMTRACK_INVALID_CB⟩], s⟩ := by
    simp only [vkBeginCommandBuffer, hc, hr, if_true, List.singleton_append, List.cons_append,
      List.nil_append]
  have hgen : ∀ (s0 : State) (cb0 : Handle) (r0 : VkResult),
      ((⟨VK_DBG_MSG_ERROR, cb0, MEMTRACK_RESET_CB_WHILE_IN_FLIGHT⟩ : Diag) ∈
          (vkBeginCommandBuffer s0 cb0 r0).msgs ↔ (checkCBCompleted s0 cb0).ret = false) := by
    intro s0 cb0 r0
    have hcm : (⟨VK_DBG_MSG_ERROR, cb0, MEMTRACK_RESET_CB_WHILE_IN_FLIGHT⟩ : Diag) ∉
        (checkCBCompleted s0 cb0).msgs := by
      unfold checkCBCompleted
      split
      · simp
      · split
        · dsimp only
          split <;> simp
        · simp
    have hrm : (⟨VK_DBG_MSG_ERROR, cb0, MEMTRACK_RESET_CB_WHILE_IN_FLIGHT⟩ : Diag) ∉
        (clear_cmd_buf_and_mem_references (checkCBCompleted s0 cb0).st cb0).msgs := by
      unfold clear_cmd_buf_and_mem_references
      split <;> simp
    simp only [vkBeginCommandBuffer, List.mem_append, hcm, hrm, or_false, false_or]
    by_cases hret : (checkCBCompleted s0 cb0).ret = false
    · simp [hret]
    · simp [hret]
  refine ⟨hb, hb, ?_, fun s0 cb0 r0 => ⟨hgen s0 cb0 r0, hgen s0 cb0 r0⟩⟩
  rw [hc]

/-- Witness for C39: command buffer 6 has no record in `freshState`. -/
theorem vkBeginCommandBuffer_unknown_cb_witness :
    vkBeginCommandBuffer freshState 6 VkResult.VK_SUCCESS =
      ⟨VkResult.VK_SUCCESS, [⟨VK_DBG_MSG_ERROR, 6, MEMTRACK_INVALID_CB⟩,
                ⟨VK_DBG_MSG_ERROR, 6, MEMTRACK_RESET_CB_WHILE_IN_FLIGHT⟩,
                ⟨VK_DBG_MSG_ERROR, 6, MEMTRACK_INVALID_CB⟩], freshState⟩ :=
  (vkBeginCommandBuffer_unknown_cb freshState 6 VkResult.VK_SUCCESS rfl).1

/-! ## Submission of a command buffer without a record -/

/-- The loop of `vkQueueSubmit` writes through a null pointer as soon as one of
the submitted handles has no command buffer record. -/
theorem submitLoop_missing_record (fenceId fence queue : Handle) (cbs : List Handle) :
    ∀ s : State, (∃ cb, cb ∈ cbs ∧ lookup s.cbMap cb = none) →
      submitLoop fenceId fence queue cbs s = none := by
  induction cbs with
  | nil =>
    rintro s ⟨cb, hcb, _⟩
    exact absurd hcb (List.not_mem_nil cb)
  | cons x rest ih =>
    rintro s ⟨cb, hcb, hnone⟩
    cases hx : lookup s.cbMap x with
    | none => simp only [submitLoop, get_cmd_buf_info, hx]
    | some xi =>
      simp only [submitLoop, get_cmd_buf_info, hx]
      have hne : cb ≠ x := by
        intro e
        rw [e, hx] at hnone
        exact Option.noConfusion hnone
      have hrest : cb ∈ rest := by
        rcases List.mem_cons.mp hcb with h | h
        · exact absurd h hne
        · exact h
      let xi1 : MT_CB_INFO :=
        { xi with fenceId := fenceId, lastSubmittedFence := fence, lastSubmittedQueue := queue }
      apply ih { s with cbMap := assign s.cbMap x xi1 }
      refine ⟨cb, hrest, ?_⟩
      show lookup (assign s.cbMap x xi1) cb = none
      rw [lookup_assign_ne _ _ _ _ hne]
      exact hnone

/-- C35 fails on the code: in the empty tracker command buffer 2 has no record;
`vkQueueSubmit(4, [2], 0)` stores the fence id through the null pointer
`get_cmd_buf_info` returned, so the call has no defined outcome.  The same
holds in every state for every list with a handle without a record, while a
list of handles that all have a record is processed. -/
theorem vkQueueSubmit_unknown_cmd_buffer :
    lookup (State.init 0).cbMap 2 = none ∧
    vkQueueSubmit (State.init 0) 4 [2] 0 VkResult.VK_SUCCESS = none ∧
    (∀ (s : State) (q f : Handle) (cbs : List Handle) (r : VkResult),
      (∃ cb, cb ∈ cbs ∧ lookup s.cbMap cb = none) → vkQueueSubmit s q cbs f r = none) ∧
    (∀ (s : State) (q f : Handle) (cbs : List Handle) (r : VkResult),
      (∀ cb, cb ∈ cbs → ∃ ci, lookup s.cbMap cb = some ci) →
      ∃ o, vkQueueSubmit s q cbs f r = some o) := by
  refine ⟨rfl, by decide, ?_, ?_⟩
  · rintro s q f cbs r ⟨cb, hcb, hnone⟩
    have h := submitLoop_missing_record (add_fence_info s f q).ret f q cbs
      (add_fence_info s f q).st ⟨cb, hcb, by
        rw [(add_fence_info_objectMap s s.objectMap f q).2.2.2]
        exact hnone⟩
    simp only [vkQueueSubmit, h, Option.map_none']
  · intro s q f cbs r hall
    obtain ⟨t, ht, _⟩ := submitLoop_spec (add_fence_info s f q).ret f q cbs
      (add_fence_info s f q).st (by
        intro cb hcb
        rw [(add_fence_info_objectMap s s.objectMap f q).2.2.2]
        exact hall cb hcb)
    have hv : vkQueueSubmit s q cbs f r =
        (submitLoop (add_fence_info s f q).ret f q cbs (add_fence_info s f q).st).map
          (fun s1 => ⟨r, (add_fence_info s f q).msgs ++
            (print_mem_list (add_fence_info s f q).st ++ printCBList (add_fence_info s f q).st),
            s1⟩) := rfl
    rw [hv, ht]
    exact ⟨_, rfl⟩

/-! ## Sparse rebinding -/

/-- When the object points to a memory that lists it, the clear inside
`set_sparse_buffer_binding` nulls the pointer, and the message that follows
reads the `mem` field through it: the call has no defined outcome. -/
theorem set_sparse_buffer_binding_reads_null (s : State) (o M1 M2 : Handle) (oi : MT_OBJ_INFO)
    (r1 r2 : MT_MEM_OBJ_INFO)
    (ho : lookup s.objectMap o = some oi) (he : oi.pMemObjInfo = some M1)
    (h1 : lookup s.memObjMap M1 = some r1) (hin : o ∈ r1.pObjBindings)
    (hM2 : M2 ≠ VK_NULL_HANDLE) (h2 : lookup s.memObjMap M2 = some r2) :
    set_sparse_buffer_binding s o M2 = none := by
  have hlen : ¬ r1.pObjBindings.length ≤ 0 := by
    have := List.length_pos_of_mem hin
    omega
  by_cases hsame : M1 = M2
  · subst hsame
    rw [h1] at h2
    cases h2
    simp only [set_sparse_buffer_binding, hM2, if_false, get_object_info, ho, get_mem_obj_info,
      h1, hin, if_true, he, clear_object_binding, hlen]
  · by_cases hin2 : o ∈ r2.pObjBindings
    · simp only [set_sparse_buffer_binding, hM2, if_false, get_object_info, ho,
        get_mem_obj_info, h2, hin2, if_true, he, clear_object_binding, h1, hlen, hin]
    · simp only [set_sparse_buffer_binding, hM2, if_false, get_object_info, ho,
        get_mem_obj_info, h2, hin2, he, clear_object_binding,
        lookup_assign_ne _ _ _ _ hsame, h1, hlen, hin, if_true]

/-- C31 fails on the code: `boundState` satisfies P1 and P2, buffer 3 has a
record that points to memory 1, and memories 1 and 5 have records.  Rebinding
buffer 3 to memory 5, or to memory 1 again, through
`set_sparse_buffer_binding` has no defined outcome: after the old binding is
cleared the transition message reads `pObjInfo->pMemObjInfo->mem` through the
pointer the clear has just nulled. -/
theorem set_sparse_buffer_binding_rebind_undefined :
    RefcountAccurate boundState ∧ ObjectEdgeSymmetric boundState ∧
    (∃ oi, lookup boundState.objectMap 3 = some oi ∧ oi.pMemObjInfo = some 1) ∧
    (∃ r1 r2, lookup boundState.memObjMap 1 = some r1 ∧ lookup boundState.memObjMap 5 = some r2) ∧
    set_sparse_buffer_binding boundState 3 5 = none ∧
    set_sparse_buffer_binding boundState 3 1 = none ∧
    vkQueueBindSparseBufferMemory boundState 3 5 VkResult.VK_SUCCESS = none := by
  have hmem : ∀ m r, lookup boundState.memObjMap m = some r →
      (m = 1 ∧ r = { refCount := 1, mem := 1, allocInfo := { allocationSize := 1024, memProps := 0 },
                     pObjBindings := [3], pCmdBufferBindings := [] }) ∨
      (m = 5 ∧ r = { refCount := 0, mem := 5, allocInfo := { allocationSize := 1024, memProps := 0 },
                     pObjBindings := [], pCmdBufferBindings := [] }) := by
    intro m r hr
    by_cases h1 : m = 1
    · subst h1
      left
      simp only [boundState, lookup, if_true, Option.some.injEq] at hr
      exact ⟨rfl, hr.symm⟩
    · by_cases h5 : m = 5
      · subst h5
        right
        simp only [boundState, lookup, if_true, Option.some.injEq] at hr
        simp at hr
        exact ⟨rfl, hr.symm⟩
      · simp [boundState, lookup, Ne.symm h1, Ne.symm h5] at hr
  have h35 : set_sparse_buffer_binding boundState 3 5 = none := by decide
  refine ⟨?_, ⟨?_, ?_⟩, ⟨_, rfl, rfl⟩, ⟨_, _, rfl, rfl⟩, h35, by decide, ?_⟩
  · intro m r hr
    rcases hmem m r hr with ⟨_, rfl⟩ | ⟨_, rfl⟩ <;> rfl
  · intro o oi m mi ho hm
    obtain ⟨rfl, rfl⟩ := lookup_singleton _ _ _ _ ho
    rcases hmem m mi hm with ⟨rfl, rfl⟩ | ⟨rfl, rfl⟩ <;> simp
  · intro o oi m ho he
    obtain ⟨rfl, rfl⟩ := lookup_singleton _ _ _ _ ho
    cases he
    exact ⟨_, rfl⟩
  · simp only [vkQueueBindSparseBufferMemory, h35, Option.map_none']

/-! ## The extensions the layer advertises -/

theorem strncpyTerminated_short (name : String) (n : Nat) (h : name.data.length < n) :
    strncpyTerminated name n = name := by
  unfold strncpyTerminated
  rw [List.take_of_length_le (by omega)]

/-- C36: with a non-null size pointer and non-null data, and
`VK_MAX_EXTENSION_NAME` above the ten characters of the names,
`vkGetGlobalExtensionInfo` reports the count 2 for the count query; for the
properties query it returns `"MemTracker"` at index 0 and `"Validation"` at
index 1, both with version `0x10` and `VK_SUCCESS`, and
`VK_ERROR_INVALID_VALUE` for every index from 2 on; for every other info type
it returns `VK_ERROR_INVALID_VALUE`; and with a null size pointer it returns
`VK_ERROR_INVALID_POINTER` whatever the other arguments. -/
theorem vkGetGlobalExtensionInfo_advertises (maxName : Nat) (hmax : 10 < maxName) :
    (∀ i, vkGetGlobalExtensionInfo maxName VkExtensionInfoType.VK_EXTENSION_INFO_TYPE_COUNT i
        true true =
      ⟨VkResult.VK_SUCCESS, some ExtDataSize.sizeof_uint32_t, ExtData.count 2⟩) ∧
    vkGetGlobalExtensionInfo maxName VkExtensionInfoType.VK_EXTENSION_INFO_TYPE_PROPERTIES 0
        true true =
      ⟨VkResult.VK_SUCCESS, some ExtDataSize.sizeof_VkExtensionProperties,
        ExtData.properties 0x10 "MemTracker"⟩ ∧
    vkGetGlobalExtensionInfo maxName VkExtensionInfoType.VK_EXTENSION_INFO_TYPE_PROPERTIES 1
        true true =
      ⟨VkResult.VK_SUCCESS, some ExtDataSize.sizeof_VkExtensionProperties,
        ExtData.properties 0x10 "Validation"⟩ ∧
    (∀ i, 2 ≤ i →
      (vkGetGlobalExtensionInfo maxName VkExtensionInfoType.VK_EXTENSION_INFO_TYPE_PROPERTIES i
        true true).ret = VkResult.VK_ERROR_INVALID_VALUE ∧
      (vkGetGlobalExtensionInfo maxName VkExtensionInfoType.VK_EXTENSION_INFO_TYPE_PROPERTIES i
        true true).data = ExtData.unwritten) ∧
    (∀ i pData,
      (vkGetGlobalExtensionInfo maxName VkExtensionInfoType.VK_EXTENSION_INFO_TYPE_OTHER i
        true pData).ret = VkResult.VK_ERROR_INVALID_VALUE) ∧
    (∀ t i pData,
      vkGetGlobalExtensionInfo maxName t i false pData =
        ⟨VkResult.VK_ERROR_INVALID_POINTER, none, ExtData.unwritten⟩) := by
  have hm : strncpyTerminated "MemTracker" maxName = "MemTracker" :=
    strncpyTerminated_short _ _ (by
      have : ("MemTracker" : String).data.length = 10 := by decide
      omega)
  have hv : strncpyTerminated "Validation" maxName = "Validation" :=
    strncpyTerminated_short _ _ (by
      have : ("Validation" : String).data.length = 10 := by decide
      omega)
  refine ⟨?_, ?_, ?_, ?_, ?_, ?_⟩
  · intro i
    rfl
  · simp [vkGetGlobalExtensionInfo, MEM_TRACKER_LAYER_EXT_ARRAY_SIZE, mtExts, hm]
  · simp [vkGetGlobalExtensionInfo, MEM_TRACKER_LAYER_EXT_ARRAY_SIZE, mtExts, hv]
  · intro i hi
    have : i ≥ MEM_TRACKER_LAYER_EXT_ARRAY_SIZE := hi
    simp [vkGetGlobalExtensionInfo, this]
  · intro i pData
    rfl
  · intro t i pData
    simp [vkGetGlobalExtensionInfo]

/-- Witness for C36: with `VK_MAX_EXTENSION_NAME = 256` the second extension is
`"Validation"`. -/
theorem vkGetGlobalExtensionInfo_advertises_witness :
    vkGetGlobalExtensionInfo 256 VkExtensionInfoType.VK_EXTENSION_INFO_TYPE_PROPERTIES 1
        true true =
      ⟨VkResult.VK_SUCCESS, some ExtDataSize.sizeof_VkExtensionProperties,
        ExtData.properties 0x10 "Validation"⟩ :=
  (vkGetGlobalExtensionInfo_advertises 256 (by decide)).2.2.1

/-! ## Device teardown -/

theorem filterMap_assign_of_lookup (g : Handle × MT_MEM_OBJ_INFO → Option Diag)
    (t : Table MT_MEM_OBJ_INFO) (k : Handle)
    (v0 v : MT_MEM_OBJ_INFO) (h : lookup t k = some v0) (hv : ∀ k1, g (k1, v) = g (k1, v0)) :
    (assign t k v).filterMap g = t.filterMap g := by
  induction t with
  | nil => simp [lookup] at h
  | cons p rest ih =>
    obtain ⟨k1, v1⟩ := p
    by_cases hk : k1 = k
    · subst hk
      simp only [lookup, if_true, Option.some.injEq] at h
      subst h
      simp only [assign, if_true, List.filterMap_cons, hv]
    · simp only [lookup, hk, if_false] at h
      simp only [assign, hk, if_false, List.filterMap_cons, ih h]

theorem leakWarning_congr (k k1 : Handle) (v v0 : MT_MEM_OBJ_INFO)
    (h1 : v.allocInfo = v0.allocInfo) (h2 : v.mem = v0.mem) :
    leakWarning (k, v) = leakWarning (k1, v0) := by
  simp only [leakWarning, h1, h2]

theorem remove_leaks (s : State) (cb x : Handle) :
    (remove_cmd_buf_and_mem_reference s cb x).memObjMap.filterMap leakWarning =
      s.memObjMap.filterMap leakWarning := by
  unfold remove_cmd_buf_and_mem_reference get_mem_obj_info
  cases h : lookup s.memObjMap x with
  | none => rfl
  | some r =>
    apply filterMap_assign_of_lookup leakWarning _ _ r _ h
    intro k1
    exact leakWarning_congr _ _ _ _ rfl rfl

theorem foldl_remove_leaks (cb : Handle) (l : List Handle) :
    ∀ s : State,
      (l.foldl (fun st m => remove_cmd_buf_and_mem_reference st cb m) s).memObjMap.filterMap
        leakWarning = s.memObjMap.filterMap leakWarning := by
  induction l with
  | nil => intro s; rfl
  | cons m rest ih =>
    intro s
    simp only [List.foldl_cons]
    rw [ih, remove_leaks]

theorem clear_leaks (s : State) (cb : Handle) :
    (clear_cmd_buf_and_mem_references s cb).st.memObjMap.filterMap leakWarning =
      s.memObjMap.filterMap leakWarning ∧
    (∀ d, d ∈ (clear_cmd_buf_and_mem_references s cb).msgs →
      d.msgCode = MEMTRACK_INVALID_CB) ∧
    (clear_cmd_buf_and_mem_references s cb).st.objectMap = s.objectMap ∧
    (clear_cmd_buf_and_mem_references s cb).st.fenceMap = s.fenceMap ∧
    (clear_cmd_buf_and_mem_references s cb).st.swapChainMap = s.swapChainMap ∧
    (clear_cmd_buf_and_mem_references s cb).st.queueMap = s.queueMap := by
  unfold clear_cmd_buf_and_mem_references
  cases h : get_cmd_buf_info s cb with
  | none =>
    refine ⟨rfl, ?_, rfl, rfl, rfl, rfl⟩
    intro d hd
    simp only [List.mem_singleton] at hd
    rw [hd]
  | some ci =>
    obtain ⟨t, ht⟩ := foldl_remove_frame cb ci.pMemObjList s
    refine ⟨foldl_remove_leaks cb ci.pMemObjList s, fun d hd => absurd hd (List.not_mem_nil d),
      ?_, ?_, ?_, ?_⟩ <;>
    · simp only [ht]

theorem delete_cmd_buf_info_list_leaks (s : State) :
    (delete_cmd_buf_info_list s).st.memObjMap.filterMap leakWarning =
      s.memObjMap.filterMap leakWarning ∧
    (∀ d, d ∈ (delete_cmd_buf_info_list s).msgs → d.msgCode = MEMTRACK_INVALID_CB) ∧
    (delete_cmd_buf_info_list s).ret = true ∧
    (delete_cmd_buf_info_list s).st.cbMap = [] ∧
    (delete_cmd_buf_info_list s).st.objectMap = s.objectMap ∧
    (delete_cmd_buf_info_list s).st.fenceMap = s.fenceMap ∧
    (delete_cmd_buf_info_list s).st.swapChainMap = s.swapChainMap ∧
    (∀ m, (lookup (delete_cmd_buf_info_list s).st.memObjMap m).isSome =
      (lookup s.memObjMap m).isSome) := by
  have key : ∀ (l : List Handle) (acc : List Diag × State),
      (∀ d, d ∈ acc.1 → d.msgCode = MEMTRACK_INVALID_CB) →
      ((l.foldl (fun (a : List Diag × State) cb =>
          (a.1 ++ (clear_cmd_buf_and_mem_references a.2 cb).msgs,
            (clear_cmd_buf_and_mem_references a.2 cb).st)) acc).2.memObjMap.filterMap leakWarning =
        acc.2.memObjMap.filterMap leakWarning) ∧
      (∀ d, d ∈ (l.foldl (fun (a : List Diag × State) cb =>
          (a.1 ++ (clear_cmd_buf_and_mem_references a.2 cb).msgs,
            (clear_cmd_buf_and_mem_references a.2 cb).st)) acc).1 →
        d.msgCode = MEMTRACK_INVALID_CB) ∧
      (l.foldl (fun (a : List Diag × State) cb =>
          (a.1 ++ (clear_cmd_buf_and_mem_references a.2 cb).msgs,
            (clear_cmd_buf_and_mem_references a.2 cb).st)) acc).2.objectMap = acc.2.objectMap ∧
      (l.foldl (fun (a : List Diag × State) cb =>
          (a.1 ++ (clear_cmd_buf_and_mem_references a.2 cb).msgs,
            (clear_cmd_buf_and_mem_references a.2 cb).st)) acc).2.fenceMap = acc.2.fenceMap ∧
      (l.foldl (fun (a : List Diag × State) cb =>
          (a.1 ++ (clear_cmd_buf_and_mem_references a.2 cb).msgs,
            (clear_cmd_buf_and_mem_references a.2 cb).st)) acc).2.swapChainMap =
        acc.2.swapChainMap ∧
      (∀ m, (lookup (l.foldl (fun (a : List Diag × State) cb =>
          (a.1 ++ (clear_cmd_buf_and_mem_references a.2 cb).msgs,
            (clear_cmd_buf_and_mem_references a.2 cb).st)) acc).2.memObjMap m).isSome =
        (lookup acc.2.memObjMap m).isSome) := by
    intro l
    induction l with
    | nil => intro acc hacc; exact ⟨rfl, hacc, rfl, rfl, rfl, fun _ => rfl⟩
    | cons cb rest ih =>
      intro acc hacc
      simp only [List.foldl_cons]
      have hc := clear_leaks acc.2 cb
      have hstep := ih (acc.1 ++ (clear_cmd_buf_and_mem_references acc.2 cb).msgs,
        (clear_cmd_buf_and_mem_references acc.2 cb).st) (by
          intro d hd
          rcases List.mem_append.mp hd with h | h
          · exact hacc d h
          · exact hc.2.1 d h)
      refine ⟨?_, hstep.2.1, ?_, ?_, ?_, ?_⟩
      · rw [hstep.1]
        exact hc.1
      · rw [hstep.2.2.1]
        exact hc.2.2.1
      · rw [hstep.2.2.2.1]
        exact hc.2.2.2.1
      · rw [hstep.2.2.2.2.1]
        exact hc.2.2.2.2.1
      · intro m
        rw [hstep.2.2.2.2.2 m]
        exact clear_lookup_mem acc.2 cb m
  have hk := key (s.cbMap.map (fun p => p.1)) (([] : List Diag), s)
    (fun d hd => absurd hd (List.not_mem_nil d))
  exact ⟨hk.1, hk.2.1, rfl, rfl, hk.2.2.1, hk.2.2.2.1, hk.2.2.2.2.1, hk.2.2.2.2.2⟩

theorem print_lists_code (s : State) :
    ∀ d, d ∈ print_mem_list s ++ printCBList s ++ print_object_list s →
      d.msgCode = MEMTRACK_NONE := by
  intro d hd
  simp only [List.mem_append] at hd
  rcases hd with (hd | hd) | hd
  · unfold print_mem_list at hd
    split at hd
    · exact absurd hd (List.not_mem_nil d)
    · rcases List.mem_cons.mp hd with h | h
      · rw [h]
      · obtain ⟨l, hl, hdl⟩ := List.mem_flatten.mp h
        obtain ⟨p, _, hp⟩ := List.mem_map.mp hl
        rw [← hp] at hdl
        rw [(List.mem_replicate.mp hdl).2]
  · unfold printCBList at hd
    split at hd
    · exact absurd hd (List.not_mem_nil d)
    · rcases List.mem_cons.mp hd with h | h
      · rw [h]
      · obtain ⟨l, hl, hdl⟩ := List.mem_flatten.mp h
        obtain ⟨p, _, hp⟩ := List.mem_map.mp hl
        rw [← hp] at hdl
        rw [(List.mem_replicate.mp hdl).2]
  · unfold print_object_list at hd
    split at hd
    · exact absurd hd (List.not_mem_nil d)
    · rcases List.mem_cons.mp hd with h | h
      · rw [h]
      · obtain ⟨p, _, hp⟩ := List.mem_map.mp h
        rw [← hp]

/-- C33 (amended): `vkDestroyDevice` sends, after its other messages (none of
which has the code `MEMTRACK_MEMORY_LEAK`), one `MEMTRACK_MEMORY_LEAK` warning
carrying the `mem` handle of the record for every memory record of non-zero
allocation size, in table order, and none for the records of size zero.  In the
final state the command buffer table and the queue table are empty; the memory
table is not emptied: every memory record is still there, and so are the
object, fence and swap chain tables. -/
theorem vkDestroyDevice_leak_report (s : State) (device : Handle) (result : VkResult) :
    (∃ pre : List Diag,
      (vkDestroyDevice s device result).msgs = pre ++ s.memObjMap.filterMap leakWarning ∧
      ∀ d, d ∈ pre → d.msgCode ≠ MEMTRACK_MEMORY_LEAK) ∧
    (vkDestroyDevice s device result).ret = result ∧
    (vkDestroyDevice s device result).st.cbMap = [] ∧
    (vkDestroyDevice s device result).st.queueMap = [] ∧
    (∀ m, (lookup (vkDestroyDevice s device result).st.memObjMap m).isSome =
      (lookup s.memObjMap m).isSome) ∧
    (vkDestroyDevice s device result).st.objectMap = s.objectMap ∧
    (vkDestroyDevice s device result).st.fenceMap = s.fenceMap ∧
    (vkDestroyDevice s device result).st.swapChainMap = s.swapChainMap := by
  obtain ⟨h1, h2, h3, h4, h5, h6, h7, h8⟩ := delete_cmd_buf_info_list_leaks s
  have hmsgs : (vkDestroyDevice s device result).msgs =
      ((⟨VK_DBG_MSG_UNKNOWN, device, MEMTRACK_NONE⟩ ::
          (print_mem_list s ++ printCBList s ++ print_object_list s)) ++
        (delete_cmd_buf_info_list s).msgs) ++
      (delete_cmd_buf_info_list s).st.memObjMap.filterMap leakWarning := by
    simp only [vkDestroyDevice, h3, Bool.true_eq_false, if_false, List.append_nil]
    rfl
  refine ⟨⟨_, by rw [hmsgs, h1], ?_⟩, rfl, ?_, rfl, ?_, ?_, ?_, ?_⟩
  · intro d hd hleak
    rcases List.mem_append.mp hd with h | h
    · rcases List.mem_cons.mp h with h0 | h0
      · rw [h0] at hleak
        exact MEM_TRACK_ERROR.noConfusion hleak
      · rw [print_lists_code s d h0] at hleak
        exact MEM_TRACK_ERROR.noConfusion hleak
    · rw [h2 d h] at hleak
      exact MEM_TRACK_ERROR.noConfusion hleak
  · exact h4
  · exact h8
  · exact h5
  · exact h6
  · exact h7

/-- C33 as stated fails: after `leakTrace` (memory 1 allocated with 1024 bytes,
device destroyed) the warning `MEMTRACK_MEMORY_LEAK` for memory 1 has been
sent, and the memory table still holds the record of memory 1. -/
theorem vkDestroyDevice_keeps_memory_table :
    (⟨VK_DBG_MSG_WARNING, 1, MEMTRACK_MEMORY_LEAK⟩ : Diag) ∈
      (vkDestroyDevice (vkAllocMemory (State.init 0) alloc1024 1 VkResult.VK_SUCCESS).st 11
        VkResult.VK_SUCCESS).msgs ∧
    ∃ s : State, run (State.init 0) leakTrace = some s ∧ Reachable s ∧
      lookup s.memObjMap 1 =
        some { refCount := 0, mem := 1, allocInfo := { allocationSize := 1024, memProps := 0 },
               pObjBindings := [], pCmdBufferBindings := [] } ∧
      s.memObjMap ≠ [] ∧ s.cbMap = [] ∧ s.queueMap = [] := by
  have hrun : run (State.init 0) leakTrace =
      some { State.init 0 with
             memObjMap := [(1, { refCount := 0, mem := 1,
                                 allocInfo := { allocationSize := 1024, memProps := 0 },
                                 pObjBindings := [], pCmdBufferBindings := [] })] } := by
    decide
  refine ⟨by decide, _, hrun, reachable_run _ _ _ (Reachable.init 0) hrun, rfl, by decide, rfl,
    rfl⟩

/-! ## Reference lists hold no handle twice -/

theorem tableAll_assign {V : Type} (P : V → Prop) (t : Table V) (k : Handle) (v : V)
    (h : TableAll P t) (hv : P v) : TableAll P (assign t k v) := by
  intro k1 v1 h1
  by_cases hk : k1 = k
  · subst hk
    rw [lookup_assign_self] at h1
    cases h1
    exact hv
  · rw [lookup_assign_ne _ _ _ _ hk] at h1
    exact h _ _ h1

theorem tableAll_erase {V : Type} (P : V → Prop) (t : Table V) (k : Handle)
    (h : TableAll P t) : TableAll P (erase t k) := by
  intro k1 v1 h1
  by_cases hk : k1 = k
  · subst hk
    rw [lookup_erase_self] at h1
    cases h1
  · rw [lookup_erase_ne _ _ _ hk] at h1
    exact h _ _ h1

theorem nodup_of_maps (s s1 : State) (h : ReferenceListsNodup s)
    (hcb : s1.cbMap = s.cbMap) (hmem : s1.memObjMap = s.memObjMap) :
    ReferenceListsNodup s1 := by
  unfold ReferenceListsNodup at *
  rw [hcb, hmem]
  exact h

theorem nodup_of_tables (s : State)
    (h1 : TableAll (fun ci : MT_CB_INFO => ci.pMemObjList.Nodup) s.cbMap)
    (h2 : TableAll (fun mi : MT_MEM_OBJ_INFO => mi.pCmdBufferBindings.Nodup) s.memObjMap) :
    ReferenceListsNodup s := ⟨h1, h2⟩

theorem add_cmd_buf_info_nodup (s : State) (cb : Handle) (h : ReferenceListsNodup s) :
    ReferenceListsNodup (add_cmd_buf_info s cb) := by
  refine nodup_of_tables _ ?_ h.2
  apply tableAll_assign _ _ _ _ h.1
  show ((lookup s.cbMap cb).getD MT_CB_INFO.zero).pMemObjList.Nodup
  cases hl : lookup s.cbMap cb with
  | none => exact List.nodup_nil
  | some ci => exact h.1 cb ci hl

theorem add_mem_obj_info_nodup (s : State) (mem : Handle) (a : Option VkMemoryAllocInfo)
    (h : ReferenceListsNodup s) : ReferenceListsNodup (add_mem_obj_info s mem a) := by
  refine nodup_of_tables _ h.1 ?_
  apply tableAll_assign _ _ _ _ h.2
  show ((lookup s.memObjMap mem).getD MT_MEM_OBJ_INFO.zero).pCmdBufferBindings.Nodup
  cases hl : lookup s.memObjMap mem with
  | none => exact List.nodup_nil
  | some mi => exact h.2 mem mi hl

theorem update_nodup (s : State) (cb mem : Handle) (h : ReferenceListsNodup s) :
    ReferenceListsNodup (update_cmd_buf_and_mem_references s cb mem).st := by
  cases hm : lookup s.memObjMap mem with
  | none =>
    simp only [update_cmd_buf_and_mem_references, get_mem_obj_info, hm]
    exact h
  | some mi =>
    by_cases hin : cb ∈ mi.pCmdBufferBindings
    · cases hc : lookup s.cbMap cb with
      | none =>
        simp only [update_cmd_buf_and_mem_references, get_mem_obj_info, hm, hin, if_true,
          get_cmd_buf_info, hc]
        exact h
      | some ci =>
        by_cases hmin : mem ∈ ci.pMemObjList
        · simp only [update_cmd_buf_and_mem_references, get_mem_obj_info, hm, hin, if_true,
            get_cmd_buf_info, hc, hmin]
          exact h
        · simp only [update_cmd_buf_and_mem_references, get_mem_obj_info, hm, hin, if_true,
            get_cmd_buf_info, hc, hmin, if_false]
          refine nodup_of_tables _ ?_ h.2
          apply tableAll_assign _ _ _ _ h.1
          exact List.nodup_cons.mpr ⟨hmin, h.1 cb ci hc⟩
    · have hmem : TableAll (fun mi : MT_MEM_OBJ_INFO => mi.pCmdBufferBindings.Nodup)
          (assign s.memObjMap mem
            { mi with pCmdBufferBindings := cb :: mi.pCmdBufferBindings,
                      refCount := inc32 mi.refCount }) := by
        apply tableAll_assign _ _ _ _ h.2
        exact List.nodup_cons.mpr ⟨hin, h.2 mem mi hm⟩
      cases hc : lookup s.cbMap cb with
      | none =>
        simp only [update_cmd_buf_and_mem_references, get_mem_obj_info, hm, hin, if_false,
          get_cmd_buf_info, hc]
        exact nodup_of_tables _ h.1 hmem
      | some ci =>
        by_cases hmin : mem ∈ ci.pMemObjList
        · simp only [update_cmd_buf_and_mem_references, get_mem_obj_info, hm, hin, if_false,
            get_cmd_buf_info, hc, hmin, if_true]
          exact nodup_of_tables _ h.1 hmem
        · simp only [update_cmd_buf_and_mem_references, get_mem_obj_info, hm, hin, if_false,
            get_cmd_buf_info, hc, hmin]
          refine nodup_of_tables _ ?_ hmem
          apply tableAll_assign _ _ _ _ h.1
          exact List.nodup_cons.mpr ⟨hmin, h.1 cb ci hc⟩

theorem remove_nodup (s : State) (cb m : Handle) (h : ReferenceListsNodup s) :
    ReferenceListsNodup (remove_cmd_buf_and_mem_reference s cb m) := by
  unfold remove_cmd_buf_and_mem_reference get_mem_obj_info
  cases hm : lookup s.memObjMap m with
  | none => exact h
  | some mi =>
    refine nodup_of_tables _ h.1 ?_
    apply tableAll_assign _ _ _ _ h.2
    exact (h.2 m mi hm).filter _

theorem foldl_remove_nodup (cb : Handle) (l : List Handle) :
    ∀ s : State, ReferenceListsNodup s →
      ReferenceListsNodup (l.foldl (fun st m => remove_cmd_buf_and_mem_reference st cb m) s) := by
  induction l with
  | nil => intro s h; exact h
  | cons m rest ih =>
    intro s h
    simp only [List.foldl_cons]
    exact ih _ (remove_nodup s cb m h)

theorem clear_nodup (s : State) (cb : Handle) (h : ReferenceListsNodup s) :
    ReferenceListsNodup (clear_cmd_buf_and_mem_references s cb).st := by
  unfold clear_cmd_buf_and_mem_references get_cmd_buf_info
  cases hc : lookup s.cbMap cb with
  | none => exact h
  | some ci =>
    have h1 := foldl_remove_nodup cb ci.pMemObjList s h
    refine nodup_of_tables _ ?_ h1.2
    apply tableAll_assign _ _ _ _ h1.1
    exact List.nodup_nil

theorem checkCBCompleted_nodup (s : State) (cb : Handle) (h : ReferenceListsNodup s) :
    ReferenceListsNodup (checkCBCompleted s cb).st :=
  nodup_of_maps s _ h (checkCBCompleted_memObjMap s cb).2.1 (checkCBCompleted_memObjMap s cb).1

theorem delete_cmd_buf_info_nodup (s : State) (cb : Handle) (h : ReferenceListsNodup s) :
    ReferenceListsNodup (delete_cmd_buf_info s cb).st := by
  have h1 := clear_nodup s cb h
  unfold delete_cmd_buf_info
  dsimp only
  split
  · exact nodup_of_tables _ (tableAll_erase _ _ _ h1.1) h1.2
  · exact h1

theorem delete_cmd_buf_info_list_nodup (s : State) (h : ReferenceListsNodup s) :
    ReferenceListsNodup (delete_cmd_buf_info_list s).st := by
  have key : ∀ (l : List Handle) (acc : List Diag × State), ReferenceListsNodup acc.2 →
      ReferenceListsNodup (l.foldl (fun (a : List Diag × State) cb =>
          (a.1 ++ (clear_cmd_buf_and_mem_references a.2 cb).msgs,
            (clear_cmd_buf_and_mem_references a.2 cb).st)) acc).2 := by
    intro l
    induction l with
    | nil => intro acc hacc; exact hacc
    | cons cb rest ih =>
      intro acc hacc
      simp only [List.foldl_cons]
      exact ih _ (clear_nodup acc.2 cb hacc)
  have hk := key (s.cbMap.map (fun p => p.1)) (([] : List Diag), s) h
  refine nodup_of_tables _ ?_ hk.2
  intro k v hkv
  simp [delete_cmd_buf_info_list, lookup] at hkv

theorem freeLoop_nodup (M : Handle) (fuel : Nat) :
    ∀ (l : List Handle) (s s1 : State) (d : List Diag), ReferenceListsNodup s →
      freeLoop M fuel l s = some (d, s1) → ReferenceListsNodup s1 := by
  induction fuel with
  | zero =>
    intro l s s1 d h hl
    cases l with
    | nil =>
      simp only [freeLoop, Option.some.injEq, Prod.mk.injEq] at hl
      rw [← hl.2]
      exact h
    | cons cb rest => simp [freeLoop] at hl
  | succ n ih =>
    intro l s s1 d h hl
    cases l with
    | nil =>
      simp only [freeLoop, Option.some.injEq, Prod.mk.injEq] at hl
      rw [← hl.2]
      exact h
    | cons cb rest =>
      have hc := checkCBCompleted_nodup s cb h
      have hr := clear_nodup _ cb hc
      simp only [freeLoop] at hl
      split at hl
      · split at hl
        · split at hl
          · simp only [Option.map_eq_some', Prod.mk.injEq] at hl
            obtain ⟨p, hp, _, hp2⟩ := hl
            obtain ⟨pd, ps⟩ := p
            simp only at hp2
            subst hp2
            exact ih _ _ _ _ hr hp
          · split at hl
            · split at hl
              · exact Option.noConfusion hl
              · simp only [Option.some.injEq, Prod.mk.injEq] at hl
                rw [← hl.2]
                exact hr
            · simp only [Option.map_eq_some', Prod.mk.injEq] at hl
              obtain ⟨p, hp, _, hp2⟩ := hl
              obtain ⟨pd, ps⟩ := p
              simp only at hp2
              subst hp2
              exact ih _ _ _ _ hr hp
        · simp only [Option.map_eq_some', Prod.mk.injEq] at hl
          obtain ⟨p, hp, _, hp2⟩ := hl
          obtain ⟨pd, ps⟩ := p
          simp only at hp2
          subst hp2
          exact ih _ _ _ _ hc hp
      · simp only [Option.some.injEq, Prod.mk.injEq] at hl
        rw [← hl.2]
        exact h

theorem report_nodup (s : State) (mem : Handle) (r : MT_MEM_OBJ_INFO)
    (h : ReferenceListsNodup s) :
    ReferenceListsNodup (reportMemReferencesAndCleanUp s mem r).st := by
  refine nodup_of_tables _ h.1 ?_
  apply tableAll_assign _ _ _ _ h.2
  exact List.nodup_nil

theorem deleteMemObjInfo_nodup (s : State) (mem : Handle) (h : ReferenceListsNodup s) :
    ReferenceListsNodup (deleteMemObjInfo s mem).st := by
  unfold deleteMemObjInfo
  split
  · exact nodup_of_tables _ h.1 (tableAll_erase _ _ _ h.2)
  · exact h

theorem freeMemObjInfo_nodup (s : State) (mem : Handle) (internal : Bool) (r : Out Bool)
    (h : ReferenceListsNodup s) (hr : freeMemObjInfo s mem internal = some r) :
    ReferenceListsNodup r.st := by
  unfold freeMemObjInfo at hr
  split at hr
  · simp only [Option.some.injEq] at hr
    rw [← hr]
    exact h
  · rename_i pInfo hpi
    split at hr
    · simp only [Option.some.injEq] at hr
      rw [← hr]
      exact h
    · split at hr
      · exact Option.noConfusion hr
      · rename_i d1 s1 hloop
        have h1 := freeLoop_nodup mem _ _ _ _ _ h hloop
        split at hr
        · exact Option.noConfusion hr
        · rename_i pInfo1 hp1
          simp only [Option.some.injEq] at hr
          rw [← hr]
          apply deleteMemObjInfo_nodup
          split
          · exact report_nodup _ _ _ h1
          · exact h1

theorem clear_object_binding_nodup (s : State) (o : Handle) (r : Out Bool)
    (h : ReferenceListsNodup s) (hr : clear_object_binding s o = some r) :
    ReferenceListsNodup r.st := by
  unfold clear_object_binding at hr
  split at hr
  · simp only [Option.some.injEq] at hr
    rw [← hr]
    exact h
  · split at hr
    · simp only [Option.some.injEq] at hr
      rw [← hr]
      exact h
    · split at hr
      · exact Option.noConfusion hr
      · rename_i mi hmi
        split at hr
        · simp only [Option.some.injEq] at hr
          rw [← hr]
          exact h
        · split at hr
          · simp only [Option.some.injEq] at hr
            rw [← hr]
            refine nodup_of_tables _ h.1 ?_
            apply tableAll_assign _ _ _ _ h.2
            exact h.2 _ mi hmi
          · simp only [Option.some.injEq] at hr
            rw [← hr]
            exact h

theorem set_object_binding_nodup (s : State) (o mem : Handle) (r : Out Bool)
    (h : ReferenceListsNodup s) (hr : set_object_binding s o mem = some r) :
    ReferenceListsNodup r.st := by
  unfold set_object_binding at hr
  split at hr
  · simp only [Option.some.injEq] at hr
    rw [← hr]
    exact h
  · split at hr
    · simp only [Option.some.injEq] at hr
      rw [← hr]
      exact h
    · split at hr
      · simp only [Option.some.injEq] at hr
        rw [← hr]
        exact h
      · rename_i pInfo hpi
        split at hr
        · split at hr
          · exact Option.noConfusion hr
          · simp only [Option.some.injEq] at hr
            rw [← hr]
            exact h
        · simp only [Option.some.injEq] at hr
          rw [← hr]
          refine nodup_of_tables _ h.1 ?_
          apply tableAll_assign _ _ _ _ h.2
          exact h.2 mem pInfo hpi

theorem set_sparse_buffer_binding_nodup (s : State) (o mem : Handle) (r : Out Bool)
    (h : ReferenceListsNodup s) (hr : set_sparse_buffer_binding s o mem = some r) :
    ReferenceListsNodup r.st := by
  unfold set_sparse_buffer_binding at hr
  split at hr
  · simp only [Option.map_eq_some'] at hr
    obtain ⟨c, hc, hcr⟩ := hr
    rw [← hcr]
    exact clear_object_binding_nodup s o c h hc
  · split at hr
    · simp only [Option.some.injEq] at hr
      rw [← hr]
      exact h
    · split at hr
      · simp only [Option.some.injEq] at hr
        rw [← hr]
        exact h
      · rename_i pInfo hpi
        have key : ∀ s1 : State, ReferenceListsNodup s1 →
            (match (‹MT_OBJ_INFO›).pMemObjInfo with
              | none =>
                some (⟨true, [],
                  { s1 with objectMap := assign s1.objectMap o
                              { (‹MT_OBJ_INFO›) with pMemObjInfo := some mem } }⟩ : Out Bool)
              | some _ =>
                match clear_object_binding s1 o with
                | none => none
                | some c =>
                  if c.ret then none
                  else
                    some ⟨true, c.msgs ++ [⟨VK_DBG_MSG_UNKNOWN, o, MEMTRACK_NONE⟩],
                      { c.st with objectMap := assign c.st.objectMap o
                                    { (‹MT_OBJ_INFO›) with pMemObjInfo := some mem } }⟩) = some r →
            ReferenceListsNodup r.st := by
          intro s1 h1 hr1
          split at hr1
          · simp only [Option.some.injEq] at hr1
            rw [← hr1]
            exact nodup_of_maps _ _ h1 rfl rfl
          · split at hr1
            · exact Option.noConfusion hr1
            · rename_i c hc
              split at hr1
              · exact Option.noConfusion hr1
              · simp only [Option.some.injEq] at hr1
                rw [← hr1]
                exact nodup_of_maps _ _ (clear_object_binding_nodup _ o c h1 hc) rfl rfl
        by_cases hin : o ∈ pInfo.pObjBindings
        · simp only [hin, if_true] at hr
          exact key s h hr
        · simp only [hin, if_false] at hr
          let pInfo1 : MT_MEM_OBJ_INFO :=
            { pInfo with pObjBindings := o :: pInfo.pObjBindings, refCount := inc32 pInfo.refCount }
          refine key { s with memObjMap := assign s.memObjMap mem pInfo1 } ?_ hr
          refine nodup_of_tables _ h.1 ?_
          apply tableAll_assign _ _ _ _ h.2
          exact h.2 mem pInfo hpi

theorem add_fence_info_refs (s : State) (fence queue : Handle) :
    (add_fence_info s fence queue).st.cbMap = s.cbMap ∧
    (add_fence_info s fence queue).st.memObjMap = s.memObjMap := by
  unfold add_fence_info
  by_cases hf : fence ≠ 0
  · simp only [hf, if_true, ne_eq, not_false_eq_true, and_self]
  · simp only [hf, if_false, and_self]

theorem update_fence_tracking_refs (s : State) (fence : Handle) :
    (update_fence_tracking s fence).cbMap = s.cbMap ∧
    (update_fence_tracking s fence).memObjMap = s.memObjMap := by
  unfold update_fence_tracking get_object_info
  dsimp only
  split <;> split <;> (try split) <;> (try split) <;> exact ⟨rfl, rfl⟩

theorem foldl_update_fence_tracking_refs (l : List Handle) :
    ∀ s : State, (l.foldl update_fence_tracking s).cbMap = s.cbMap ∧
      (l.foldl update_fence_tracking s).memObjMap = s.memObjMap := by
  induction l with
  | nil => intro s; exact ⟨rfl, rfl⟩
  | cons f rest ih =>
    intro s
    simp only [List.foldl_cons]
    obtain ⟨h1, h2⟩ := ih (update_fence_tracking s f)
    obtain ⟨h3, h4⟩ := update_fence_tracking_refs s f
    exact ⟨h1.trans h3, h2.trans h4⟩

theorem submitLoop_nodup (fenceId fence queue : Handle) (cbs : List Handle) :
    ∀ s s1 : State, ReferenceListsNodup s → submitLoop fenceId fence queue cbs s = some s1 →
      ReferenceListsNodup s1 := by
  induction cbs with
  | nil =>
    intro s s1 h hs
    simp only [submitLoop, Option.some.injEq] at hs
    rw [← hs]
    exact h
  | cons cb rest ih =>
    intro s s1 h hs
    cases hc : lookup s.cbMap cb with
    | none => simp [submitLoop, get_cmd_buf_info, hc] at hs
    | some ci =>
      simp only [submitLoop, get_cmd_buf_info, hc] at hs
      refine ih _ s1 ?_ hs
      refine nodup_of_tables _ ?_ h.2
      apply tableAll_assign _ _ _ _ h.1
      exact h.1 cb ci hc

theorem destroyImagesLoop_nodup (l : List VkSwapChainImageInfoWSI) :
    ∀ (acc p : List Diag × State), ReferenceListsNodup acc.2 →
      destroyImagesLoop l acc = some p → ReferenceListsNodup p.2 := by
  induction l with
  | nil =>
    intro acc p h hp
    simp only [destroyImagesLoop, Option.some.injEq] at hp
    rw [← hp]
    exact h
  | cons it rest ih =>
    intro acc p h hp
    simp only [destroyImagesLoop] at hp
    split at hp
    · exact Option.noConfusion hp
    · rename_i c hc
      split at hp
      · exact Option.noConfusion hp
      · rename_i f hf
        refine ih _ p ?_ hp
        have h1 := clear_object_binding_nodup _ _ c h hc
        have h2 := freeMemObjInfo_nodup _ _ _ f h1 hf
        exact nodup_of_maps _ _ h2 rfl rfl

theorem addImagesLoop_nodup (flags : Nat) (l : List VkSwapChainImageInfoWSI) :
    ∀ (acc p : List Diag × State), ReferenceListsNodup acc.2 →
      addImagesLoop flags l acc = some p → ReferenceListsNodup p.2 := by
  induction l with
  | nil =>
    intro acc p h hp
    simp only [addImagesLoop, Option.some.injEq] at hp
    rw [← hp]
    exact h
  | cons it rest ih =>
    intro acc p h hp
    simp only [addImagesLoop] at hp
    split at hp
    · exact Option.noConfusion hp
    · rename_i b hb
      refine ih _ p ?_ hp
      have h1 : ReferenceListsNodup
          (add_object_info acc.2 it.image VK_STRUCTURE_TYPE_MAX_ENUM flags) :=
        nodup_of_maps _ _ h rfl rfl
      have h2 := add_mem_obj_info_nodup _ it.memory none h1
      exact set_object_binding_nodup _ _ _ b h2 hb

theorem vkDestroyObject_nodup (s : State) (t : VkObjectType) (o : Handle) (result : VkResult)
    (r : Out VkResult) (h : ReferenceListsNodup s) (hr : vkDestroyObject s t o result = some r) :
    ReferenceListsNodup r.st := by
  have hA : ReferenceListsNodup (delete_cmd_buf_info s o).st := delete_cmd_buf_info_nodup s o h
  have hB : ReferenceListsNodup (delete_fence_info s o) := nodup_of_maps _ _ h rfl rfl
  have hclear : ∀ (s1 : State) (c : Out Bool), (s1 = (delete_cmd_buf_info s o).st ∨
      s1 = delete_fence_info s o ∨ s1 = s) → clear_object_binding s1 o = some c →
      ReferenceListsNodup s1 ∧ ReferenceListsNodup c.st := by
    intro s1 c hs1 hc
    have h1 : ReferenceListsNodup s1 := by
      rcases hs1 with e | e | e <;> rw [e] <;> assumption
    exact ⟨h1, clear_object_binding_nodup s1 o c h1 hc⟩
  cases t
  all_goals
    unfold vkDestroyObject at hr
    dsimp only at hr
    split at hr
    · simp only [Option.some.injEq] at hr
      rw [← hr]
      first | exact hA | exact hB
    · split at hr
      · simp only [Option.some.injEq] at hr
        rw [← hr]
        first
          | exact nodup_of_maps _ _ hA rfl rfl
          | exact nodup_of_maps _ _ hB rfl rfl
      · split at hr
        · exact Option.noConfusion hr
        · split at hr
          · split at hr
            · exact Option.noConfusion hr
            · rename_i c hc
              split at hr
              · exact Option.noConfusion hr
              · rename_i f hf
                simp only [Option.some.injEq] at hr
                rw [← hr]
                have h2 := (hclear _ c (by first
                  | exact Or.inl rfl
                  | exact Or.inr (Or.inl rfl)
                  | exact Or.inr (Or.inr rfl)) hc).2
                have h3 := freeMemObjInfo_nodup _ _ _ f h2 hf
                exact nodup_of_maps _ _ h3 rfl rfl
          · split at hr
            · exact Option.noConfusion hr
            · rename_i c hc
              simp only [Option.some.injEq] at hr
              rw [← hr]
              have h2 := (hclear _ c (by first
                | exact Or.inl rfl
                | exact Or.inr (Or.inl rfl)
                | exact Or.inr (Or.inr rfl)) hc).2
              exact nodup_of_maps _ _ h2 rfl rfl

theorem cmdReference_nodup (s : State) (cb o : Handle) (r : Out Unit)
    (h : ReferenceListsNodup s) (hr : cmdReference s cb o = some r) :
    ReferenceListsNodup r.st := by
  unfold cmdReference at hr
  split at hr
  · exact Option.noConfusion hr
  · simp only [Option.some.injEq] at hr
    rw [← hr]
    exact update_nodup s cb _ h

theorem vkGetSwapChainInfoWSI_nodup (s : State) (c : Handle) (p : Bool)
    (d : List VkSwapChainImageInfoWSI) (f : Nat) (result : VkResult) (r : Out VkResult)
    (h : ReferenceListsNodup s) (hr : vkGetSwapChainInfoWSI s c p d f result = some r) :
    ReferenceListsNodup r.st := by
  unfold vkGetSwapChainInfoWSI at hr
  split at hr
  · split at hr
    · exact Option.noConfusion hr
    · split at hr
      · simp only [Option.map_eq_some'] at hr
        obtain ⟨q, hq, hqr⟩ := hr
        rw [← hqr]
        exact addImagesLoop_nodup f d _ q (nodup_of_maps _ _ h rfl rfl) hq
      · split at hr
        · simp only [Option.some.injEq] at hr
          rw [← hr]
          exact h
        · simp only [Option.some.injEq] at hr
          rw [← hr]
          exact h
  · simp only [Option.some.injEq] at hr
    rw [← hr]
    exact h

/-- One defined call keeps the reference lists free of repetition. -/
theorem applyOp_nodup (s s1 : State) (op : Op) (h : ReferenceListsNodup s)
    (hop : applyOp s op = some s1) : ReferenceListsNodup s1 := by
  cases op with
  | getDeviceQueue q r =>
    simp only [applyOp, Option.some.injEq] at hop
    rw [← hop]
    unfold vkGetDeviceQueue
    split
    · exact nodup_of_maps _ _ h rfl rfl
    · exact h
  | queueSubmit q cbs f r =>
    simp only [applyOp, Option.map_eq_some'] at hop
    obtain ⟨x, hx, hx2⟩ := hop
    simp only [vkQueueSubmit, Option.map_eq_some'] at hx
    obtain ⟨y, hy, hy2⟩ := hx
    rw [← hx2, ← hy2]
    exact submitLoop_nodup _ _ _ _ _ y
      (nodup_of_maps _ _ h (add_fence_info_refs s f q).1 (add_fence_info_refs s f q).2) hy
  | allocMemory a m r =>
    simp only [applyOp, Option.some.injEq] at hop
    rw [← hop]
    exact add_mem_obj_info_nodup s m a h
  | freeMemory m r =>
    simp only [applyOp, Option.map_eq_some'] at hop
    obtain ⟨x, hx, hx2⟩ := hop
    simp only [vkFreeMemory, Option.map_eq_some'] at hx
    obtain ⟨y, hy, hy2⟩ := hx
    rw [← hx2, ← hy2]
    exact freeMemObjInfo_nodup s m false y h hy
  | destroyObject t o r =>
    simp only [applyOp, Option.map_eq_some'] at hop
    obtain ⟨x, hx, hx2⟩ := hop
    rw [← hx2]
    exact vkDestroyObject_nodup s t o r x h hx
  | bindObjectMemory o m r =>
    simp only [applyOp, Option.map_eq_some'] at hop
    obtain ⟨x, hx, hx2⟩ := hop
    simp only [vkBindObjectMemory, Option.map_eq_some'] at hx
    obtain ⟨y, hy, hy2⟩ := hx
    rw [← hx2, ← hy2]
    exact set_object_binding_nodup s o m y h hy
  | queueBindSparseBufferMemory b m r =>
    simp only [applyOp, Option.map_eq_some'] at hop
    obtain ⟨x, hx, hx2⟩ := hop
    simp only [vkQueueBindSparseBufferMemory, Option.map_eq_some'] at hx
    obtain ⟨y, hy, hy2⟩ := hx
    rw [← hx2, ← hy2]
    exact set_sparse_buffer_binding_nodup s b m y h hy
  | createObject o t f r =>
    simp only [applyOp, Option.some.injEq] at hop
    rw [← hop]
    unfold vkCreateObject
    split
    · exact nodup_of_maps _ _ h rfl rfl
    · exact h
  | resetFences fs r =>
    simp only [applyOp, Option.some.injEq] at hop
    rw [← hop]
    unfold vkResetFences
    split
    · have hf := resetLoop_frame fs ⟨r, [], s⟩
      refine nodup_of_maps _ _ h ?_ ?_
      · rw [hf]
      · rw [hf]
    · exact h
  | getFenceStatus f r =>
    simp only [applyOp, Option.some.injEq] at hop
    rw [← hop]
    unfold vkGetFenceStatus
    split
    · exact nodup_of_maps _ _ h (update_fence_tracking_refs s f).1
        (update_fence_tracking_refs s f).2
    · exact h
  | waitForFences fs w r =>
    simp only [applyOp, Option.some.injEq] at hop
    rw [← hop]
    unfold vkWaitForFences
    dsimp only
    split
    · exact nodup_of_maps _ _ h (foldl_update_fence_tracking_refs fs s).1
        (foldl_update_fence_tracking_refs fs s).2
    · exact h
  | queueWaitIdle q r =>
    simp only [applyOp, Option.some.injEq] at hop
    rw [← hop]
    unfold vkQueueWaitIdle
    split
    · exact nodup_of_maps _ _ h rfl rfl
    · exact h
  | deviceWaitIdle r =>
    simp only [applyOp, Option.some.injEq] at hop
    rw [← hop]
    unfold vkDeviceWaitIdle
    split
    · exact nodup_of_maps _ _ h rfl rfl
    · exact h
  | createCommandBuffer cb r =>
    simp only [applyOp, Option.some.injEq] at hop
    rw [← hop]
    unfold vkCreateCommandBuffer
    dsimp only
    split
    · exact add_cmd_buf_info_nodup s cb h
    · exact h
  | beginCommandBuffer cb r =>
    simp only [applyOp, Option.some.injEq] at hop
    rw [← hop]
    exact clear_nodup _ cb (checkCBCompleted_nodup s cb h)
  | resetCommandBuffer cb r =>
    simp only [applyOp, Option.some.injEq] at hop
    rw [← hop]
    exact clear_nodup _ cb (checkCBCompleted_nodup s cb h)
  | cmdDrawIndirect cb b =>
    simp only [applyOp, vkCmdDrawIndirect, Option.map_eq_some'] at hop
    obtain ⟨x, hx, hx2⟩ := hop
    rw [← hx2]
    exact cmdReference_nodup s cb b x h hx
  | cmdCopyBuffer cb a b =>
    simp only [applyOp, vkCmdCopyBuffer, cmdReference2, Option.map_eq_some'] at hop
    obtain ⟨x, hx, hx2⟩ := hop
    rw [← hx2]
    split at hx
    · exact Option.noConfusion hx
    · rename_i a1 ha1
      split at hx
      · exact Option.noConfusion hx
      · rename_i b1 hb1
        simp only [Option.some.injEq] at hx
        rw [← hx]
        exact cmdReference_nodup _ cb b b1 (cmdReference_nodup s cb a a1 h ha1) hb1
  | destroyDevice d r =>
    simp only [applyOp, Option.some.injEq] at hop
    rw [← hop]
    exact nodup_of_maps _ _ (delete_cmd_buf_info_list_nodup s h) rfl rfl
  | createSwapChainWSI c r =>
    simp only [applyOp, Option.some.injEq] at hop
    rw [← hop]
    unfold vkCreateSwapChainWSI
    split
    · exact nodup_of_maps _ _ h rfl rfl
    · exact h
  | destroySwapChainWSI c r =>
    simp only [applyOp, vkDestroySwapChainWSI, Option.map_eq_some'] at hop
    obtain ⟨x, hx, hx2⟩ := hop
    rw [← hx2]
    split at hx
    · simp only [Option.some.injEq] at hx
      rw [← hx]
      exact h
    · simp only [Option.map_eq_some'] at hx
      obtain ⟨p, hp, hp2⟩ := hx
      rw [← hp2]
      exact nodup_of_maps _ _ (destroyImagesLoop_nodup _ _ p h hp) rfl rfl
  | getSwapChainInfoWSI c p d f r =>
    simp only [applyOp, Option.map_eq_some'] at hop
    obtain ⟨x, hx, hx2⟩ := hop
    rw [← hx2]
    exact vkGetSwapChainInfoWSI_nodup s c p d f r x h hx
  | mapMemory m r =>
    simp only [applyOp, vkMapMemory, Option.map_eq_some'] at hop
    obtain ⟨x, hx, hx2⟩ := hop
    rw [← hx2]
    split at hx
    · exact Option.noConfusion hx
    · split at hx
      · simp only [Option.some.injEq] at hx
        rw [← hx]
        exact h
      · simp only [Option.some.injEq] at hx
        rw [← hx]
        exact h

/-- C34: in every reachable tracker state no command buffer record lists a
memory handle twice and no memory record lists a command buffer handle
twice. -/
theorem reachable_reference_lists_nodup (s : State) (hs : Reachable s) :
    (∀ cb ci, lookup s.cbMap cb = some ci → ci.pMemObjList.Nodup) ∧
    (∀ m mi, lookup s.memObjMap m = some mi → mi.pCmdBufferBindings.Nodup) := by
  have h : ReferenceListsNodup s := by
    induction hs with
    | init level =>
      refine nodup_of_tables _ ?_ ?_
      · intro k v hkv
        simp [State.init, lookup] at hkv
      · intro k v hkv
        simp [State.init, lookup] at hkv
    | step op _ hop ih => exact applyOp_nodup _ _ op ih hop
  exact h

/-- Witness for C34: `inFlightState` is reachable; its command buffer 2 lists
memory 1 once and memory 1 lists command buffer 2 once. -/
theorem reachable_reference_lists_nodup_witness :
    (∀ cb ci, lookup inFlightState.cbMap cb = some ci → ci.pMemObjList.Nodup) ∧
    (∀ m mi, lookup inFlightState.memObjMap m = some mi → mi.pCmdBufferBindings.Nodup) :=
  reachable_reference_lists_nodup inFlightState
    (reachable_run inFlightTrace (State.init 0) inFlightState (Reachable.init 0) (by decide))

/-! ## Destroying an object that is bound to memory -/

theorem checkCBCompleted_no_warning (s : State) (cb : Handle) :
    ∀ d, d ∈ (checkCBCompleted s cb).msgs → d.msgType ≠ VK_DBG_MSG_WARNING := by
  intro d hd
  unfold checkCBCompleted at hd
  split at hd
  · simp only [List.mem_singleton] at hd
    rw [hd]
    simp
  · split at hd
    · dsimp only at hd
      split at hd
      · simp only [List.mem_singleton] at hd
        rw [hd]
        simp
      · exact absurd hd (List.not_mem_nil d)
    · exact absurd hd (List.not_mem_nil d)

theorem clear_no_warning (s : State) (cb : Handle) :
    ∀ d, d ∈ (clear_cmd_buf_and_mem_references s cb).msgs → d.msgType ≠ VK_DBG_MSG_WARNING := by
  intro d hd
  unfold clear_cmd_buf_and_mem_references at hd
  split at hd
  · simp only [List.mem_singleton] at hd
    rw [hd]
    simp
  · exact absurd hd (List.not_mem_nil d)

theorem freeLoop_no_warning (M : Handle) (fuel : Nat) :
    ∀ (l : List Handle) (s s1 : State) (d : List Diag), freeLoop M fuel l s = some (d, s1) →
      ∀ x, x ∈ d → x.msgType ≠ VK_DBG_MSG_WARNING := by
  induction fuel with
  | zero =>
    intro l s s1 d hl
    cases l with
    | nil =>
      simp only [freeLoop, Option.some.injEq, Prod.mk.injEq] at hl
      rw [← hl.1]
      intro x hx
      exact absurd hx (List.not_mem_nil x)
    | cons cb rest => simp [freeLoop] at hl
  | succ n ih =>
    intro l s s1 d hl
    cases l with
    | nil =>
      simp only [freeLoop, Option.some.injEq, Prod.mk.injEq] at hl
      rw [← hl.1]
      intro x hx
      exact absurd hx (List.not_mem_nil x)
    | cons cb rest =>
      have hc := checkCBCompleted_no_warning s cb
      have hr := clear_no_warning (checkCBCompleted s cb).st cb
      simp only [freeLoop] at hl
      split at hl
      · split at hl
        · split at hl
          · simp only [Option.map_eq_some', Prod.mk.injEq] at hl
            obtain ⟨p, hp, hp1, _⟩ := hl
            obtain ⟨pd, ps⟩ := p
            simp only at hp1
            rw [← hp1]
            intro x hx
            rcases List.mem_append.mp hx with h | h
            · rcases List.mem_append.mp h with h | h
              · exact hc x h
              · exact hr x h
            · exact ih _ _ _ _ hp x h
          · split at hl
            · split at hl
              · exact Option.noConfusion hl
              · simp only [Option.some.injEq, Prod.mk.injEq] at hl
                rw [← hl.1]
                intro x hx
                rcases List.mem_append.mp hx with h | h
                · exact hc x h
                · exact hr x h
            · simp only [Option.map_eq_some', Prod.mk.injEq] at hl
              obtain ⟨p, hp, hp1, _⟩ := hl
              obtain ⟨pd, ps⟩ := p
              simp only at hp1
              rw [← hp1]
              intro x hx
              rcases List.mem_append.mp hx with h | h
              · rcases List.mem_append.mp h with h | h
                · exact hc x h
                · exact hr x h
              · exact ih _ _ _ _ hp x h
        · simp only [Option.map_eq_some', Prod.mk.injEq] at hl
          obtain ⟨p, hp, hp1, _⟩ := hl
          obtain ⟨pd, ps⟩ := p
          simp only at hp1
          rw [← hp1]
          intro x hx
          rcases List.mem_append.mp hx with h | h
          · exact hc x h
          · exact ih _ _ _ _ hp x h
      · simp only [Option.some.injEq, Prod.mk.injEq] at hl
        rw [← hl.1]
        intro x hx
        exact absurd hx (List.not_mem_nil x)

/-- The internal free of a memory whose command buffer list holds no handle
twice is defined, erases the record and sends no warning. -/
theorem freeMemObjInfo_internal (s : State) (M : Handle) (pInfo : MT_MEM_OBJ_INFO)
    (h : lookup s.memObjMap M = some pInfo) (hnd : pInfo.pCmdBufferBindings.Nodup) :
    ∃ r : Out Bool, freeMemObjInfo s M true = some r ∧ lookup r.st.memObjMap M = none ∧
      ∀ d, d ∈ r.msgs → d.msgType ≠ VK_DBG_MSG_WARNING := by
  obtain ⟨p, hp⟩ := freeLoop_defined_of_nodup M pInfo.pCmdBufferBindings.length
    pInfo.pCmdBufferBindings s hnd (Nat.le_refl _)
  obtain ⟨d1, s1⟩ := p
  have hsome := freeLoop_mem_isSome M M _ _ s s1 d1 hp
  rw [h] at hsome
  cases h1 : lookup s1.memObjMap M with
  | none => rw [h1] at hsome; simp at hsome
  | some r1 =>
    have hd1 := freeLoop_no_warning M _ _ _ _ _ hp
    have hcond : ¬ (pInfo.allocInfo.allocationSize = 0 ∧ true = false) := by
      rintro ⟨_, hb⟩
      exact Bool.noConfusion hb
    have hfree : freeMemObjInfo s M true =
        some ⟨decide (r1.refCount = 0),
          d1 ++ (if r1.refCount ≠ 0 then reportMemReferencesAndCleanUp s1 M r1
                 else ⟨(), [], s1⟩).msgs ++
            (deleteMemObjInfo (if r1.refCount ≠ 0 then reportMemReferencesAndCleanUp s1 M r1
                 else ⟨(), [], s1⟩).st M).msgs,
          (deleteMemObjInfo (if r1.refCount ≠ 0 then reportMemReferencesAndCleanUp s1 M r1
                 else ⟨(), [], s1⟩).st M).st⟩ := by
      simp only [freeMemObjInfo, get_mem_obj_info, h, hcond, if_false, hp, h1]
    refine ⟨_, hfree, freeMemObjInfo_erases s M true pInfo _ h (Or.inr rfl) hfree, ?_⟩
    intro d hd
    simp only [List.mem_append] at hd
    rcases hd with (hd | hd) | hd
    · exact hd1 d hd
    · split at hd
      · simp only [reportMemReferencesAndCleanUp, List.mem_append, map_of_length_pos,
          List.mem_map] at hd
        rcases hd with (hd | ⟨a, _, ha⟩) | ⟨a, _, ha⟩
        · split at hd
          · simp only [List.mem_singleton] at hd
            rw [hd]
            simp
          · exact absurd hd (List.not_mem_nil d)
        · rw [← ha]
          simp
        · rw [← ha]
          simp
      · exact absurd hd (List.not_mem_nil d)
    · unfold deleteMemObjInfo at hd
      split at hd
      · exact absurd hd (List.not_mem_nil d)
      · simp only [List.mem_singleton] at hd
        rw [hd]
        simp

/-- What `vkDestroyObject` does after its type-specific step, in the state `sp`
that step left: the binding is cleared, then swap chain memory is freed
through the internal path. -/
theorem clear_then_free (sp : State) (o m : Handle) (oi : MT_OBJ_INFO) (mi : MT_MEM_OBJ_INFO)
    (ho : lookup sp.objectMap o = some oi) (he : oi.pMemObjInfo = some m)
    (hm : lookup sp.memObjMap m = some mi) (hin : o ∈ mi.pObjBindings)
    (hnd : mi.pCmdBufferBindings.Nodup) :
    ∃ (c : Out Bool) (f : Out Bool), clear_object_binding sp o = some c ∧ c.ret = true ∧
      c.msgs = [] ∧
      lookup c.st.memObjMap m =
        some { mi with refCount := (mi.refCount + 4294967295) % 4294967296,
                       pObjBindings := mi.pObjBindings.erase o } ∧
      freeMemObjInfo c.st m true = some f ∧ lookup f.st.memObjMap m = none ∧
      ∀ d, d ∈ f.msgs → d.msgType ≠ VK_DBG_MSG_WARNING := by
  have hlen : ¬ mi.pObjBindings.length ≤ 0 := by
    have := List.length_pos_of_mem hin
    omega
  let mi1 : MT_MEM_OBJ_INFO :=
    { mi with refCount := dec32 mi.refCount, pObjBindings := mi.pObjBindings.erase o }
  let sc : State :=
    { sp with memObjMap := assign sp.memObjMap m mi1,
              objectMap := assign sp.objectMap o { oi with pMemObjInfo := none } }
  have hc : clear_object_binding sp o = some ⟨true, [], sc⟩ := by
    simp only [clear_object_binding, get_object_info, ho, he, get_mem_obj_info, hm, hlen,
      if_false, hin, if_true, sc, mi1]
  have hmc : lookup sc.memObjMap m = some mi1 := lookup_assign_self _ _ _
  obtain ⟨f, hf, hnone, hw⟩ := freeMemObjInfo_internal sc m mi1 hmc hnd
  refine ⟨_, f, hc, rfl, rfl, ?_, hf, hnone, hw⟩
  rw [hmc]
  simp only [mi1, dec32]

/-! ## The garbage collection inside a free -/

theorem checkCBCompleted_frame (s : State) (cb : Handle) :
    ∃ q : Table MT_QUEUE_INFO, (checkCBCompleted s cb).st = { s with queueMap := q } ∧
      ∀ k, (lookup q k).getD MT_QUEUE_INFO.zero = (lookup s.queueMap k).getD MT_QUEUE_INFO.zero := by
  unfold checkCBCompleted
  split
  · exact ⟨s.queueMap, rfl, fun _ => rfl⟩
  · split
    · dsimp only
      split
      · exact ⟨_, rfl, fun k => lookup_touch_getD _ _ _ _⟩
      · exact ⟨_, rfl, fun k => lookup_touch_getD _ _ _ _⟩
    · exact ⟨s.queueMap, rfl, fun _ => rfl⟩

theorem checkCBCompleted_ret (s : State) (cb : Handle) :
    (∀ ci, lookup s.cbMap cb = some ci →
      ((checkCBCompleted s cb).ret = true ↔ Completed s ci)) ∧
    (lookup s.cbMap cb = none → (checkCBCompleted s cb).ret = false) := by
  constructor
  · intro ci hci
    unfold Completed
    by_cases hq : ci.lastSubmittedQueue = 0
    · simp only [checkCBCompleted, get_cmd_buf_info, hci, hq, ne_eq, not_true_eq_false, if_false,
        true_or]
    · by_cases hle : ci.fenceId ≤
          ((lookup s.queueMap ci.lastSubmittedQueue).getD MT_QUEUE_INFO.zero).lastRetiredId
      · have hn : ¬ ci.fenceId >
            ((lookup s.queueMap ci.lastSubmittedQueue).getD MT_QUEUE_INFO.zero).lastRetiredId :=
          Nat.not_lt.mpr hle
        simp only [checkCBCompleted, get_cmd_buf_info, hci, hq, ne_eq, not_false_eq_true, if_true,
          hn, if_false, hle, or_true]
      · have hgt : ci.fenceId >
            ((lookup s.queueMap ci.lastSubmittedQueue).getD MT_QUEUE_INFO.zero).lastRetiredId :=
          Nat.lt_of_not_le hle
        simp only [checkCBCompleted, get_cmd_buf_info, hci, hq, ne_eq, not_false_eq_true, if_true,
          hgt, Bool.false_eq_true, hle, or_self]
  · intro hnone
    simp only [checkCBCompleted, get_cmd_buf_info, hnone]

/-- What one round of the loop does: the queue table keeps its values; a
command buffer with a record that passes the check has its list emptied and
every memory loses it once per listing; otherwise nothing else changes. -/
theorem gcStep_spec (s : State) (x : Handle) :
    ∃ q : Table MT_QUEUE_INFO,
      (∀ k, (lookup q k).getD MT_QUEUE_INFO.zero =
        (lookup s.queueMap k).getD MT_QUEUE_INFO.zero) ∧
      ((∃ xi, lookup s.cbMap x = some xi ∧ Completed s xi ∧
          ∃ t : Table MT_MEM_OBJ_INFO,
            gcStep s x = { s with queueMap := q, memObjMap := t,
                                  cbMap := assign s.cbMap x { xi with pMemObjList := [] } } ∧
            ∀ m, lookup t m =
              (lookup s.memObjMap m).map ((dropCb x)^[xi.pMemObjList.count m])) ∨
       ((∀ xi, lookup s.cbMap x = some xi → ¬ Completed s xi) ∧
          gcStep s x = { s with queueMap := q })) := by
  obtain ⟨q, hq, hqv⟩ := checkCBCompleted_frame s x
  refine ⟨q, hqv, ?_⟩
  cases hx : lookup s.cbMap x with
  | none =>
    right
    refine ⟨fun xi h => Option.noConfusion h, ?_⟩
    have hr := (checkCBCompleted_ret s x).2 hx
    simp only [gcStep, hr, Bool.false_eq_true, if_false, hq]
  | some xi =>
    by_cases hdone : Completed s xi
    · left
      have hr := ((checkCBCompleted_ret s x).1 xi hx).mpr hdone
      have hx2 : lookup ({ s with queueMap := q } : State).cbMap x = some xi := hx
      obtain ⟨t, ht, htl⟩ := clear_spec { s with queueMap := q } x xi hx2
      refine ⟨xi, rfl, hdone, t, ?_, htl⟩
      simp only [gcStep, hr, if_true, hq, ht]
    · right
      refine ⟨fun xi1 h1 => ?_, ?_⟩
      · cases h1
        exact hdone
      · have hr : (checkCBCompleted s x).ret = false := by
          cases hb : (checkCBCompleted s x).ret with
          | false => rfl
          | true => exact absurd (((checkCBCompleted_ret s x).1 xi hx).mp hb) hdone
        simp only [gcStep, hr, Bool.false_eq_true, if_false, hq]

theorem completed_congr (s s1 : State) (ci : MT_CB_INFO)
    (h : ∀ k, (lookup s1.queueMap k).getD MT_QUEUE_INFO.zero =
      (lookup s.queueMap k).getD MT_QUEUE_INFO.zero) :
    Completed s1 ci ↔ Completed s ci := by
  unfold Completed
  rw [h]

theorem dropCb_iterate_mem (cb x : Handle) (hx : x ≠ cb) (k : Nat) :
    ∀ r : MT_MEM_OBJ_INFO, x ∈ r.pCmdBufferBindings →
      x ∈ ((dropCb cb)^[k] r).pCmdBufferBindings := by
  induction k with
  | zero => intro r h; exact h
  | succ n ih =>
    intro r h
    rw [Function.iterate_succ_apply]
    apply ih
    unfold dropCb
    simp [List.mem_filter, hx, h]

/-- One round of the loop keeps every other command buffer in the list of the
memory being freed. -/
theorem gcStep_live (M : Handle) (s : State) (cb x : Handle) (hx : x ≠ cb)
    (r : MT_MEM_OBJ_INFO) (hr : lookup s.memObjMap M = some r)
    (hin : x ∈ r.pCmdBufferBindings) :
    ∃ r1, lookup (gcStep s cb).memObjMap M = some r1 ∧ x ∈ r1.pCmdBufferBindings := by
  obtain ⟨q, _, hcase⟩ := gcStep_spec s cb
  rcases hcase with ⟨xi, _, _, t, hg, ht⟩ | ⟨_, hg⟩
  · rw [hg]
    refine ⟨(dropCb cb)^[xi.pMemObjList.count M] r, ?_, dropCb_iterate_mem cb x hx _ r hin⟩
    show lookup t M = _
    rw [ht M, hr]
    rfl
  · rw [hg]
    exact ⟨r, hr, hin⟩

/-- On a list without repetition, every element of which is in the list of the
memory being freed, the loop of `freeMemObjInfo` is the round `gcStep` applied
to each element in turn. -/
theorem freeLoop_eq_foldl (M : Handle) (fuel : Nat) :
    ∀ (l : List Handle) (s : State), l.Nodup → l.length ≤ fuel →
      (∀ x ∈ l, ∃ r, lookup s.memObjMap M = some r ∧ x ∈ r.pCmdBufferBindings) →
      ∃ d, freeLoop M fuel l s = some (d, l.foldl gcStep s) := by
  induction fuel with
  | zero =>
    intro l s _ hlen _
    cases l with
    | nil => exact ⟨_, rfl⟩
    | cons cb rest => simp at hlen
  | succ n ih =>
    intro l s hnd hlen hsub
    cases l with
    | nil => exact ⟨_, rfl⟩
    | cons cb rest =>
      obtain ⟨hcbrest, hndrest⟩ := List.nodup_cons.mp hnd
      have hlen1 : rest.length ≤ n := Nat.le_of_succ_le_succ hlen
      have hhd : ¬ rest.head? = some cb := fun hh => hcbrest (List.mem_of_mem_head? hh)
      have hfilter : rest.filter (fun x => x ≠ cb) = rest := by
        apply List.filter_eq_self.mpr
        intro a ha
        have : a ≠ cb := fun e => hcbrest (e ▸ ha)
        simp [this]
      have hguard : ((get_mem_obj_info s M).getD MT_MEM_OBJ_INFO.zero).pCmdBufferBindings.length
          > 0 := by
        obtain ⟨r, hr, hin⟩ := hsub cb (List.mem_cons_self _ _)
        unfold get_mem_obj_info
        rw [hr]
        exact List.length_pos_of_mem hin
      have hsub1 : ∀ x ∈ rest, ∃ r, lookup (gcStep s cb).memObjMap M = some r ∧
          x ∈ r.pCmdBufferBindings := by
        intro x hx
        obtain ⟨r, hr, hin⟩ := hsub x (List.mem_cons_of_mem _ hx)
        exact gcStep_live M s cb x (fun e => hcbrest (e ▸ hx)) r hr hin
      simp only [freeLoop, hguard, if_true, hhd, if_false, hfilter, List.foldl_cons]
      by_cases hr : (checkCBCompleted s cb).ret = true
      · obtain ⟨d, hd⟩ := ih rest (gcStep s cb) hndrest hlen1 hsub1
        have hg : gcStep s cb =
            (clear_cmd_buf_and_mem_references (checkCBCompleted s cb).st cb).st := by
          simp only [gcStep, hr, if_true]
        rw [hg] at hd
        simp only [hr, if_true, ite_self, hd, Option.map_some', hg]
        exact ⟨_, rfl⟩
      · obtain ⟨d, hd⟩ := ih rest (gcStep s cb) hndrest hlen1 hsub1
        have hr2 : (checkCBCompleted s cb).ret = false := by
          cases hb : (checkCBCompleted s cb).ret with
          | false => rfl
          | true => exact absurd hb hr
        have hg : gcStep s cb = (checkCBCompleted s cb).st := by
          simp only [gcStep, hr2, Bool.false_eq_true, if_false]
        rw [hg] at hd
        simp only [hr2, Bool.false_eq_true, if_false, hd, Option.map_some', hg]
        exact ⟨_, rfl⟩

theorem gcStep_frame (s : State) (x : Handle) :
    (∀ k, (lookup (gcStep s x).queueMap k).getD MT_QUEUE_INFO.zero =
      (lookup s.queueMap k).getD MT_QUEUE_INFO.zero) ∧
    (∀ y, y ≠ x → lookup (gcStep s x).cbMap y = lookup s.cbMap y) ∧
    (∀ M2, (∀ xi, lookup s.cbMap x = some xi → Completed s xi → M2 ∉ xi.pMemObjList) →
      lookup (gcStep s x).memObjMap M2 = lookup s.memObjMap M2) ∧
    (∀ ci, lookup s.cbMap x = some ci → Completed s ci →
      lookup (gcStep s x).cbMap x = some { ci with pMemObjList := [] } ∧
      ∀ m, lookup (gcStep s x).memObjMap m =
        (lookup s.memObjMap m).map ((dropCb x)^[ci.pMemObjList.count m])) := by
  obtain ⟨q, hqv, hcase⟩ := gcStep_spec s x
  rcases hcase with ⟨xi, hxi, hdone, t, hg, ht⟩ | ⟨hnot, hg⟩
  · rw [hg]
    refine ⟨hqv, ?_, ?_, ?_⟩
    · intro y hy
      exact lookup_assign_ne _ _ _ _ hy
    · intro M2 hq
      show lookup t M2 = _
      rw [ht M2, List.count_eq_zero_of_not_mem (hq xi hxi hdone), Function.iterate_zero]
      cases lookup s.memObjMap M2 <;> rfl
    · intro ci hci _
      rw [hxi] at hci
      cases hci
      exact ⟨lookup_assign_self _ _ _, ht⟩
  · rw [hg]
    refine ⟨hqv, fun _ _ => rfl, fun _ _ => rfl, ?_⟩
    intro ci hci hdone
    exact absurd hdone (hnot ci hci)

theorem quiet_step (cb M2 : Handle) (s : State) (x : Handle) (rest : List Handle)
    (hnd : (x :: rest).Nodup) (hq : Quiet cb M2 s (x :: rest)) :
    Quiet cb M2 (gcStep s x) rest := by
  obtain ⟨hqv, hcbs, _, _⟩ := gcStep_frame s x
  intro y hy hycb yi hyi hdone
  have hyx : y ≠ x := fun e => (List.nodup_cons.mp hnd).1 (e ▸ hy)
  rw [hcbs y hyx] at hyi
  exact hq y (List.mem_cons_of_mem x hy) hycb yi hyi
    ((completed_congr s (gcStep s x) yi hqv).mp hdone)

theorem foldl_gcStep_quiet (cb M2 : Handle) (l : List Handle) :
    ∀ s : State, l.Nodup → cb ∉ l → Quiet cb M2 s l →
      lookup (l.foldl gcStep s).cbMap cb = lookup s.cbMap cb ∧
      lookup (l.foldl gcStep s).memObjMap M2 = lookup s.memObjMap M2 := by
  induction l with
  | nil => intro s _ _ _; exact ⟨rfl, rfl⟩
  | cons x rest ih =>
    intro s hnd hcb hq
    have hxcb : cb ≠ x := fun e => hcb (e ▸ List.mem_cons_self x rest)
    obtain ⟨_, hcbs, hmem, _⟩ := gcStep_frame s x
    obtain ⟨h1, h2⟩ := ih (gcStep s x) (List.nodup_cons.mp hnd).2
      (fun h => hcb (List.mem_cons_of_mem x h)) (quiet_step cb M2 s x rest hnd hq)
    simp only [List.foldl_cons]
    refine ⟨h1.trans (hcbs cb hxcb), h2.trans (hmem M2 ?_)⟩
    intro xi hxi hdone
    exact hq x (List.mem_cons_self x rest) (fun e => hxcb e.symm) xi hxi hdone

theorem foldl_gcStep_target (cb M2 : Handle) (ci : MT_CB_INFO) (mi2 : MT_MEM_OBJ_INFO)
    (hcount : ci.pMemObjList.count M2 = 1) (l : List Handle) :
    ∀ s : State, l.Nodup → cb ∈ l → Quiet cb M2 s l →
      lookup s.cbMap cb = some ci → Completed s ci → lookup s.memObjMap M2 = some mi2 →
      lookup (l.foldl gcStep s).cbMap cb = some { ci with pMemObjList := [] } ∧
      lookup (l.foldl gcStep s).memObjMap M2 = some (dropCb cb mi2) := by
  induction l with
  | nil => intro s _ hcb; exact absurd hcb (List.not_mem_nil cb)
  | cons x rest ih =>
    intro s hnd hcb hq hci hdone hmi2
    obtain ⟨hqv, hcbs, hmem, htarget⟩ := gcStep_frame s x
    have hq1 := quiet_step cb M2 s x rest hnd hq
    simp only [List.foldl_cons]
    by_cases hx : x = cb
    · subst hx
      obtain ⟨hc1, hm1⟩ := htarget ci hci hdone
      obtain ⟨h1, h2⟩ := foldl_gcStep_quiet x M2 rest (gcStep s x) (List.nodup_cons.mp hnd).2
        (List.nodup_cons.mp hnd).1 hq1
      refine ⟨h1.trans hc1, h2.trans ?_⟩
      rw [hm1 M2, hmi2, hcount]
      rfl
    · have hrest : cb ∈ rest := by
        rcases List.mem_cons.mp hcb with h | h
        · exact absurd h.symm hx
        · exact h
      refine ih (gcStep s x) (List.nodup_cons.mp hnd).2 hrest hq1 ?_ ?_ ?_
      · rw [hcbs cb (fun e => hx e.symm)]
        exact hci
      · exact (completed_congr s (gcStep s x) ci hqv).mpr hdone
      · rw [hmem M2 (fun xi hxi hd => hq x (List.mem_cons_self x rest) hx xi hxi hd)]
        exact hmi2

/-- After the loop `freeMemObjInfo` touches the record of the freed memory
only. -/
theorem freeMemObjInfo_after_loop (s sF : State) (M : Handle) (internal : Bool)
    (pInfo : MT_MEM_OBJ_INFO) (d : List Diag)
    (h : lookup s.memObjMap M = some pInfo)
    (hsz : pInfo.allocInfo.allocationSize ≠ 0 ∨ internal = true)
    (hloop : freeLoop M pInfo.pCmdBufferBindings.length pInfo.pCmdBufferBindings s =
      some (d, sF)) :
    ∃ r : Out Bool, freeMemObjInfo s M internal = some r ∧ r.st.cbMap = sF.cbMap ∧
      ∀ m, m ≠ M → lookup r.st.memObjMap m = lookup sF.memObjMap m := by
  have hsome := freeLoop_mem_isSome M M _ _ s sF d hloop
  rw [h] at hsome
  have hcond : ¬ (pInfo.allocInfo.allocationSize = 0 ∧ internal = false) := by
    rintro ⟨ha, hb⟩
    rcases hsz with hz | hi
    · exact hz ha
    · rw [hi] at hb; exact Bool.noConfusion hb
  cases h1 : lookup sF.memObjMap M with
  | none => rw [h1] at hsome; simp at hsome
  | some r1 =>
    by_cases hrc : r1.refCount = 0
    · refine ⟨⟨true, d, { sF with memObjMap := erase sF.memObjMap M }⟩, ?_, rfl, ?_⟩
      · simp only [freeMemObjInfo, get_mem_obj_info, h, hcond, if_false, hloop, h1, hrc, ne_eq,
          not_true_eq_false, deleteMemObjInfo, List.append_nil, decide_True]
      · intro m hm
        exact lookup_erase_ne _ _ _ hm
    · refine ⟨⟨false, d ++ (reportMemReferencesAndCleanUp sF M r1).msgs,
          { sF with memObjMap := erase (assign sF.memObjMap M
              { r1 with pCmdBufferBindings := [], pObjBindings := [] }) M }⟩, ?_, rfl, ?_⟩
      · simp only [freeMemObjInfo, get_mem_obj_info, h, hcond, if_false, hloop, h1, hrc, ne_eq,
          not_false_eq_true, if_true, reportMemReferencesAndCleanUp, deleteMemObjInfo,
          lookup_assign_self, List.append_nil, decide_False]
      · intro m hm
        rw [lookup_erase_ne _ _ _ hm, lookup_assign_ne _ _ _ _ hm]

/-- C38 (amended): in a state satisfying P1 and P3 whose reference lists hold no
handle twice, let memory `M` have a record that `freeMemObjInfo` does not
refuse, and let command buffer `cb`, which passes the completion check (retired
or never submitted), list both `M` and a different memory `M2`, no other
completed command buffer of `M`'s list listing `M2`.  Then `freeMemObjInfo(M)`
is defined; afterwards the list of `cb` is empty, `cb` is no longer in the list
of `M2`, and the `refCount` of `M2` is one less (as a 32-bit counter; one less
outright when the count is a 32-bit value), its other fields unchanged. -/
theorem freeMemObjInfo_gc_drops_other_reference (s : State) (M M2 cb : Handle)
    (internal : Bool) (pInfo : MT_MEM_OBJ_INFO) (ci : MT_CB_INFO)
    (hP1 : RefcountAccurate s) (hP3 : CmdBufEdgeSymmetric s) (hnd : ReferenceListsNodup s)
    (hM : lookup s.memObjMap M = some pInfo)
    (hsz : pInfo.allocInfo.allocationSize ≠ 0 ∨ internal = true)
    (hcb : lookup s.cbMap cb = some ci) (hdone : Completed s ci)
    (hM1 : M ∈ ci.pMemObjList) (hM2 : M2 ∈ ci.pMemObjList) (hne : M2 ≠ M)
    (honly : ∀ x, x ∈ pInfo.pCmdBufferBindings → x ≠ cb → ∀ xi, lookup s.cbMap x = some xi →
      Completed s xi → M2 ∉ xi.pMemObjList) :
    ∃ (r : Out Bool) (mi2 : MT_MEM_OBJ_INFO), freeMemObjInfo s M internal = some r ∧
      lookup r.st.cbMap cb = some { ci with pMemObjList := [] } ∧
      lookup s.memObjMap M2 = some mi2 ∧ cb ∈ mi2.pCmdBufferBindings ∧
      lookup r.st.memObjMap M2 =
        some { mi2 with
               pCmdBufferBindings := mi2.pCmdBufferBindings.filter (fun x => x ≠ cb)
               refCount := (mi2.refCount + 4294967295) % 4294967296 } ∧
      cb ∉ mi2.pCmdBufferBindings.filter (fun x => x ≠ cb) ∧
      (mi2.refCount < 4294967296 →
        (mi2.refCount + 4294967295) % 4294967296 + 1 = mi2.refCount) := by
  obtain ⟨mi, hmi, hcbin⟩ := (hP3 cb ci M hcb).mp hM1
  rw [hM] at hmi
  cases hmi
  obtain ⟨mi2, hmi2, hcb2⟩ := (hP3 cb ci M2 hcb).mp hM2
  have hndl := hnd.2 M pInfo hM
  obtain ⟨d, hloop⟩ := freeLoop_eq_foldl M pInfo.pCmdBufferBindings.length
    pInfo.pCmdBufferBindings s hndl (Nat.le_refl _) (fun x hx => ⟨pInfo, hM, hx⟩)
  obtain ⟨r, hr, hrcb, hrmem⟩ := freeMemObjInfo_after_loop s _ M internal pInfo d hM hsz hloop
  have hcount : ci.pMemObjList.count M2 = 1 := List.count_eq_one_of_mem (hnd.1 cb ci hcb) hM2
  obtain ⟨h1, h2⟩ := foldl_gcStep_target cb M2 ci mi2 hcount pInfo.pCmdBufferBindings s hndl
    hcbin honly hcb hdone hmi2
  refine ⟨r, mi2, hr, ?_, hmi2, hcb2, ?_, ?_, ?_⟩
  · rw [hrcb]
    exact h1
  · rw [hrmem M2 hne, h2]
    simp only [dropCb, dec32]
  · simp [List.mem_filter]
  · intro hlt
    have h1 : 1 ≤ mi2.refCount := by
      rw [hP1 M2 mi2 hmi2]
      have : 0 < mi2.pCmdBufferBindings.length := List.length_pos_of_mem hcb2
      omega
    omega

/-- Witness for C38: in `sharedRefState` the retired command buffer 2 lists the
memories 5 and 1; freeing memory 1 empties its list and takes memory 5 from a
count of 1 to 0. -/
theorem freeMemObjInfo_gc_drops_other_reference_witness :
    ∃ (r : Out Bool) (mi2 : MT_MEM_OBJ_INFO), freeMemObjInfo sharedRefState 1 false = some r ∧
      lookup r.st.cbMap 2 =
        some { cmdBuffer := 2, fenceId := 1, lastSubmittedFence := 0,
               lastSubmittedQueue := 4, pMemObjList := [] } ∧
      lookup sharedRefState.memObjMap 5 = some mi2 ∧ 2 ∈ mi2.pCmdBufferBindings ∧
      lookup r.st.memObjMap 5 =
        some { mi2 with
               pCmdBufferBindings := mi2.pCmdBufferBindings.filter (fun x => x ≠ 2)
               refCount := (mi2.refCount + 4294967295) % 4294967296 } ∧
      2 ∉ mi2.pCmdBufferBindings.filter (fun x => x ≠ 2) ∧
      (mi2.refCount < 4294967296 →
        (mi2.refCount + 4294967295) % 4294967296 + 1 = mi2.refCount) := by
  have hmem : ∀ (m : Handle) (r : MT_MEM_OBJ_INFO),
      lookup sharedRefState.memObjMap m = some r →
      (m = 1 ∨ m = 5) ∧ r.refCount = 1 ∧ r.pObjBindings = [] ∧ r.pCmdBufferBindings = [2] := by
    intro m r hr
    by_cases h1 : m = 1
    · subst h1
      simp only [sharedRefState, lookup, if_true, Option.some.injEq] at hr
      rw [← hr]
      exact ⟨Or.inl rfl, rfl, rfl, rfl⟩
    · by_cases h5 : m = 5
      · subst h5
        simp only [sharedRefState, lookup, Option.some.injEq] at hr
        simp at hr
        rw [← hr]
        exact ⟨Or.inr rfl, rfl, rfl, rfl⟩
      · simp [sharedRefState, lookup, Ne.symm h1, Ne.symm h5] at hr
  have hcbs : ∀ (cb : Handle) (ci : MT_CB_INFO), lookup sharedRefState.cbMap cb = some ci →
      cb = 2 ∧ ci.pMemObjList = [5, 1] := by
    intro cb ci hci
    obtain ⟨h1, h2⟩ := lookup_singleton _ _ _ _ hci
    rw [h2]
    exact ⟨h1, rfl⟩
  exact freeMemObjInfo_gc_drops_other_reference sharedRefState 1 5 2 false
    { refCount := 1, mem := 1, allocInfo := { allocationSize := 1024, memProps := 0 },
      pObjBindings := [], pCmdBufferBindings := [2] }
    { cmdBuffer := 2, fenceId := 1, lastSubmittedFence := 0, lastSubmittedQueue := 4,
      pMemObjList := [5, 1] }
    (by
      intro m r hr
      obtain ⟨_, ha, hb, hc⟩ := hmem m r hr
      rw [ha, hb, hc]
      rfl)
    (by
      intro cb ci m hci
      obtain ⟨hcb, hl⟩ := hcbs cb ci hci
      rw [hl, hcb]
      constructor
      · intro hm
        have hm15 : m = 5 ∨ m = 1 := by simpa using hm
        rcases hm15 with rfl | rfl
        · exact ⟨_, rfl, by decide⟩
        · exact ⟨_, rfl, by decide⟩
      · rintro ⟨mi, hmi, _⟩
        rcases (hmem m mi hmi).1 with rfl | rfl <;> decide)
    (by
      constructor
      · intro cb ci hci
        rw [(hcbs cb ci hci).2]
        decide
      · intro m r hr
        rw [(hmem m r hr).2.2.2]
        decide)
    rfl (Or.inl (by decide)) rfl (Or.inr (by decide)) (by decide) (by decide) (by decide)
    (by
      intro x hx hne
      have : x = 2 := by simpa using hx
      exact absurd this hne)

/-- C38 as stated fails: `twoRefState` is reachable and satisfies P1 and P3;
the command buffers 2 and 6, never submitted, both reference memory 1 and
memory 5.  Freeing memory 1 clears the references of both command buffers, so
the count of memory 5 goes from 3 to 1: a decrease of two. -/
theorem freeMemObjInfo_gc_drops_two_references :
    Reachable twoRefState ∧ RefcountAccurate twoRefState ∧ CmdBufEdgeSymmetric twoRefState ∧
    (∃ ci, lookup twoRefState.cbMap 2 = some ci ∧ ci.lastSubmittedQueue = 0 ∧
      1 ∈ ci.pMemObjList ∧ 5 ∈ ci.pMemObjList) ∧
    (lookup twoRefState.memObjMap 5).map (fun m => m.refCount) = some 3 ∧
    (freeMemObjInfo twoRefState 1 false).map (fun r =>
      ((lookup r.st.cbMap 2).map (fun c => c.pMemObjList),
       (lookup r.st.memObjMap 5).map (fun m => (m.refCount, m.pCmdBufferBindings)))) =
      some (some [], some (1, [])) := by
  have hrun : run (State.init 0) twoRefTrace = some twoRefState := by decide
  have hmem : ∀ (m : Handle) (r : MT_MEM_OBJ_INFO), lookup twoRefState.memObjMap m = some r →
      (m = 1 ∨ m = 5) ∧ r.refCount = 3 ∧ r.pObjBindings.length = 1 ∧
        r.pCmdBufferBindings = [6, 2] := by
    intro m r hr
    by_cases h1 : m = 1
    · subst h1
      simp only [twoRefState, lookup, if_true, Option.some.injEq] at hr
      rw [← hr]
      exact ⟨Or.inl rfl, rfl, rfl, rfl⟩
    · by_cases h5 : m = 5
      · subst h5
        simp only [twoRefState, lookup, Option.some.injEq] at hr
        simp at hr
        rw [← hr]
        exact ⟨Or.inr rfl, rfl, rfl, rfl⟩
      · simp [twoRefState, lookup, Ne.symm h1, Ne.symm h5] at hr
  have hcbs : ∀ (cb : Handle) (ci : MT_CB_INFO), lookup twoRefState.cbMap cb = some ci →
      (cb = 2 ∨ cb = 6) ∧ ci.pMemObjList = [5, 1] := by
    intro cb ci hci
    by_cases h2 : cb = 2
    · subst h2
      simp only [twoRefState, lookup, if_true, Option.some.injEq] at hci
      rw [← hci]
      exact ⟨Or.inl rfl, rfl⟩
    · by_cases h6 : cb = 6
      · subst h6
        simp only [twoRefState, lookup, Option.some.injEq] at hci
        simp at hci
        rw [← hci]
        exact ⟨Or.inr rfl, rfl⟩
      · simp [twoRefState, lookup, Ne.symm h2, Ne.symm h6] at hci
  refine ⟨reachable_run _ _ _ (Reachable.init 0) hrun, ?_, ?_, ⟨_, rfl, rfl, by decide,
    by decide⟩, rfl, ?_⟩
  · intro m r hr
    obtain ⟨_, ha, hb, hc⟩ := hmem m r hr
    rw [ha, hb, hc]
    rfl
  · intro cb ci m hci
    obtain ⟨hcb, hl⟩ := hcbs cb ci hci
    rw [hl]
    constructor
    · intro hm
      have hm15 : m = 5 ∨ m = 1 := by simpa using hm
      rcases hm15 with rfl | rfl
      · refine ⟨_, rfl, ?_⟩
        rcases hcb with rfl | rfl <;> decide
      · refine ⟨_, rfl, ?_⟩
        rcases hcb with rfl | rfl <;> decide
    · rintro ⟨mi, hmi, _⟩
      rcases (hmem m mi hmi).1 with rfl | rfl <;> decide
  · decide

/-! ## The global lock: two entry points touch the tables without it -/

/-- C37 fails on the code: `vkWaitForFences` looks every fence of a non-empty
list up in the object table before it takes the global lock (for the list
`[9]`: access, driver call, lock, update, unlock), and
`vkGetSwapChainInfoWSI`, for a successful query of the persistent images, uses
the swap chain table with no lock at all.  The sibling entry points
`vkGetFenceStatus`, `vkQueueWaitIdle` and `vkCreateSwapChainWSI`, and
`vkWaitForFences` on an empty list, touch the tables only between lock and
unlock. -/
theorem vkWaitForFences_reads_outside_lock :
    vkWaitForFences_events [9] true VkResult.VK_SUCCESS =
      [LockEvent.access TableId.objectMap, LockEvent.driver, LockEvent.lock,
       LockEvent.access TableId.fenceMap, LockEvent.unlock] ∧
    (∀ (pFences : List Handle) (waitAll : Bool) (result : VkResult), pFences ≠ [] →
      LockDisciplined (vkWaitForFences_events pFences waitAll result) = false) ∧
    (∀ (s : State) (swapChain : Handle) (data : List VkSwapChainImageInfoWSI),
      LockDisciplined
        (vkGetSwapChainInfoWSI_events s swapChain true data VkResult.VK_SUCCESS) = false) ∧
    (∀ (waitAll : Bool) (result : VkResult),
      LockDisciplined (vkWaitForFences_events [] waitAll result) = true) ∧
    (∀ result : VkResult, LockDisciplined (vkGetFenceStatus_events result) = true) ∧
    (∀ result : VkResult, LockDisciplined (vkQueueWaitIdle_events result) = true) ∧
    (∀ result : VkResult, LockDisciplined (vkCreateSwapChainWSI_events result) = true) := by
  refine ⟨by decide, ?_, ?_, ?_, ?_, ?_, ?_⟩
  · intro pFences waitAll result hne
    cases pFences with
    | nil => exact absurd rfl hne
    | cons f rest =>
      simp only [LockDisciplined, vkWaitForFences_events, List.map_cons, List.cons_append,
        lockDisciplinedFrom, Bool.false_and]
  · intro s swapChain data
    simp only [LockDisciplined, vkGetSwapChainInfoWSI_events, and_self, if_true,
      lockDisciplinedFrom, Bool.false_and]
  · intro waitAll result
    cases result <;> cases waitAll <;> decide
  · intro result
    cases result <;> decide
  · intro result
    cases result <;> decide
  · intro result
    cases result <;> decide

/-! ## Memory records are stored under their own handle -/

theorem keyed_of_map (s s1 : State) (h : MemKeyed s) (e : s1.memObjMap = s.memObjMap) :
    MemKeyed s1 := by
  unfold MemKeyed at *
  rw [e]
  exact h

theorem keyed_assign (s s1 : State) (m : Handle) (v : MT_MEM_OBJ_INFO) (h : MemKeyed s)
    (e : s1.memObjMap = assign s.memObjMap m v) (hv : v.mem = m) : MemKeyed s1 := by
  intro k r hr
  rw [e] at hr
  by_cases hk : k = m
  · subst hk
    rw [lookup_assign_self] at hr
    cases hr
    exact hv
  · rw [lookup_assign_ne _ _ _ _ hk] at hr
    exact h k r hr

theorem keyed_erase (s s1 : State) (m : Handle) (h : MemKeyed s)
    (e : s1.memObjMap = erase s.memObjMap m) : MemKeyed s1 := by
  intro k r hr
  rw [e] at hr
  by_cases hk : k = m
  · subst hk
    rw [lookup_erase_self] at hr
    cases hr
  · rw [lookup_erase_ne _ _ _ hk] at hr
    exact h k r hr

theorem add_mem_obj_info_keyed (s : State) (mem : Handle) (a : Option VkMemoryAllocInfo)
    (h : MemKeyed s) : MemKeyed (add_mem_obj_info s mem a) :=
  keyed_assign s _ mem _ h rfl rfl

theorem update_keyed (s : State) (cb mem : Handle) (h : MemKeyed s) :
    MemKeyed (update_cmd_buf_and_mem_references s cb mem).st := by
  cases hm : lookup s.memObjMap mem with
  | none =>
    simp only [update_cmd_buf_and_mem_references, get_mem_obj_info, hm]
    exact h
  | some mi =>
    have hk : mi.mem = mem := h mem mi hm
    let mi1 : MT_MEM_OBJ_INFO :=
      { mi with pCmdBufferBindings := cb :: mi.pCmdBufferBindings,
                refCount := inc32 mi.refCount }
    have h1 : MemKeyed { s with memObjMap := assign s.memObjMap mem mi1 } :=
      keyed_assign s _ mem mi1 h rfl hk
    by_cases hin : cb ∈ mi.pCmdBufferBindings
    · cases hc : lookup s.cbMap cb with
      | none =>
        simp only [update_cmd_buf_and_mem_references, get_mem_obj_info, hm, hin, if_true,
          get_cmd_buf_info, hc]
        exact h
      | some ci =>
        by_cases hmin : mem ∈ ci.pMemObjList
        · simp only [update_cmd_buf_and_mem_references, get_mem_obj_info, hm, hin, if_true,
            get_cmd_buf_info, hc, hmin]
          exact h
        · simp only [update_cmd_buf_and_mem_references, get_mem_obj_info, hm, hin, if_true,
            get_cmd_buf_info, hc, hmin, if_false]
          exact keyed_of_map s _ h rfl
    · cases hc : lookup s.cbMap cb with
      | none =>
        simp only [update_cmd_buf_and_mem_references, get_mem_obj_info, hm, hin, if_false,
          get_cmd_buf_info, hc]
        exact h1
      | some ci =>
        by_cases hmin : mem ∈ ci.pMemObjList
        · simp only [update_cmd_buf_and_mem_references, get_mem_obj_info, hm, hin, if_false,
            get_cmd_buf_info, hc, hmin, if_true]
          exact h1
        · simp only [update_cmd_buf_and_mem_references, get_mem_obj_info, hm, hin, if_false,
            get_cmd_buf_info, hc, hmin]
          exact keyed_of_map _ _ h1 rfl

theorem remove_keyed (s : State) (cb m : Handle) (h : MemKeyed s) :
    MemKeyed (remove_cmd_buf_and_mem_reference s cb m) := by
  unfold remove_cmd_buf_and_mem_reference get_mem_obj_info
  cases hm : lookup s.memObjMap m with
  | none => exact h
  | some mi => exact keyed_assign s _ m _ h rfl (h m mi hm)

theorem foldl_remove_keyed (cb : Handle) (l : List Handle) :
    ∀ s : State, MemKeyed s →
      MemKeyed (l.foldl (fun st m => remove_cmd_buf_and_mem_reference st cb m) s) := by
  induction l with
  | nil => intro s h; exact h
  | cons m rest ih =>
    intro s h
    simp only [List.foldl_cons]
    exact ih _ (remove_keyed s cb m h)

theorem clear_keyed (s : State) (cb : Handle) (h : MemKeyed s) :
    MemKeyed (clear_cmd_buf_and_mem_references s cb).st := by
  unfold clear_cmd_buf_and_mem_references get_cmd_buf_info
  cases hc : lookup s.cbMap cb with
  | none => exact h
  | some ci => exact keyed_of_map _ _ (foldl_remove_keyed cb ci.pMemObjList s h) rfl

theorem checkCBCompleted_keyed (s : State) (cb : Handle) (h : MemKeyed s) :
    MemKeyed (checkCBCompleted s cb).st :=
  keyed_of_map s _ h (checkCBCompleted_memObjMap s cb).1

theorem delete_cmd_buf_info_keyed (s : State) (cb : Handle) (h : MemKeyed s) :
    MemKeyed (delete_cmd_buf_info s cb).st := by
  have h1 := clear_keyed s cb h
  unfold delete_cmd_buf_info
  dsimp only
  split
  · exact keyed_of_map _ _ h1 rfl
  · exact h1

theorem delete_cmd_buf_info_list_keyed (s : State) (h : MemKeyed s) :
    MemKeyed (delete_cmd_buf_info_list s).st := by
  have key : ∀ (l : List Handle) (acc : List Diag × State), MemKeyed acc.2 →
      MemKeyed (l.foldl (fun (a : List Diag × State) cb =>
          (a.1 ++ (clear_cmd_buf_and_mem_references a.2 cb).msgs,
            (clear_cmd_buf_and_mem_references a.2 cb).st)) acc).2 := by
    intro l
    induction l with
    | nil => intro acc hacc; exact hacc
    | cons cb rest ih =>
      intro acc hacc
      simp only [List.foldl_cons]
      exact ih _ (clear_keyed acc.2 cb hacc)
  have hk := key (s.cbMap.map (fun p => p.1)) (([] : List Diag), s) h
  intro m mi hmi
  exact hk m mi hmi

theorem freeLoop_keyed (M : Handle) (fuel : Nat) :
    ∀ (l : List Handle) (s s1 : State) (d : List Diag), MemKeyed s →
      freeLoop M fuel l s = some (d, s1) → MemKeyed s1 := by
  induction fuel with
  | zero =>
    intro l s s1 d h hl
    cases l with
    | nil =>
      simp only [freeLoop, Option.some.injEq, Prod.mk.injEq] at hl
      rw [← hl.2]
      exact h
    | cons cb rest => simp [freeLoop] at hl
  | succ n ih =>
    intro l s s1 d h hl
    cases l with
    | nil =>
      simp only [freeLoop, Option.some.injEq, Prod.mk.injEq] at hl
      rw [← hl.2]
      exact h
    | cons cb rest =>
      have hc := checkCBCompleted_keyed s cb h
      have hr := clear_keyed _ cb hc
      simp only [freeLoop] at hl
      split at hl
      · split at hl
        · split at hl
          · simp only [Option.map_eq_some', Prod.mk.injEq] at hl
            obtain ⟨p, hp, _, hp2⟩ := hl
            obtain ⟨pd, ps⟩ := p
            simp only at hp2
            subst hp2
            exact ih _ _ _ _ hr hp
          · split at hl
            · split at hl
              · exact Option.noConfusion hl
              · simp only [Option.some.injEq, Prod.mk.injEq] at hl
                rw [← hl.2]
                exact hr
            · simp only [Option.map_eq_some', Prod.mk.injEq] at hl
              obtain ⟨p, hp, _, hp2⟩ := hl
              obtain ⟨pd, ps⟩ := p
              simp only at hp2
              subst hp2
              exact ih _ _ _ _ hr hp
        · simp only [Option.map_eq_some', Prod.mk.injEq] at hl
          obtain ⟨p, hp, _, hp2⟩ := hl
          obtain ⟨pd, ps⟩ := p
          simp only at hp2
          subst hp2
          exact ih _ _ _ _ hc hp
      · simp only [Option.some.injEq, Prod.mk.injEq] at hl
        rw [← hl.2]
        exact h

theorem report_keyed (s : State) (mem : Handle) (r : MT_MEM_OBJ_INFO)
    (h : MemKeyed s) (hr : r.mem = mem) :
    MemKeyed (reportMemReferencesAndCleanUp s mem r).st :=
  keyed_assign s _ mem _ h rfl hr

theorem deleteMemObjInfo_keyed (s : State) (mem : Handle) (h : MemKeyed s) :
    MemKeyed (deleteMemObjInfo s mem).st := by
  unfold deleteMemObjInfo
  split
  · exact keyed_erase s _ mem h rfl
  · exact h

theorem freeMemObjInfo_keyed (s : State) (mem : Handle) (internal : Bool) (r : Out Bool)
    (h : MemKeyed s) (hr : freeMemObjInfo s mem internal = some r) :
    MemKeyed r.st := by
  unfold freeMemObjInfo at hr
  split at hr
  · simp only [Option.some.injEq] at hr
    rw [← hr]
    exact h
  · rename_i pInfo hpi
    split at hr
    · simp only [Option.some.injEq] at hr
      rw [← hr]
      exact h
    · split at hr
      · exact Option.noConfusion hr
      · rename_i d1 s1 hloop
        have h1 := freeLoop_keyed mem _ _ _ _ _ h hloop
        split at hr
        · exact Option.noConfusion hr
        · rename_i pInfo1 hp1
          simp only [Option.some.injEq] at hr
          rw [← hr]
          apply deleteMemObjInfo_keyed
          split
          · exact report_keyed _ _ _ h1 (h1 mem pInfo1 hp1)
          · exact h1

theorem clear_object_binding_keyed (s : State) (o : Handle) (r : Out Bool)
    (h : MemKeyed s) (hr : clear_object_binding s o = some r) :
    MemKeyed r.st := by
  unfold clear_object_binding at hr
  split at hr
  · simp only [Option.some.injEq] at hr
    rw [← hr]
    exact h
  · split at hr
    · simp only [Option.some.injEq] at hr
      rw [← hr]
      exact h
    · split at hr
      · exact Option.noConfusion hr
      · rename_i mi hmi
        split at hr
        · simp only [Option.some.injEq] at hr
          rw [← hr]
          exact h
        · split at hr
          · simp only [Option.some.injEq] at hr
            rw [← hr]
            exact keyed_assign s _ _ _ h rfl (h _ mi hmi)
          · simp only [Option.some.injEq] at hr
            rw [← hr]
            exact h

theorem set_object_binding_keyed (s : State) (o mem : Handle) (r : Out Bool)
    (h : MemKeyed s) (hr : set_object_binding s o mem = some r) :
    MemKeyed r.st := by
  unfold set_object_binding at hr
  split at hr
  · simp only [Option.some.injEq] at hr
    rw [← hr]
    exact h
  · split at hr
    · simp only [Option.some.injEq] at hr
      rw [← hr]
      exact h
    · split at hr
      · simp only [Option.some.injEq] at hr
        rw [← hr]
        exact h
      · rename_i pInfo hpi
        split at hr
        · split at hr
          · exact Option.noConfusion hr
          · simp only [Option.some.injEq] at hr
            rw [← hr]
            exact h
        · simp only [Option.some.injEq] at hr
          rw [← hr]
          exact keyed_assign s _ mem _ h rfl (h mem pInfo hpi)

theorem set_sparse_buffer_binding_keyed (s : State) (o mem : Handle) (r : Out Bool)
    (h : MemKeyed s) (hr : set_sparse_buffer_binding s o mem = some r) :
    MemKeyed r.st := by
  unfold set_sparse_buffer_binding at hr
  split at hr
  · simp only [Option.map_eq_some'] at hr
    obtain ⟨c, hc, hcr⟩ := hr
    rw [← hcr]
    exact clear_object_binding_keyed s o c h hc
  · split at hr
    · simp only [Option.some.injEq] at hr
      rw [← hr]
      exact h
    · split at hr
      · simp only [Option.some.injEq] at hr
        rw [← hr]
        exact h
      · rename_i pInfo hpi
        have key : ∀ s1 : State, MemKeyed s1 →
            (match (‹MT_OBJ_INFO›).pMemObjInfo with
              | none =>
                some (⟨true, [],
                  { s1 with objectMap := assign s1.objectMap o
                              { (‹MT_OBJ_INFO›) with pMemObjInfo := some mem } }⟩ : Out Bool)
              | some _ =>
                match clear_object_binding s1 o with
                | none => none
                | some c =>
                  if c.ret then none
                  else
                    some ⟨true, c.msgs ++ [⟨VK_DBG_MSG_UNKNOWN, o, MEMTRACK_NONE⟩],
                      { c.st with objectMap := assign c.st.objectMap o
                                    { (‹MT_OBJ_INFO›) with pMemObjInfo := some mem } }⟩) = some r →
            MemKeyed r.st := by
          intro s1 h1 hr1
          split at hr1
          · simp only [Option.some.injEq] at hr1
            rw [← hr1]
            exact keyed_of_map _ _ h1 rfl
          · split at hr1
            · exact Option.noConfusion hr1
            · rename_i c hc
              split at hr1
              · exact Option.noConfusion hr1
              · simp only [Option.some.injEq] at hr1
                rw [← hr1]
                exact keyed_of_map _ _ (clear_object_binding_keyed _ o c h1 hc) rfl
        by_cases hin : o ∈ pInfo.pObjBindings
        · simp only [hin, if_true] at hr
          exact key s h hr
        · simp only [hin, if_false] at hr
          let pInfo1 : MT_MEM_OBJ_INFO :=
            { pInfo with pObjBindings := o :: pInfo.pObjBindings, refCount := inc32 pInfo.refCount }
          refine key { s with memObjMap := assign s.memObjMap mem pInfo1 } ?_ hr
          exact keyed_assign s _ mem pInfo1 h rfl (h mem pInfo hpi)

theorem submitLoop_keyed (fenceId fence queue : Handle) (cbs : List Handle) :
    ∀ s s1 : State, MemKeyed s → submitLoop fenceId fence queue cbs s = some s1 →
      MemKeyed s1 := by
  induction cbs with
  | nil =>
    intro s s1 h hs
    simp only [submitLoop, Option.some.injEq] at hs
    rw [← hs]
    exact h
  | cons cb rest ih =>
    intro s s1 h hs
    cases hc : lookup s.cbMap cb with
    | none => simp [submitLoop, get_cmd_buf_info, hc] at hs
    | some ci =>
      simp only [submitLoop, get_cmd_buf_info, hc] at hs
      refine ih _ s1 ?_ hs
      exact keyed_of_map s _ h rfl

theorem destroyImagesLoop_keyed (l : List VkSwapChainImageInfoWSI) :
    ∀ (acc p : List Diag × State), MemKeyed acc.2 →
      destroyImagesLoop l acc = some p → MemKeyed p.2 := by
  induction l with
  | nil =>
    intro acc p h hp
    simp only [destroyImagesLoop, Option.some.injEq] at hp
    rw [← hp]
    exact h
  | cons it rest ih =>
    intro acc p h hp
    simp only [destroyImagesLoop] at hp
    split at hp
    · exact Option.noConfusion hp
    · rename_i c hc
      split at hp
      · exact Option.noConfusion hp
      · rename_i f hf
        refine ih _ p ?_ hp
        have h1 := clear_object_binding_keyed _ _ c h hc
        have h2 := freeMemObjInfo_keyed _ _ _ f h1 hf
        exact keyed_of_map _ _ h2 rfl

theorem addImagesLoop_keyed (flags : Nat) (l : List VkSwapChainImageInfoWSI) :
    ∀ (acc p : List Diag × State), MemKeyed acc.2 →
      addImagesLoop flags l acc = some p → MemKeyed p.2 := by
  induction l with
  | nil =>
    intro acc p h hp
    simp only [addImagesLoop, Option.some.injEq] at hp
    rw [← hp]
    exact h
  | cons it rest ih =>
    intro acc p h hp
    simp only [addImagesLoop] at hp
    split at hp
    · exact Option.noConfusion hp
    · rename_i b hb
      refine ih _ p ?_ hp
      have h1 : MemKeyed (add_object_info acc.2 it.image VK_STRUCTURE_TYPE_MAX_ENUM flags) :=
        keyed_of_map _ _ h rfl
      have h2 := add_mem_obj_info_keyed _ it.memory none h1
      exact set_object_binding_keyed _ _ _ b h2 hb

theorem vkDestroyObject_keyed (s : State) (t : VkObjectType) (o : Handle) (result : VkResult)
    (r : Out VkResult) (h : MemKeyed s) (hr : vkDestroyObject s t o result = some r) :
    MemKeyed r.st := by
  have hA : MemKeyed (delete_cmd_buf_info s o).st := delete_cmd_buf_info_keyed s o h
  have hB : MemKeyed (delete_fence_info s o) := keyed_of_map _ _ h rfl
  have hclear : ∀ (s1 : State) (c : Out Bool), (s1 = (delete_cmd_buf_info s o).st ∨
      s1 = delete_fence_info s o ∨ s1 = s) → clear_object_binding s1 o = some c →
      MemKeyed s1 ∧ MemKeyed c.st := by
    intro s1 c hs1 hc
    have h1 : MemKeyed s1 := by
      rcases hs1 with e | e | e <;> rw [e] <;> assumption
    exact ⟨h1, clear_object_binding_keyed s1 o c h1 hc⟩
  cases t
  all_goals
    unfold vkDestroyObject at hr
    dsimp only at hr
    split at hr
    · simp only [Option.some.injEq] at hr
      rw [← hr]
      first | exact hA | exact hB
    · split at hr
      · simp only [Option.some.injEq] at hr
        rw [← hr]
        first
          | exact keyed_of_map _ _ hA rfl
          | exact keyed_of_map _ _ hB rfl
      · split at hr
        · exact Option.noConfusion hr
        · split at hr
          · split at hr
            · exact Option.noConfusion hr
            · rename_i c hc
              split at hr
              · exact Option.noConfusion hr
              · rename_i f hf
                simp only [Option.some.injEq] at hr
                rw [← hr]
                have h2 := (hclear _ c (by first
                  | exact Or.inl rfl
                  | exact Or.inr (Or.inl rfl)
                  | exact Or.inr (Or.inr rfl)) hc).2
                have h3 := freeMemObjInfo_keyed _ _ _ f h2 hf
                exact keyed_of_map _ _ h3 rfl
          · split at hr
            · exact Option.noConfusion hr
            · rename_i c hc
              simp only [Option.some.injEq] at hr
              rw [← hr]
              have h2 := (hclear _ c (by first
                | exact Or.inl rfl
                | exact Or.inr (Or.inl rfl)
                | exact Or.inr (Or.inr rfl)) hc).2
              exact keyed_of_map _ _ h2 rfl

theorem cmdReference_keyed (s : State) (cb o : Handle) (r : Out Unit)
    (h : MemKeyed s) (hr : cmdReference s cb o = some r) :
    MemKeyed r.st := by
  unfold cmdReference at hr
  split at hr
  · exact Option.noConfusion hr
  · simp only [Option.some.injEq] at hr
    rw [← hr]
    exact update_keyed s cb _ h

theorem vkGetSwapChainInfoWSI_keyed (s : State) (c : Handle) (p : Bool)
    (d : List VkSwapChainImageInfoWSI) (f : Nat) (result : VkResult) (r : Out VkResult)
    (h : MemKeyed s) (hr : vkGetSwapChainInfoWSI s c p d f result = some r) :
    MemKeyed r.st := by
  unfold vkGetSwapChainInfoWSI at hr
  split at hr
  · split at hr
    · exact Option.noConfusion hr
    · split at hr
      · simp only [Option.map_eq_some'] at hr
        obtain ⟨q, hq, hqr⟩ := hr
        rw [← hqr]
        exact addImagesLoop_keyed f d _ q (keyed_of_map _ _ h rfl) hq
      · split at hr
        · simp only [Option.some.injEq] at hr
          rw [← hr]
          exact h
        · simp only [Option.some.injEq] at hr
          rw [← hr]
          exact h
  · simp only [Option.some.injEq] at hr
    rw [← hr]
    exact h

/-- One defined call keeps every memory record under its own handle. -/
theorem applyOp_keyed (s s1 : State) (op : Op) (h : MemKeyed s)
    (hop : applyOp s op = some s1) : MemKeyed s1 := by
  cases op with
  | getDeviceQueue q r =>
    simp only [applyOp, Option.some.injEq] at hop
    rw [← hop]
    unfold vkGetDeviceQueue
    split
    · exact keyed_of_map _ _ h rfl
    · exact h
  | queueSubmit q cbs f r =>
    simp only [applyOp, Option.map_eq_some'] at hop
    obtain ⟨x, hx, hx2⟩ := hop
    simp only [vkQueueSubmit, Option.map_eq_some'] at hx
    obtain ⟨y, hy, hy2⟩ := hx
    rw [← hx2, ← hy2]
    exact submitLoop_keyed _ _ _ _ _ y
      (keyed_of_map _ _ h (add_fence_info_refs s f q).2) hy
  | allocMemory a m r =>
    simp only [applyOp, Option.some.injEq] at hop
    rw [← hop]
    exact add_mem_obj_info_keyed s m a h
  | freeMemory m r =>
    simp only [applyOp, Option.map_eq_some'] at hop
    obtain ⟨x, hx, hx2⟩ := hop
    simp only [vkFreeMemory, Option.map_eq_some'] at hx
    obtain ⟨y, hy, hy2⟩ := hx
    rw [← hx2, ← hy2]
    exact freeMemObjInfo_keyed s m false y h hy
  | destroyObject t o r =>
    simp only [applyOp, Option.map_eq_some'] at hop
    obtain ⟨x, hx, hx2⟩ := hop
    rw [← hx2]
    exact vkDestroyObject_keyed s t o r x h hx
  | bindObjectMemory o m r =>
    simp only [applyOp, Option.map_eq_some'] at hop
    obtain ⟨x, hx, hx2⟩ := hop
    simp only [vkBindObjectMemory, Option.map_eq_some'] at hx
    obtain ⟨y, hy, hy2⟩ := hx
    rw [← hx2, ← hy2]
    exact set_object_binding_keyed s o m y h hy
  | queueBindSparseBufferMemory b m r =>
    simp only [applyOp, Option.map_eq_some'] at hop
    obtain ⟨x, hx, hx2⟩ := hop
    simp only [vkQueueBindSparseBufferMemory, Option.map_eq_some'] at hx
    obtain ⟨y, hy, hy2⟩ := hx
    rw [← hx2, ← hy2]
    exact set_sparse_buffer_binding_keyed s b m y h hy
  | createObject o t f r =>
    simp only [applyOp, Option.some.injEq] at hop
    rw [← hop]
    unfold vkCreateObject
    split
    · exact keyed_of_map _ _ h rfl
    · exact h
  | resetFences fs r =>
    simp only [applyOp, Option.some.injEq] at hop
    rw [← hop]
    unfold vkResetFences
    split
    · have hf := resetLoop_frame fs ⟨r, [], s⟩
      refine keyed_of_map _ _ h ?_
      rw [hf]
    · exact h
  | getFenceStatus f r =>
    simp only [applyOp, Option.some.injEq] at hop
    rw [← hop]
    unfold vkGetFenceStatus
    split
    · exact keyed_of_map _ _ h (update_fence_tracking_refs s f).2
    · exact h
  | waitForFences fs w r =>
    simp only [applyOp, Option.some.injEq] at hop
    rw [← hop]
    unfold vkWaitForFences
    dsimp only
    split
    · exact keyed_of_map _ _ h (foldl_update_fence_tracking_refs fs s).2
    · exact h
  | queueWaitIdle q r =>
    simp only [applyOp, Option.some.injEq] at hop
    rw [← hop]
    unfold vkQueueWaitIdle
    split
    · exact keyed_of_map _ _ h rfl
    · exact h
  | deviceWaitIdle r =>
    simp only [applyOp, Option.some.injEq] at hop
    rw [← hop]
    unfold vkDeviceWaitIdle
    split
    · exact keyed_of_map _ _ h rfl
    · exact h
  | createCommandBuffer cb r =>
    simp only [applyOp, Option.some.injEq] at hop
    rw [← hop]
    unfold vkCreateCommandBuffer
    dsimp only
    split
    · exact keyed_of_map _ _ h rfl
    · exact h
  | beginCommandBuffer cb r =>
    simp only [applyOp, Option.some.injEq] at hop
    rw [← hop]
    exact clear_keyed _ cb (checkCBCompleted_keyed s cb h)
  | resetCommandBuffer cb r =>
    simp only [applyOp, Option.some.injEq] at hop
    rw [← hop]
    exact clear_keyed _ cb (checkCBCompleted_keyed s cb h)
  | cmdDrawIndirect cb b =>
    simp only [applyOp, vkCmdDrawIndirect, Option.map_eq_some'] at hop
    obtain ⟨x, hx, hx2⟩ := hop
    rw [← hx2]
    exact cmdReference_keyed s cb b x h hx
  | cmdCopyBuffer cb a b =>
    simp only [applyOp, vkCmdCopyBuffer, cmdReference2, Option.map_eq_some'] at hop
    obtain ⟨x, hx, hx2⟩ := hop
    rw [← hx2]
    split at hx
    · exact Option.noConfusion hx
    · rename_i a1 ha1
      split at hx
      · exact Option.noConfusion hx
      · rename_i b1 hb1
        simp only [Option.some.injEq] at hx
        rw [← hx]
        exact cmdReference_keyed _ cb b b1 (cmdReference_keyed s cb a a1 h ha1) hb1
  | destroyDevice d r =>
    simp only [applyOp, Option.some.injEq] at hop
    rw [← hop]
    exact keyed_of_map _ _ (delete_cmd_buf_info_list_keyed s h) rfl
  | createSwapChainWSI c r =>
    simp only [applyOp, Option.some.injEq] at hop
    rw [← hop]
    unfold vkCreateSwapChainWSI
    split
    · exact keyed_of_map _ _ h rfl
    · exact h
  | destroySwapChainWSI c r =>
    simp only [applyOp, vkDestroySwapChainWSI, Option.map_eq_some'] at hop
    obtain ⟨x, hx, hx2⟩ := hop
    rw [← hx2]
    split at hx
    · simp only [Option.some.injEq] at hx
      rw [← hx]
      exact h
    · simp only [Option.map_eq_some'] at hx
      obtain ⟨p, hp, hp2⟩ := hx
      rw [← hp2]
      exact keyed_of_map _ _ (destroyImagesLoop_keyed _ _ p h hp) rfl
  | getSwapChainInfoWSI c p d f r =>
    simp only [applyOp, Option.map_eq_some'] at hop
    obtain ⟨x, hx, hx2⟩ := hop
    rw [← hx2]
    exact vkGetSwapChainInfoWSI_keyed s c p d f r x h hx
  | mapMemory m r =>
    simp only [applyOp, vkMapMemory, Option.map_eq_some'] at hop
    obtain ⟨x, hx, hx2⟩ := hop
    rw [← hx2]
    split at hx
    · exact Option.noConfusion hx
    · split at hx
      · simp only [Option.some.injEq] at hx
        rw [← hx]
        exact h
      · simp only [Option.some.injEq] at hx
        rw [← hx]
        exact h

/-- In every reachable state the memory records are stored under their own
handle and the reference lists hold no handle twice. -/
theorem reachable_keyed_nodup (s : State) (hs : Reachable s) :
    MemKeyed s ∧ ReferenceListsNodup s := by
  induction hs with
  | init level =>
    refine ⟨?_, nodup_of_tables _ ?_ ?_⟩
    · intro k v hkv
      simp [State.init, lookup] at hkv
    · intro k v hkv
      simp [State.init, lookup] at hkv
    · intro k v hkv
      simp [State.init, lookup] at hkv
  | step op _ hop ih => exact ⟨applyOp_keyed _ _ op ih.1 hop, applyOp_nodup _ _ op ih.2 hop⟩

/-! ## Destroying an object that is bound to memory: the entry point -/

theorem dropCb_iterate_fields (cb : Handle) (k : Nat) :
    ∀ r : MT_MEM_OBJ_INFO, ((dropCb cb)^[k] r).mem = r.mem ∧
      ((dropCb cb)^[k] r).allocInfo = r.allocInfo ∧
      ((dropCb cb)^[k] r).pObjBindings = r.pObjBindings := by
  induction k with
  | zero => intro r; exact ⟨rfl, rfl, rfl⟩
  | succ n ih =>
    intro r
    rw [Function.iterate_succ_apply]
    obtain ⟨h1, h2, h3⟩ := ih (dropCb cb r)
    rw [h1, h2, h3]
    unfold dropCb
    exact ⟨rfl, rfl, rfl⟩

/-- The type-specific step of `vkDestroyObject` for a command buffer leaves the
object table as it is and changes, in a memory record, only the command buffer
list and the count. -/
theorem delete_cmd_buf_info_frame (s : State) (cb : Handle) :
    (delete_cmd_buf_info s cb).st.objectMap = s.objectMap ∧
    (∀ m mi, lookup s.memObjMap m = some mi →
      ∃ mp, lookup (delete_cmd_buf_info s cb).st.memObjMap m = some mp ∧ mp.mem = mi.mem ∧
        mp.allocInfo = mi.allocInfo ∧ mp.pObjBindings = mi.pObjBindings) ∧
    (lookup s.cbMap cb = none →
      delete_cmd_buf_info s cb = ⟨false, [⟨VK_DBG_MSG_ERROR, cb, MEMTRACK_INVALID_CB⟩], s⟩) := by
  cases hc : lookup s.cbMap cb with
  | none =>
    have hd : delete_cmd_buf_info s cb =
        ⟨false, [⟨VK_DBG_MSG_ERROR, cb, MEMTRACK_INVALID_CB⟩], s⟩ := by
      simp only [delete_cmd_buf_info, clear_cmd_buf_and_mem_references, get_cmd_buf_info, hc,
        Bool.false_eq_true, if_false]
    rw [hd]
    exact ⟨rfl, fun m mi hmi => ⟨mi, hmi, rfl, rfl, rfl⟩, fun _ => rfl⟩
  | some ci =>
    obtain ⟨t, hclr, ht⟩ := clear_spec s cb ci hc
    have hd : (delete_cmd_buf_info s cb).st =
        { s with memObjMap := t,
                 cbMap := erase (assign s.cbMap cb { ci with pMemObjList := [] }) cb } := by
      simp only [delete_cmd_buf_info, hclr, if_true]
    rw [hd]
    refine ⟨rfl, ?_, fun h => Option.noConfusion h⟩
    intro m mi hmi
    obtain ⟨h1, h2, h3⟩ := dropCb_iterate_fields cb (ci.pMemObjList.count m) mi
    refine ⟨(dropCb cb)^[ci.pMemObjList.count m] mi, ?_, h1, h2, h3⟩
    show lookup t m = _
    rw [ht m, hmi]
    rfl

/-- C32: in a reachable state satisfying P2 let object `o` have a record that
points to memory `m`, which has a record.  `vkDestroyObject` first does its
type-specific step (nothing for most objects, the fence entry for a fence, the
command buffer entry for a command buffer), which leaves the object record and
the object list and allocation size of `m`.  When the allocation size of `m` is
zero it then clears the binding of `o`, frees `m` through
`freeMemObjInfo(m, true)` in the state the clear left, and erases the record of
`o`: neither has a record afterwards and no warning (so not the refusal of an
application free) is among the messages.  When the size is non-zero only the
binding is cleared before the record of `o` is erased: the record of `m`
remains, without `o` and with its count decremented. -/
theorem vkDestroyObject_bound_object (s : State) (t : VkObjectType) (o m : Handle)
    (result : VkResult) (oi : MT_OBJ_INFO) (mi : MT_MEM_OBJ_INFO)
    (hs : Reachable s) (hP2 : ObjectEdgeSymmetric s)
    (ho : lookup s.objectMap o = some oi) (he : oi.pMemObjInfo = some m)
    (hm : lookup s.memObjMap m = some mi) :
    ∃ (sp : State) (pre : List Diag) (mp : MT_MEM_OBJ_INFO) (c : Out Bool),
      (sp = s ∨ sp = delete_fence_info s o ∨ sp = (delete_cmd_buf_info s o).st) ∧
      ((t = VkObjectType.VK_OBJECT_TYPE_COMMAND_BUFFER → lookup s.cbMap o = none) →
        (sp = s ∨ sp = delete_fence_info s o) ∧ mp = mi) ∧
      (∀ d, d ∈ pre → d.msgType ≠ VK_DBG_MSG_WARNING) ∧
      lookup sp.objectMap o = some oi ∧
      lookup sp.memObjMap m = some mp ∧ mp.allocInfo = mi.allocInfo ∧
      mp.pObjBindings = mi.pObjBindings ∧
      clear_object_binding sp o = some c ∧ c.ret = true ∧ c.msgs = [] ∧
      (mi.allocInfo.allocationSize = 0 →
        ∃ (f : Out Bool) (out : Out VkResult),
          freeMemObjInfo c.st m true = some f ∧
          vkDestroyObject s t o result = some out ∧ out.ret = result ∧
          out.msgs = pre ++ c.msgs ++ f.msgs ∧
          out.st = { f.st with objectMap := erase f.st.objectMap o } ∧
          lookup out.st.objectMap o = none ∧ lookup out.st.memObjMap m = none ∧
          (∀ d, d ∈ out.msgs → d.msgType ≠ VK_DBG_MSG_WARNING)) ∧
      (mi.allocInfo.allocationSize ≠ 0 →
        ∃ out : Out VkResult,
          vkDestroyObject s t o result = some out ∧ out.ret = result ∧
          out.msgs = pre ++ c.msgs ∧
          out.st = { c.st with objectMap := erase c.st.objectMap o } ∧
          lookup out.st.objectMap o = none ∧
          lookup out.st.memObjMap m =
            some { mp with refCount := (mp.refCount + 4294967295) % 4294967296,
                           pObjBindings := mp.pObjBindings.erase o }) := by
  obtain ⟨hkeyed, hnodup⟩ := reachable_keyed_nodup s hs
  have hin : o ∈ mi.pObjBindings := (hP2.1 o oi m mi ho hm).mp he
  have core : ∀ (sp : State) (pre : List Diag) (mp : MT_MEM_OBJ_INFO),
      (sp = s ∨ sp = delete_fence_info s o ∨ sp = (delete_cmd_buf_info s o).st) →
      ((t = VkObjectType.VK_OBJECT_TYPE_COMMAND_BUFFER → lookup s.cbMap o = none) →
        (sp = s ∨ sp = delete_fence_info s o) ∧ mp = mi) →
      (∀ d, d ∈ pre → d.msgType ≠ VK_DBG_MSG_WARNING) →
      lookup sp.objectMap o = some oi →
      lookup sp.memObjMap m = some mp → mp.allocInfo = mi.allocInfo →
      mp.pObjBindings = mi.pObjBindings → mp.pCmdBufferBindings.Nodup →
      (∀ (c f : Out Bool), clear_object_binding sp o = some c →
        freeMemObjInfo c.st m true = some f → mi.allocInfo.allocationSize = 0 →
        vkDestroyObject s t o result =
          some ⟨result, pre ++ c.msgs ++ f.msgs,
            { f.st with objectMap := erase f.st.objectMap o }⟩) →
      (∀ (c : Out Bool), clear_object_binding sp o = some c →
        mi.allocInfo.allocationSize ≠ 0 →
        vkDestroyObject s t o result =
          some ⟨result, pre ++ c.msgs, { c.st with objectMap := erase c.st.objectMap o }⟩) →
      ∃ (sp : State) (pre : List Diag) (mp : MT_MEM_OBJ_INFO) (c : Out Bool),
      (sp = s ∨ sp = delete_fence_info s o ∨ sp = (delete_cmd_buf_info s o).st) ∧
      ((t = VkObjectType.VK_OBJECT_TYPE_COMMAND_BUFFER → lookup s.cbMap o = none) →
        (sp = s ∨ sp = delete_fence_info s o) ∧ mp = mi) ∧
      (∀ d, d ∈ pre → d.msgType ≠ VK_DBG_MSG_WARNING) ∧
      lookup sp.objectMap o = some oi ∧
      lookup sp.memObjMap m = some mp ∧ mp.allocInfo = mi.allocInfo ∧
      mp.pObjBindings = mi.pObjBindings ∧
      clear_object_binding sp o = some c ∧ c.ret = true ∧ c.msgs = [] ∧
      (mi.allocInfo.allocationSize = 0 →
        ∃ (f : Out Bool) (out : Out VkResult),
          freeMemObjInfo c.st m true = some f ∧
          vkDestroyObject s t o result = some out ∧ out.ret = result ∧
          out.msgs = pre ++ c.msgs ++ f.msgs ∧
          out.st = { f.st with objectMap := erase f.st.objectMap o } ∧
          lookup out.st.objectMap o = none ∧ lookup out.st.memObjMap m = none ∧
          (∀ d, d ∈ out.msgs → d.msgType ≠ VK_DBG_MSG_WARNING)) ∧
      (mi.allocInfo.allocationSize ≠ 0 →
        ∃ out : Out VkResult,
          vkDestroyObject s t o result = some out ∧ out.ret = result ∧
          out.msgs = pre ++ c.msgs ∧
          out.st = { c.st with objectMap := erase c.st.objectMap o } ∧
          lookup out.st.objectMap o = none ∧
          lookup out.st.memObjMap m =
            some { mp with refCount := (mp.refCount + 4294967295) % 4294967296,
                           pObjBindings := mp.pObjBindings.erase o }) := by
    intro sp pre mp hsp hsp2 hpre hosp hmsp halloc hobj hndp hzero hnonzero
    have hinp : o ∈ mp.pObjBindings := by rw [hobj]; exact hin
    obtain ⟨c, f, hc, hcr, hcm, hcl, hf, hfn, hfw⟩ :=
      clear_then_free sp o m oi mp hosp he hmsp hinp hndp
    refine ⟨sp, pre, mp, c, hsp, hsp2, hpre, hosp, hmsp, halloc, hobj, hc, hcr, hcm, ?_, ?_⟩
    · intro hz
      refine ⟨f, _, hf, hzero c f hc hf hz, rfl, rfl, rfl, lookup_erase_self _ _, hfn, ?_⟩
      intro d hd
      rw [hcm] at hd
      simp only [List.append_nil, List.mem_append] at hd
      rcases hd with h | h
      · exact hpre d h
      · exact hfw d h
    · intro hnz
      exact ⟨_, hnonzero c hc hnz, rfl, rfl, rfl, lookup_erase_self _ _, hcl⟩
  have hkey : mi.mem = m := hkeyed m mi hm
  have hndm : mi.pCmdBufferBindings.Nodup := hnodup.2 m mi hm
  cases t with
  | VK_OBJECT_TYPE_COMMAND_BUFFER =>
    obtain ⟨hobjmap, hmemrec, hnorec⟩ := delete_cmd_buf_info_frame s o
    have hcases : lookup s.cbMap o = none ∨ ∃ ci, lookup s.cbMap o = some ci := by
      cases h : lookup s.cbMap o with
      | none => exact Or.inl rfl
      | some ci => exact Or.inr ⟨ci, rfl⟩
    rcases hcases with hcb | ⟨ci, hcb⟩
    · have hdel := hnorec hcb
      refine core s [⟨VK_DBG_MSG_ERROR, o, MEMTRACK_INVALID_CB⟩] mi (Or.inl rfl)
        (fun _ => ⟨Or.inl rfl, rfl⟩) ?_ ho hm rfl rfl hndm ?_ ?_
      · intro d hd
        simp only [List.mem_singleton] at hd
        rw [hd]
        simp
      · intro c f hc hf hz
        simp only [vkDestroyObject, hdel, ho, he, get_mem_obj_info, hm, hz, if_true, hkey, hc, hf]
      · intro c hc hnz
        simp only [vkDestroyObject, hdel, ho, he, get_mem_obj_info, hm, hnz, if_false, hc]
    · obtain ⟨mp, hmp, hmpkey, hmpalloc, hmpobj⟩ := hmemrec m mi hm
      have hosp : lookup (delete_cmd_buf_info s o).st.objectMap o = some oi := by
        rw [hobjmap]
        exact ho
      have hndp : mp.pCmdBufferBindings.Nodup :=
        (delete_cmd_buf_info_nodup s o hnodup).2 m mp hmp
      have hkeyp : mp.mem = m := by rw [hmpkey]; exact hkey
      refine core (delete_cmd_buf_info s o).st (delete_cmd_buf_info s o).msgs mp
        (Or.inr (Or.inr rfl))
        (fun h => absurd (h rfl) (by rw [hcb]; exact fun e => Option.noConfusion e)) ?_ hosp hmp
        hmpalloc hmpobj hndp ?_ ?_
      · intro d hd
        have hmsgs : (delete_cmd_buf_info s o).msgs =
            (clear_cmd_buf_and_mem_references s o).msgs := by
          unfold delete_cmd_buf_info
          dsimp only
          split <;> rfl
        rw [hmsgs] at hd
        exact clear_no_warning s o d hd
      · intro c f hc hf hz
        have hz2 : mp.allocInfo.allocationSize = 0 := by rw [hmpalloc]; exact hz
        simp only [vkDestroyObject, hosp, he, get_mem_obj_info, hmp, hz2, if_true, hkeyp, hc, hf]
      · intro c hc hnz
        have hnz2 : mp.allocInfo.allocationSize ≠ 0 := by rw [hmpalloc]; exact hnz
        simp only [vkDestroyObject, hosp, he, get_mem_obj_info, hmp, hnz2, if_false, hc]
  | VK_OBJECT_TYPE_FENCE =>
    have ho2 : lookup (delete_fence_info s o).objectMap o = some oi := ho
    have hm2 : lookup (delete_fence_info s o).memObjMap m = some mi := hm
    refine core (delete_fence_info s o) [] mi (Or.inr (Or.inl rfl))
      (fun _ => ⟨Or.inr rfl, rfl⟩)
      (fun d hd => absurd hd (List.not_mem_nil d)) ho2 hm2 rfl rfl hndm ?_ ?_
    · intro c f hc hf hz
      simp only [vkDestroyObject, ho2, he, get_mem_obj_info, hm2, hz, if_true, hkey, hc, hf]
    · intro c hc hnz
      simp only [vkDestroyObject, ho2, he, get_mem_obj_info, hm2, hnz, if_false, hc]
  | VK_OBJECT_TYPE_OTHER =>
    refine core s [] mi (Or.inl rfl) (fun _ => ⟨Or.inl rfl, rfl⟩)
      (fun d hd => absurd hd (List.not_mem_nil d)) ho hm rfl rfl hndm ?_ ?_
    · intro c f hc hf hz
      simp only [vkDestroyObject, ho, he, get_mem_obj_info, hm, hz, if_true, hkey, hc, hf]
    · intro c hc hnz
      simp only [vkDestroyObject, ho, he, get_mem_obj_info, hm, hnz, if_false, hc]

/-- Witness for C32: `swapState` is what the creation of swap chain 7 and the
query of its images leave; the persistent image 8 is bound to the swap chain
memory 9, and destroying the image leaves neither record. -/
theorem vkDestroyObject_bound_object_witness :
    Reachable swapState ∧
    ∃ out : Out VkResult,
      vkDestroyObject swapState VkObjectType.VK_OBJECT_TYPE_OTHER 8 VkResult.VK_SUCCESS =
        some out ∧
      lookup out.st.objectMap 8 = none ∧ lookup out.st.memObjMap 9 = none ∧
      (∀ d, d ∈ out.msgs → d.msgType ≠ VK_DBG_MSG_WARNING) := by
  have hreach : Reachable swapState :=
    reachable_run swapTrace (State.init 0) swapState (Reachable.init 0) (by decide)
  obtain ⟨sp, pre, mp, c, _, _, _, _, _, _, _, _, _, _, hz, _⟩ :=
    vkDestroyObject_bound_object swapState
    VkObjectType.VK_OBJECT_TYPE_OTHER 8 9 VkResult.VK_SUCCESS
    { pMemObjInfo := some 9, ref_count := 1, object := 8, sType := 2147483647, flags := 0 }
    { refCount := 1, mem := 9, allocInfo := { allocationSize := 0, memProps := 0 },
      pObjBindings := [8], pCmdBufferBindings := [] }
    hreach
    (by
      constructor
      · intro o oi m mi ho hm
        obtain ⟨rfl, rfl⟩ := lookup_singleton _ _ _ _ ho
        obtain ⟨rfl, rfl⟩ := lookup_singleton _ _ _ _ hm
        simp
      · intro o oi m ho he
        obtain ⟨rfl, rfl⟩ := lookup_singleton _ _ _ _ ho
        cases he
        exact ⟨_, rfl⟩)
    rfl rfl rfl
  obtain ⟨f, out, _, hout, _, _, _, h1, h2, h3⟩ := hz rfl
  exact ⟨hreach, out, hout, h1, h2, h3⟩

/-- The test `size() > 0` of the loop in `freeMemObjInfo`: in `dupSwapState`
the list of memory 9 names command buffer 2 twice; clearing the references of
command buffer 2 empties the list, the loop ends without looking at its saved
iterator, and `vkDestroyObject` erases image 8 and memory 9 without a
message. -/
theorem freeMemObjInfo_size_test_ends_loop :
    (vkDestroyObject dupSwapState VkObjectType.VK_OBJECT_TYPE_OTHER 8 VkResult.VK_SUCCESS).map
      (fun out => (out.msgs, lookup out.st.objectMap 8, lookup out.st.memObjMap 9)) =
      some ([], none, none) := by
  decide

/-! ## The 32-bit and 64-bit counters wrap in reachable states -/

/-- C4 as stated fails: after `wrapTrace` (a reachable state) buffer 8 has a
record with no memory edge and memory 1 has a record with `refCount = 2^32 - 1`;
binding buffer 8 to memory 1 returns `VK_TRUE` with no message and takes the
`refCount` to 0, not up by one. -/
theorem set_object_binding_refCount_wraps :
    ∃ s : State, run (State.init 0) wrapTrace = some s ∧ Reachable s ∧
      lookup s.objectMap 8 =
        some { pMemObjInfo := none, ref_count := 1, object := 8, sType := 12, flags := 0 } ∧
      lookup s.memObjMap 1 =
        some { refCount := 4294967295, mem := 1,
               allocInfo := { allocationSize := 1024, memProps := 0 },
               pObjBindings := [], pCmdBufferBindings := [] } ∧
      (set_object_binding s 8 1).map (fun r => (r.ret, r.msgs, lookup r.st.memObjMap 1)) =
        some (true, [],
          some { refCount := 0, mem := 1,
                 allocInfo := { allocationSize := 1024, memProps := 0 },
                 pObjBindings := [8], pCmdBufferBindings := [] }) := by
  have hrun : run (State.init 0) wrapTrace =
      some { cbMap := [(2, { cmdBuffer := 2, fenceId := 1, lastSubmittedFence := 0,
                             lastSubmittedQueue := 4, pMemObjList := [] })]
             memObjMap := [(1, { refCount := 4294967295, mem := 1,
                                 allocInfo := { allocationSize := 1024, memProps := 0 },
                                 pObjBindings := [], pCmdBufferBindings := [] })]
             objectMap := [(3, { pMemObjInfo := some 1, ref_count := 1, object := 3,
                                 sType := 12, flags := 0 }),
                           (8, { pMemObjInfo := none, ref_count := 1, object := 8,
                                 sType := 12, flags := 0 })]
             fenceMap := []
             queueMap := [(4, { lastRetiredId := 0, lastSubmittedId := 1 })]
             swapChainMap := [], g_currentFenceId := 2, g_reportingLevel := 0 } := by
    decide
  exact ⟨_, hrun, reachable_run _ _ _ (Reachable.init 0) hrun, by decide, by decide, by decide⟩

/-- C26 as stated fails: after `wrapBoundTrace` (a reachable state) buffer 8
has a record that points to memory 1, whose record lists buffer 8 and has
`refCount = 0`; `clear_object_binding(8)` returns `VK_TRUE` with no message and
takes the `refCount` to `2^32 - 1`, not down by one. -/
theorem clear_object_binding_refCount_wraps :
    ∃ s : State, run (State.init 0) wrapBoundTrace = some s ∧ Reachable s ∧
      lookup s.objectMap 8 =
        some { pMemObjInfo := some 1, ref_count := 1, object := 8, sType := 12, flags := 0 } ∧
      lookup s.memObjMap 1 =
        some { refCount := 0, mem := 1,
               allocInfo := { allocationSize := 1024, memProps := 0 },
               pObjBindings := [8], pCmdBufferBindings := [] } ∧
      (clear_object_binding s 8).map (fun r => (r.ret, r.msgs, lookup r.st.memObjMap 1)) =
        some (true, [],
          some { refCount := 4294967295, mem := 1,
                 allocInfo := { allocationSize := 1024, memProps := 0 },
                 pObjBindings := [], pCmdBufferBindings := [] }) := by
  have hrun : run (State.init 0) wrapBoundTrace =
      some { cbMap := [(2, { cmdBuffer := 2, fenceId := 1, lastSubmittedFence := 0,
                             lastSubmittedQueue := 4, pMemObjList := [] })]
             memObjMap := [(1, { refCount := 0, mem := 1,
                                 allocInfo := { allocationSize := 1024, memProps := 0 },
                                 pObjBindings := [8], pCmdBufferBindings := [] })]
             objectMap := [(3, { pMemObjInfo := some 1, ref_count := 1, object := 3,
                                 sType := 12, flags := 0 }),
                           (8, { pMemObjInfo := some 1, ref_count := 1, object := 8,
                                 sType := 12, flags := 0 })]
             fenceMap := []
             queueMap := [(4, { lastRetiredId := 0, lastSubmittedId := 1 })]
             swapChainMap := [], g_currentFenceId := 2, g_reportingLevel := 0 } := by
    decide
  exact ⟨_, hrun, reachable_run _ _ _ (Reachable.init 0) hrun, by decide, by decide, by decide⟩

/-- C7 as stated fails: after `staleAllocTrace` (a reachable state) command
buffer 2 has a record that lists memory 1, and memory 1 has a record with
`refCount = 0` (the new allocation under the old handle);
`clear_cmd_buf_and_mem_references(2)` returns `VK_TRUE`, empties the list and
takes the `refCount` of memory 1 to `2^32 - 1`, not down by one. -/
theorem clear_cmd_buf_and_mem_references_refCount_wraps :
    ∃ s : State, run (State.init 0) staleAllocTrace = some s ∧ Reachable s ∧
      lookup s.cbMap 2 =
        some { cmdBuffer := 2, fenceId := 1, lastSubmittedFence := 0, lastSubmittedQueue := 4,
               pMemObjList := [1] } ∧
      lookup s.memObjMap 1 =
        some { refCount := 0, mem := 1,
               allocInfo := { allocationSize := 1024, memProps := 0 },
               pObjBindings := [], pCmdBufferBindings := [] } ∧
      (clear_cmd_buf_and_mem_references s 2).ret = true ∧
      (lookup (clear_cmd_buf_and_mem_references s 2).st.cbMap 2).map
        (fun c => c.pMemObjList) = some [] ∧
      lookup (clear_cmd_buf_and_mem_references s 2).st.memObjMap 1 =
        some { refCount := 4294967295, mem := 1,
               allocInfo := { allocationSize := 1024, memProps := 0 },
               pObjBindings := [], pCmdBufferBindings := [] } := by
  have hrun : run (State.init 0) staleAllocTrace =
      some { cbMap := [(2, { cmdBuffer := 2, fenceId := 1, lastSubmittedFence := 0,
                             lastSubmittedQueue := 4, pMemObjList := [1] })]
             memObjMap := [(1, { refCount := 0, mem := 1,
                                 allocInfo := { allocationSize := 1024, memProps := 0 },
                                 pObjBindings := [], pCmdBufferBindings := [] })]
             objectMap := [(3, { pMemObjInfo := some 1, ref_count := 1, object := 3,
                                 sType := 12, flags := 0 })]
             fenceMap := []
             queueMap := [(4, { lastRetiredId := 0, lastSubmittedId := 1 })]
             swapChainMap := [], g_currentFenceId := 2, g_reportingLevel := 0 } := by
    decide
  exact ⟨_, hrun, reachable_run _ _ _ (Reachable.init 0) hrun, by decide, by decide, by decide,
    by decide, by decide⟩

/-- C6 as stated fails: after `twoStaleTrace` (a reachable state) command
buffer 2 and memory 1 have records, command buffer 2 is not in the list of
memory 1, and the `refCount` of memory 1 is `2^32 - 1`;
`update_cmd_buf_and_mem_references(2, 1)` returns `VK_TRUE`, pushes the command
buffer on the list and takes the `refCount` to 0, not up by one. -/
theorem update_cmd_buf_and_mem_references_refCount_wraps :
    ∃ s : State, run (State.init 0) twoStaleTrace = some s ∧ Reachable s ∧
      lookup s.cbMap 2 =
        some { cmdBuffer := 2, fenceId := 1, lastSubmittedFence := 0, lastSubmittedQueue := 4,
               pMemObjList := [] } ∧
      lookup s.memObjMap 1 =
        some { refCount := 4294967295, mem := 1,
               allocInfo := { allocationSize := 1024, memProps := 0 },
               pObjBindings := [8], pCmdBufferBindings := [] } ∧
      (update_cmd_buf_and_mem_references s 2 1).ret = true ∧
      lookup (update_cmd_buf_and_mem_references s 2 1).st.memObjMap 1 =
        some { refCount := 0, mem := 1,
               allocInfo := { allocationSize := 1024, memProps := 0 },
               pObjBindings := [8], pCmdBufferBindings := [2] } := by
  have hrun : run (State.init 0) twoStaleTrace =
      some { cbMap := [(2, { cmdBuffer := 2, fenceId := 1, lastSubmittedFence := 0,
                             lastSubmittedQueue := 4, pMemObjList := [] }),
                       (6, { cmdBuffer := 6, fenceId := 1, lastSubmittedFence := 0,
                             lastSubmittedQueue := 4, pMemObjList := [] })]
             memObjMap := [(1, { refCount := 4294967295, mem := 1,
                                 allocInfo := { allocationSize := 1024, memProps := 0 },
                                 pObjBindings := [8], pCmdBufferBindings := [] })]
             objectMap := [(3, { pMemObjInfo := some 1, ref_count := 1, object := 3,
                                 sType := 12, flags := 0 }),
                           (8, { pMemObjInfo := some 1, ref_count := 1, object := 8,
                                 sType := 12, flags := 0 })]
             fenceMap := []
             queueMap := [(4, { lastRetiredId := 0, lastSubmittedId := 1 })]
             swapChainMap := [], g_currentFenceId := 2, g_reportingLevel := 0 } := by
    decide
  exact ⟨_, hrun, reachable_run _ _ _ (Reachable.init 0) hrun, by decide, by decide, by decide,
    by decide⟩

/-- C13 as stated fails: there is a reachable state whose counter stands at
`2^64 - 1` (after `2^64 - 2` submissions); `add_fence_info` returns that value
and takes the counter to 0, not up by one. -/
theorem add_fence_info_counter_wraps :
    ∃ s : State, Reachable s ∧ s.g_currentFenceId = 18446744073709551615 ∧
      (add_fence_info s 7 4).ret = 18446744073709551615 ∧
      (add_fence_info s 7 4).st.g_currentFenceId = 0 := by
  obtain ⟨s, hs, hg⟩ := reachable_counter 18446744073709551614
  have hg2 : s.g_currentFenceId = 18446744073709551615 := hg
  refine ⟨s, hs, hg2, ?_, ?_⟩
  · rw [(add_fence_info_counter s 7 4).1, hg2]
  · rw [(add_fence_info_counter s 7 4).2, hg2]

/-! ## Rebinding an object whose memory was freed -/

/-- C5 fails on the code: after `danglingTrace` (a reachable state) buffer 3
still points to memory 1, whose record the free has erased, and memory 5 has a
record.  Binding buffer 3 to memory 5 has no defined outcome: the rebind
message of `set_object_binding` reads `pObjInfo->pMemObjInfo->mem` through the
dangling pointer.  When the memory the object points to still has its record,
the rebind is refused with one `MEMTRACK_REBIND_OBJECT` error and nothing
changes. -/
theorem set_object_binding_rebind_reads_freed_record :
    (∃ s : State, run (State.init 0) danglingTrace = some s ∧ Reachable s ∧
      lookup s.objectMap 3 =
        some { pMemObjInfo := some 1, ref_count := 1, object := 3, sType := 12, flags := 0 } ∧
      lookup s.memObjMap 1 = none ∧
      lookup s.memObjMap 5 =
        some { refCount := 0, mem := 5,
               allocInfo := { allocationSize := 1024, memProps := 0 },
               pObjBindings := [], pCmdBufferBindings := [] } ∧
      set_object_binding s 3 5 = none ∧
      vkBindObjectMemory s 3 5 VkResult.VK_SUCCESS = none ∧
      applyOp s (Op.bindObjectMemory 3 5 VkResult.VK_SUCCESS) = none) ∧
    (∀ (s : State) (o M1 M2 : Handle) (oi : MT_OBJ_INFO) (r1 r2 : MT_MEM_OBJ_INFO),
      lookup s.objectMap o = some oi → oi.pMemObjInfo = some M1 →
      lookup s.memObjMap M1 = some r1 → M2 ≠ VK_NULL_HANDLE →
      lookup s.memObjMap M2 = some r2 →
      set_object_binding s o M2 =
        some ⟨false, [⟨VK_DBG_MSG_ERROR, M2, MEMTRACK_REBIND_OBJECT⟩], s⟩) := by
  have hrun : run (State.init 0) danglingTrace =
      some { cbMap := []
             memObjMap := [(5, { refCount := 0, mem := 5,
                                 allocInfo := { allocationSize := 1024, memProps := 0 },
                                 pObjBindings := [], pCmdBufferBindings := [] })]
             objectMap := [(3, { pMemObjInfo := some 1, ref_count := 1, object := 3,
                                 sType := 12, flags := 0 })]
             fenceMap := [], queueMap := [], swapChainMap := []
             g_currentFenceId := 1, g_reportingLevel := 0 } := by
    decide
  refine ⟨⟨_, hrun, reachable_run _ _ _ (Reachable.init 0) hrun, by decide, by decide,
    by decide, by decide, by decide, by decide⟩, ?_⟩
  intro s o M1 M2 oi r1 r2 ho he h1 hM2 h2
  exact set_object_binding_rebind_rejected s o M1 M2 oi r1 r2 ho he h1 hM2 h2

/-! ## Submission with a signalled fence and an unknown command buffer -/

/-- C23 fails on the code: after `signalledTrace` (a reachable state) fence 7
has an object record with the signalled bit set, command buffer 2 has a record
and the handle 3 has none.  `vkQueueSubmit(4, [2, 3], 7)` reports the fence in
`add_fence_info` and then stores the fence id through the null pointer
`get_cmd_buf_info(3)` returned: the call has no defined outcome, so the
submission does not proceed. -/
theorem vkQueueSubmit_signalled_fence_unknown_cmd_buffer :
    ∃ s : State, run (State.init 0) signalledTrace = some s ∧ Reachable s ∧
      lookup s.objectMap 7 =
        some { pMemObjInfo := none, ref_count := 1, object := 7, sType := 0, flags := 1 } ∧
      (1 : Nat) &&& VK_FENCE_CREATE_SIGNALED_BIT ≠ 0 ∧
      (∃ ci, lookup s.cbMap 2 = some ci) ∧ lookup s.cbMap 3 = none ∧
      (add_fence_info s 7 4).msgs = [⟨VK_DBG_MSG_ERROR, 7, MEMTRACK_INVALID_FENCE_STATE⟩] ∧
      vkQueueSubmit s 4 [2, 3] 7 VkResult.VK_SUCCESS = none ∧
      applyOp s (Op.queueSubmit 4 [2, 3] 7 VkResult.VK_SUCCESS) = none := by
  have hrun : run (State.init 0) signalledTrace =
      some { cbMap := [(2, { cmdBuffer := 2, fenceId := 0, lastSubmittedFence := 0,
                             lastSubmittedQueue := 0, pMemObjList := [] })]
             memObjMap := []
             objectMap := [(7, { pMemObjInfo := none, ref_count := 1, object := 7,
                                 sType := 0, flags := 1 })]
             fenceMap := [], queueMap := [], swapChainMap := []
             g_currentFenceId := 1, g_reportingLevel := 0 } := by
    decide
  exact ⟨_, hrun, reachable_run _ _ _ (Reachable.init 0) hrun, by decide, by decide,
    ⟨_, rfl⟩, by decide, by decide, by decide, by decide⟩

end MemTracker
